import Mathlib

/-!
# Shore-kits: DORA group commit, workers and tables; key-range map; tuple format

A shallow embedding of

* `src/dora/dflusher.cpp`  (`dora_flusher_t`, `dora_notifier_t`),
* `include/dora/worker.h`  (`dora_worker_t`),
* `src/dora/tpcc/dora_new_order.cpp` (`calc_keys` of the NewOrder actions,
  `mid_nord_rvp::run`, the field numbers of `upd_sto_nord_action::trx_exec`),
* `src/util/key_ranges_map.cpp` (`key_ranges_map`),
* `include/dora/part_table.h` (`part_table_t`),
* `include/sm/shore/shore_table_man.h` (`table_man_impl::format`, `load` and
  `get_pnum`),
* `src/sm/shore/shore_sort_buf.cpp` (`sort_man_impl`),
* `src/tuple.cpp` (`tuple_buffer_t`),

followed by the theorems proved about them.

Conventions of the embedding.

* A queue is the list of its entries, head first; `pop` on a non-empty queue
  returns the head, `push`/`enqueue` append at the tail.
* Calls into the storage engine and the clock are inputs of a generation
  (`gen_input`); every externally visible call is recorded, in program order,
  in the `trace` field of the state.
* `assert (c)` with `c` false stops the program: the state is marked `aborted`
  and nothing further is executed.
* `uint` is a natural number reduced modulo `2 ^ 32`; `long` is 64 bits wide and
  is modelled by `Int`.
* A function whose behaviour is undefined in C++ on some input (reading
  `end()` of a map, indexing a vector out of bounds, overflow of an `int`)
  has an `Option` or a three-valued result, and that input has no value.
-/

namespace dora

/-! ## Data model of the group-commit pipeline -/

/-- Log sequence number of the storage engine (`lsn_t`); only its order is used. -/
abbrev lsn_t := Nat

/-- A terminal rendezvous point as the flusher sees it: the transaction it
finalises and `my_last_lsn()`. Two queue entries are the same RVP when they are
equal as values. -/
structure terminal_rvp_t where
  tid : Nat
  my_last_lsn : lsn_t
deriving DecidableEq, Repr

/-- Externally visible calls made by the flusher and the notifier. -/
inductive Event where
  | get_durable_lsn (d : lsn_t)
  | enqueue_tonotify (r : terminal_rvp_t)
  | push_flushing (r : terminal_rvp_t)
  | sync_log
  | assert_failed (r : terminal_rvp_t)
  | notifier_stop
  | notifier_join
  | upd_committed_stats (r : terminal_rvp_t)
  | notify_client (r : terminal_rvp_t)
  | notify (r : terminal_rvp_t)
  | giveback (r : terminal_rvp_t)
deriving DecidableEq, Repr

/-- The fields of `struct timespec`. -/
structure timespec where
  tv_sec : Int
  tv_nsec : Int
deriving DecidableEq, Repr

/-- The counters of `_stats` that `dflusher.cpp` updates. -/
structure dora_flusher_stats_t where
  served : Nat := 0
  alreadyFlushed : Nat := 0
  trigByXcts : Nat := 0
  trigBySize : Nat := 0
  trigByTimeout : Nat := 0
  flushes : Nat := 0
  waiting : Nat := 0
  logsize : Int := 0
deriving DecidableEq, Repr

/-- State of the pipeline: the two queues of the flusher, the queue of the
notifier it owns, the statistics, and the local variables of
`dora_flusher_t::_work_ACTIVE_impl` that live across generations. -/
structure dora_flusher_t where
  toflush : List terminal_rvp_t := []
  flushing : List terminal_rvp_t := []
  tonotify : List terminal_rvp_t := []
  stats : dora_flusher_stats_t := {}
  waiting : Nat := 0
  logWaiting : Int := 0
  bShouldFlush : Bool := false
  bSleepNext : Bool := false
  durablelsn : lsn_t := 0
  maxlsn : lsn_t := 0
  start : timespec := ⟨0, 0⟩
  ts : timespec := ⟨0, 0⟩
  trace : List Event := []
  aborted : Bool := false
deriving DecidableEq, Repr

/-- Conversion of an `int` to `uint`. -/
def to_uint (x : Int) : Nat := (x % 2 ^ 32).toNat

def DFLUSHER_GROUP_SIZE_THRESHOLD : Int := 100
def DFLUSHER_LOG_SIZE_THRESHOLD : Int := 200000
def DFLUSHER_TIME_THRESHOLD : Int := 1000
def BILLION : Int := 1000 * 1000 * 1000

/-- Modelled from the spec: `envVar::getVarInt(name, default)` is not part of the
sources; it yields the value of the option when the option is set and the given
default otherwise. -/
def getVarInt (ev : String → Option Int) (name : String) (dflt : Int) : Int :=
  (ev name).getD dflt

/-- The configuration read at the top of `_work_ACTIVE_impl`, and the function
`_stats._log_diff`, whose definition (in `dflusher.h`) is not part of the
sources and is therefore a parameter. -/
structure flusher_conf where
  maxGroupSize : Nat
  maxLogSize : Nat
  maxTimeIntervalusec : Nat
  log_diff : lsn_t → lsn_t → Int

/-- Lines 93-95: the three thresholds, read as `int` and stored in `uint`s. -/
def read_configuration (ev : String → Option Int) (log_diff : lsn_t → lsn_t → Int) :
    flusher_conf where
  maxGroupSize := to_uint (getVarInt ev "flusher-group-size" DFLUSHER_GROUP_SIZE_THRESHOLD)
  maxLogSize := to_uint (getVarInt ev "flusher-log-size" DFLUSHER_LOG_SIZE_THRESHOLD)
  maxTimeIntervalusec := to_uint (getVarInt ev "flusher-timeout" DFLUSHER_TIME_THRESHOLD)
  log_diff := log_diff

/-- Lines 109-114 and 186-191: the next deadline, `maxTimeIntervalusec * 1000`
nanoseconds (a `uint` product) after `start`. -/
def set_timeout (maxTimeIntervalusec : Nat) (start : timespec) : timespec :=
  let nsec := start.tv_nsec + ((maxTimeIntervalusec * 1000 % 2 ^ 32 : Nat) : Int)
  if nsec > BILLION then ⟨start.tv_sec + 1, nsec - BILLION⟩ else ⟨start.tv_sec, nsec⟩

/-- Lines 180-181: has the deadline `ts` passed at time `start`? -/
def deadline_passed (start ts : timespec) : Bool :=
  decide (start.tv_sec > ts.tv_sec) ||
    (decide (start.tv_sec = ts.tv_sec) && decide (start.tv_nsec > ts.tv_nsec))

/-- What the environment answers during one generation of the flusher loop. -/
structure gen_input where
  /-- result of `get_durable_lsn` at line 125 -/
  durable1 : lsn_t
  /-- result of `clock_gettime` at line 179 -/
  now : timespec
  /-- `get_control() == WC_ACTIVE` at line 203 -/
  active : Bool
  /-- result of `get_durable_lsn` at line 224 -/
  durable2 : lsn_t
deriving DecidableEq, Repr

namespace dora_flusher_t

/-- All entries of the three queues. -/
def queues (s : dora_flusher_t) : List terminal_rvp_t :=
  s.toflush ++ s.flushing ++ s.tonotify

/-- Lines 135-159: the body of the drain loop for the value `prvp` that
`_toflush->pop()` returned (`none` is `NULL`). -/
def drain_body (prvp : Option terminal_rvp_t) (s : dora_flusher_t) : dora_flusher_t :=
  let s1 : dora_flusher_t :=
    match prvp with
    | some r =>
      let xctlsn := r.my_last_lsn
      if s.durablelsn > xctlsn then
        { s with
          tonotify := s.tonotify ++ [r]
          trace := s.trace ++ [Event.enqueue_tonotify r]
          stats := { s.stats with alreadyFlushed := s.stats.alreadyFlushed + 1 } }
      else
        { s with
          maxlsn := max s.maxlsn xctlsn
          flushing := s.flushing ++ [r]
          trace := s.trace ++ [Event.push_flushing r]
          waiting := (s.waiting + 1) % 2 ^ 32 }
    | none => s
  { s1 with bSleepNext := false, stats := { s1.stats with served := s1.stats.served + 1 } }

/-- Lines 129-160: `while ((!_toflush->is_empty()) || (bSleepNext))`, by recursion
on the content of the queue. On an empty queue with `bSleepNext` set, `pop`
waits; a transaction that arrives meanwhile is an entry of the queue, so the
remaining case is the one where `pop` returns `NULL`. -/
def drain_loop : List terminal_rvp_t → dora_flusher_t → dora_flusher_t
  | [], s => if s.bSleepNext then drain_body none { s with toflush := [] } else s
  | r :: q, s => drain_loop q (drain_body (some r) { s with toflush := q })

def drain_toflush (s : dora_flusher_t) : dora_flusher_t := drain_loop s.toflush s

/-- Lines 162-201: the flush decision. -/
def decide_flush (c : flusher_conf) (now : timespec) (s : dora_flusher_t) : dora_flusher_t :=
  if s.waiting ≥ c.maxGroupSize then
    { s with bShouldFlush := true, stats := { s.stats with trigByXcts := s.stats.trigByXcts + 1 } }
  else
    let s := { s with logWaiting := c.log_diff s.maxlsn s.durablelsn }
    if s.logWaiting ≥ (c.maxLogSize : Int) then
      { s with bShouldFlush := true, stats := { s.stats with trigBySize := s.stats.trigBySize + 1 } }
    else
      let s := { s with start := now }
      if deadline_passed s.start s.ts then
        { s with
          bShouldFlush := true
          stats := { s.stats with trigByTimeout := s.stats.trigByTimeout + 1 }
          ts := set_timeout c.maxTimeIntervalusec s.start }
      else
        let s := if s.waiting ≠ 0 then { s with trace := s.trace ++ [Event.sync_log] } else s
        { s with bSleepNext := true }

/-- Lines 210-218: the blocking flush. -/
def flush (s : dora_flusher_t) : dora_flusher_t :=
  if s.bShouldFlush then
    { s with
      stats := { s.stats with
        flushes := s.stats.flushes + 1
        waiting := s.stats.waiting + s.waiting
        logsize := s.stats.logsize + s.logWaiting }
      trace := s.trace ++ [Event.sync_log]
      waiting := 0
      logWaiting := 0 }
  else s

/-- Lines 225-231: `while (!_flushing->is_empty())`, by recursion on the content of
the queue. -/
def forward_loop : List terminal_rvp_t → dora_flusher_t → dora_flusher_t
  | [], s => s
  | r :: q, s =>
    let xctlsn := r.my_last_lsn
    if xctlsn < s.durablelsn then
      forward_loop q
        { s with
          flushing := q
          tonotify := s.tonotify ++ [r]
          trace := s.trace ++ [Event.enqueue_tonotify r] }
    else
      { s with flushing := q, trace := s.trace ++ [Event.assert_failed r], aborted := true }

/-- Lines 119-126: reset of the flags and first reading of the durable LSN. -/
def begin_generation (i : gen_input) (s : dora_flusher_t) : dora_flusher_t :=
  { s with
    bShouldFlush := false
    durablelsn := i.durable1
    maxlsn := i.durable1
    trace := s.trace ++ [Event.get_durable_lsn i.durable1] }

/-- Line 224: the durable LSN is read again. -/
def reread_durable (i : gen_input) (s : dora_flusher_t) : dora_flusher_t :=
  { s with
    durablelsn := i.durable2
    trace := s.trace ++ [Event.get_durable_lsn i.durable2] }

/-- Lines 225-231 on the current content of the flushing queue. -/
def forward_flushing (s : dora_flusher_t) : dora_flusher_t := forward_loop s.flushing s

/-- Lines 119-231: one generation, the body of `while (get_control() == WC_ACTIVE)`. -/
def generation (c : flusher_conf) (i : gen_input) (s : dora_flusher_t) : dora_flusher_t :=
  let s := decide_flush c i.now (drain_toflush (begin_generation i s))
  if i.active then forward_flushing (reread_durable i (flush s)) else s

/-- Lines 117-233: the loop over the generations. The list holds one input per
generation entered; it ends when `get_control()` is no longer `WC_ACTIVE` at
the head of the loop. -/
def work_loop (c : flusher_conf) : List gen_input → dora_flusher_t → dora_flusher_t
  | [], s => s
  | i :: is, s =>
    let s1 := generation c i s
    if s1.aborted || !i.active then s1 else work_loop c is s1

/-- Lines 85-234: `dora_flusher_t::_work_ACTIVE_impl`. `start0` is the clock read
at line 106. -/
def _work_ACTIVE_impl (ev : String → Option Int) (log_diff : lsn_t → lsn_t → Int)
    (start0 : timespec) (inputs : List gen_input) (s : dora_flusher_t) : dora_flusher_t :=
  let c := read_configuration ev log_diff
  let s := { s with
    waiting := 0
    bShouldFlush := false
    logWaiting := 0
    bSleepNext := false
    start := start0
    ts := set_timeout c.maxTimeIntervalusec start0 }
  work_loop c inputs s

/-- Lines 262-267 and 269-274: `while (!q->is_empty())` of `_pre_STOP_impl`; the
second component counts `afterStop` (a `uint`). -/
def stop_loop : List terminal_rvp_t → List Event × Nat → List Event × Nat
  | [], acc => acc
  | r :: q, (t, afterStop) =>
    stop_loop q (t ++ [Event.notify_client r, Event.giveback r], (afterStop + 1) % 2 ^ 32)

/-- Lines 248-282: `dora_flusher_t::_pre_STOP_impl`. -/
def _pre_STOP_impl (s : dora_flusher_t) : dora_flusher_t :=
  let t := s.trace ++ [Event.notifier_stop, Event.notifier_join]
  let a1 := stop_loop s.flushing (t, 0)
  let a2 := stop_loop s.toflush a1
  { s with flushing := [], toflush := [], trace := a2.1 }

end dora_flusher_t

namespace dora_notifier_t

/-- Lines 335-347: one iteration of the notifier loop. `pop` waits on an empty
queue and returns `NULL` when the thread is told to stop. -/
def iteration (s : dora_flusher_t) : dora_flusher_t :=
  match s.tonotify with
  | [] => s
  | r :: q =>
    { s with
      tonotify := q
      trace := s.trace ++
        [Event.upd_committed_stats r, Event.notify_client r, Event.notify r, Event.giveback r] }

/-- Lines 323-350: `dora_notifier_t::_work_ACTIVE_impl`, for `n` iterations. -/
def _work_ACTIVE_impl : Nat → dora_flusher_t → dora_flusher_t
  | 0, s => s
  | n + 1, s => _work_ACTIVE_impl n (iteration s)

/-- Lines 368-377: the loop of `dora_notifier_t::_pre_STOP_impl`. -/
def stop_loop : List terminal_rvp_t → List Event × Nat → List Event × Nat
  | [], acc => acc
  | r :: q, (t, afterStop) =>
    stop_loop q
      (t ++ [Event.upd_committed_stats r, Event.notify_client r, Event.giveback r],
        (afterStop + 1) % 2 ^ 32)

/-- Lines 364-384: `dora_notifier_t::_pre_STOP_impl`. -/
def _pre_STOP_impl (s : dora_flusher_t) : dora_flusher_t :=
  { s with tonotify := [], trace := (stop_loop s.tonotify (s.trace, 0)).1 }

end dora_notifier_t

/-! ## The pipeline as a transition system on the three queues -/

/-- The steps of the two threads: a generation of the flusher loop, an iteration
of the notifier loop, and the two drains at stop. -/
inductive gc_step where
  | flusher_generation (i : gen_input)
  | notifier_iteration
  | flusher_pre_STOP
  | notifier_pre_STOP
deriving DecidableEq, Repr

def gc_step.apply (c : flusher_conf) : gc_step → dora_flusher_t → dora_flusher_t
  | .flusher_generation i, s => dora_flusher_t.generation c i s
  | .notifier_iteration, s => dora_notifier_t.iteration s
  | .flusher_pre_STOP, s => dora_flusher_t._pre_STOP_impl s
  | .notifier_pre_STOP, s => dora_notifier_t._pre_STOP_impl s

/-- The state after a sequence of steps; nothing runs after a failed assertion. -/
def run_steps (c : flusher_conf) : List gc_step → dora_flusher_t → dora_flusher_t
  | [], s => s
  | st :: l, s =>
    let s1 := st.apply c s
    if s1.aborted then s1 else run_steps c l s1

/-! ## Data model of the partition worker (`include/dora/worker.h`) -/

/-- The return code `w_rc_t` of the storage manager: `RCOK` or an error with its
number. -/
inductive w_rc_t where
  | RCOK
  | RC (err_num : Int)
deriving DecidableEq, Repr

def w_rc_t.is_error : w_rc_t → Bool
  | .RCOK => false
  | .RC _ => true

def w_rc_t.err_num : w_rc_t → Int
  | .RCOK => 0
  | .RC n => n

/-- The compile-time switches `ONLYDORA` and `MIDWAY_ABORTS` of `_serve_action`,
and the error codes it uses, whose values are not declared in the sources. -/
structure worker_build where
  ONLYDORA : Bool
  MIDWAY_ABORTS : Bool
  de_MIDWAY_ABORT : Int
  de_WORKER_RUN_XCT : Int
  de_EARLY_ABORT : Int
  de_WORKER_RUN_RVP : Int

/-- Modelled from the spec: the class `rvp_t` (`rvp.h`) is not part of the sources.
An RVP has an expected and a received count and a sticky abort flag; `run` is
the code its `run()` returns when it is called. -/
structure rvp_t where
  expected : Nat
  received : Nat
  aborted : Bool
  run : w_rc_t
deriving DecidableEq, Repr

/-- Modelled from the spec: `rvp_t::post(is_error)` increments `received`, ORs
`is_error` into the abort flag and returns true iff `received == expected`. -/
def rvp_t.post (is_error : Bool) (r : rvp_t) : Bool × rvp_t :=
  let r1 := { r with received := r.received + 1, aborted := r.aborted || is_error }
  (decide (r1.received = r1.expected), r1)

/-- Modelled from the spec: `rvp_t::isAborted()` reads the abort flag. -/
def rvp_t.isAborted (r : rvp_t) : Bool := r.aborted

/-- An action as the worker sees it (`base_action_t`): its transaction, the
address of its RVP, and what its methods `is_ready()`, `trx_acq_locks()` and
`trx_exec()` answer when the worker calls them. -/
structure base_action_t where
  tid : Nat
  rvp : Nat
  is_ready : Bool
  trx_acq_locks : Bool
  trx_exec : w_rc_t
deriving DecidableEq, Repr

/-- Calls made by the worker, in program order. -/
inductive WEvent where
  | dequeue_commit (a : base_action_t)
  | trx_rel_locks (a : base_action_t)
  | giveback (a : base_action_t)
  | dequeue (a : Option base_action_t)
  | trx_acq_locks (a : base_action_t)
  | serve_action (a : base_action_t)
  | attach_xct (a : base_action_t)
  | trx_exec (a : base_action_t)
  | detach_xct (a : base_action_t)
  | post (rvp : Nat) (is_error : Bool)
  | rvp_run (rvp : Nat)
  | rvp_notify (rvp : Nat)
  | rvp_giveback (rvp : Nat)
deriving DecidableEq, Repr

/-- The counters of the worker statistics that `worker.h` updates. -/
structure worker_stats_t where
  _processed : Nat := 0
  _problems : Nat := 0
  _early_aborts : Nat := 0
  _mid_aborts : Nat := 0
  _served_waiting : Nat := 0
  _checked_input : Nat := 0
  _served_input : Nat := 0
deriving DecidableEq, Repr

/-- State of a worker: the RVPs by address, the statistics, the calls made so
far, and whether an assertion has failed. -/
structure dora_worker_t where
  rvps : Nat → rvp_t
  stats : worker_stats_t := {}
  trace : List WEvent := []
  aborted : Bool := false

/-- One pass of `while (_partition->has_committed())`: the action that
`dequeue_commit()` returns and the lists that its `trx_rel_locks` fills. -/
structure commit_input where
  apa : base_action_t
  actionReadyList : List base_action_t
  actionPromotedList : List base_action_t
deriving DecidableEq, Repr

/-- What the partition answers during one generation of the worker loop:
`has_committed()` is true once for every entry of `commits` and false then;
`input` is what `dequeue()` returns. -/
structure worker_gen_input where
  commits : List commit_input
  input : Option base_action_t
deriving DecidableEq, Repr

namespace dora_worker_t

def emit (es : List WEvent) (w : dora_worker_t) : dora_worker_t :=
  { w with trace := w.trace ++ es }

/-- Lines 210-255 of `worker.h`: the part of `_serve_action` that runs the action
body; it yields the state, `is_error` and `r_code`. -/
def exec_action (b : worker_build) (paction : base_action_t) (w : dora_worker_t) :
    dora_worker_t × Bool × Int :=
  if !(w.rvps paction.rvp).isAborted then
    let w := if !b.ONLYDORA then emit [WEvent.attach_xct paction] w else w
    let e := paction.trx_exec
    let w := emit [WEvent.trx_exec paction] w
    let r : dora_worker_t × Bool × Int :=
      if e.is_error then
        if b.MIDWAY_ABORTS && decide (e.err_num = b.de_MIDWAY_ABORT) then
          ({ w with stats := { w.stats with _mid_aborts := w.stats._mid_aborts + 1 } },
            false, b.de_MIDWAY_ABORT)
        else
          ({ w with stats := { w.stats with _problems := w.stats._problems + 1 } },
            true, b.de_WORKER_RUN_XCT)
      else (w, false, 0)
    let w := if !b.ONLYDORA then emit [WEvent.detach_xct paction] r.1 else r.1
    (w, r.2.1, r.2.2)
  else
    ({ w with stats := { w.stats with _early_aborts := w.stats._early_aborts + 1 } },
      false, b.de_EARLY_ABORT)

/-- Lines 257-275 of `worker.h`: post to the RVP and, for the last caller, run it. -/
def finalize (b : worker_build) (paction : base_action_t) (is_error : Bool) (r_code : Int)
    (w : dora_worker_t) : dora_worker_t × Int :=
  let p := (w.rvps paction.rvp).post is_error
  let w := emit [WEvent.post paction.rvp is_error]
    { w with rvps := Function.update w.rvps paction.rvp p.2 }
  if p.1 then
    let e := p.2.run
    let w := emit [WEvent.rvp_run paction.rvp] w
    let r_code := if e.is_error then b.de_WORKER_RUN_RVP else r_code
    let w := emit [WEvent.rvp_notify paction.rvp, WEvent.rvp_giveback paction.rvp] w
    (w, r_code)
  else (w, r_code)

/-- Lines 193-280 of `worker.h`: `dora_worker_t::_serve_action`. The pointers
`paction` and `aprvp` are not null; `assert (paction->is_ready())` stops the
program when the action is not ready. -/
def _serve_action (b : worker_build) (paction : base_action_t) (w : dora_worker_t) :
    dora_worker_t × Int :=
  let w := emit [WEvent.serve_action paction] w
  if !paction.is_ready then ({ w with aborted := true }, 0)
  else
    let x := exec_action b paction w
    let y := finalize b paction x.2.1 x.2.2 x.1
    ({ y.1 with stats := { y.1.stats with _processed := y.1.stats._processed + 1 } }, y.2)

/-- Line 149 of `worker.h`: `++_stats._served_waiting`. -/
def incr_served_waiting (w : dora_worker_t) : dora_worker_t :=
  { w with stats := { w.stats with _served_waiting := w.stats._served_waiting + 1 } }

/-- Line 168 of `worker.h`: `++_stats._checked_input`. -/
def incr_checked_input (w : dora_worker_t) : dora_worker_t :=
  { w with stats := { w.stats with _checked_input := w.stats._checked_input + 1 } }

/-- Line 174 of `worker.h`: `++_stats._served_input`. -/
def incr_served_input (w : dora_worker_t) : dora_worker_t :=
  { w with stats := { w.stats with _served_input := w.stats._served_input + 1 } }

/-- Lines 147-150 of `worker.h`: the loop over `actionReadyList`. -/
def serve_ready (b : worker_build) : List base_action_t → dora_worker_t → dora_worker_t
  | [], w => w
  | a :: l, w =>
    let w1 := (_serve_action b a w).1
    if w1.aborted then w1 else serve_ready b l (incr_served_waiting w1)

/-- Lines 130-155 of `worker.h`: `while (_partition->has_committed())`. -/
def release_committed (b : worker_build) : List commit_input → dora_worker_t → dora_worker_t
  | [], w => w
  | c :: cs, w =>
    let w := emit [WEvent.dequeue_commit c.apa, WEvent.trx_rel_locks c.apa,
      WEvent.giveback c.apa] w
    let w := serve_ready b c.actionReadyList w
    if w.aborted then w else release_committed b cs w

/-- Lines 163-176 of `worker.h`: one action of the input queue. -/
def serve_input (b : worker_build) (input : Option base_action_t) (w : dora_worker_t) :
    dora_worker_t :=
  let w := emit [WEvent.dequeue input] w
  match input with
  | none => w
  | some apa =>
    let w := emit [WEvent.trx_acq_locks apa] (incr_checked_input w)
    if apa.trx_acq_locks then
      let w1 := (_serve_action b apa w).1
      if w1.aborted then w1 else incr_served_input w1
    else w

/-- Lines 119-177 of `worker.h`: one generation of the worker loop. -/
def generation (b : worker_build) (i : worker_gen_input) (w : dora_worker_t) : dora_worker_t :=
  let w := release_committed b i.commits w
  if w.aborted then w else serve_input b i.input w

/-- Lines 119-178 of `worker.h`: the loop of `dora_worker_t::_work_ACTIVE_impl`, one
input per generation entered. -/
def _work_ACTIVE_impl (b : worker_build) : List worker_gen_input → dora_worker_t → dora_worker_t
  | [], w => w
  | i :: is, w =>
    let w1 := generation b i w
    if w1.aborted then w1 else _work_ACTIVE_impl b is w1

end dora_worker_t

/-- Serving the actions of a list one after the other. -/
def dora_worker_t.serve_all (b : worker_build) (l : List base_action_t) (w : dora_worker_t) :
    dora_worker_t :=
  l.foldl (fun w a => (dora_worker_t._serve_action b a w).1) w

/-- The calls around the body of an action that is executed: `attach_xct`,
`trx_exec`, `detach_xct` (the first and the last unless `ONLYDORA`). -/
def exec_events (b : worker_build) (a : base_action_t) : List WEvent :=
  (if b.ONLYDORA then [] else [WEvent.attach_xct a]) ++ [WEvent.trx_exec a] ++
    (if b.ONLYDORA then [] else [WEvent.detach_xct a])

/-- The calls on the RVP at address `p` after `post` returned `last`. -/
def rvp_events (last : Bool) (p : Nat) : List WEvent :=
  if last then [WEvent.rvp_run p, WEvent.rvp_notify p, WEvent.rvp_giveback p] else []

/-- The scheduling calls of the worker loop: all calls but those made inside
`_serve_action`. -/
def WEvent.is_sched : WEvent → Bool
  | .dequeue_commit _ => true
  | .trx_rel_locks _ => true
  | .giveback _ => true
  | .dequeue _ => true
  | .trx_acq_locks _ => true
  | .serve_action _ => true
  | _ => false

/-- The scheduling calls for one committed action: it is dequeued, its locks are
released, it is given back, and the actions of its ready list are served in
list order. -/
def commit_schedule (c : commit_input) : List WEvent :=
  [WEvent.dequeue_commit c.apa, WEvent.trx_rel_locks c.apa, WEvent.giveback c.apa] ++
    c.actionReadyList.map WEvent.serve_action

/-- The scheduling calls after the input action was dequeued: its locks are
requested, and it is served iff they are granted. -/
def input_schedule : Option base_action_t → List WEvent
  | none => []
  | some a => [WEvent.trx_acq_locks a] ++ (if a.trx_acq_locks then [WEvent.serve_action a] else [])

/-! ## NewOrder actions (`src/dora/tpcc/dora_new_order.cpp`) -/

/-- The fields of the NewOrder input that the key computations read
(`tpcc_input.h`). -/
structure new_order_input_t where
  _wh_id : Int
  _d_id : Int
  _c_id : Int
  _ol_cnt : Int
deriving DecidableEq, Repr

/-- The part of a NewOrder action that `calc_keys` reads and writes: the input
`_in`, the key vectors `_down` and `_up`, and the read-only mark set by
`set_read_only()`. -/
structure nord_action where
  _in : new_order_input_t
  _down : List Int := []
  _up : List Int := []
  _read_only : Bool := false
deriving DecidableEq, Repr

def nord_action.set_read_only (a : nord_action) : nord_action := { a with _read_only := true }

/-- Lines 146-151 of `dora_new_order.cpp`. -/
def r_wh_nord_action.calc_keys (a : nord_action) : nord_action :=
  let a := a.set_read_only
  let a := { a with _down := a._down ++ [a._in._wh_id] }
  { a with _up := a._up ++ [a._in._wh_id] }

/-- Lines 206-213 of `dora_new_order.cpp`. -/
def r_cust_nord_action.calc_keys (a : nord_action) : nord_action :=
  let a := a.set_read_only
  let a := { a with _down := a._down ++ [a._in._wh_id] }
  let a := { a with _down := a._down ++ [a._in._d_id] }
  let a := { a with _up := a._up ++ [a._in._wh_id] }
  { a with _up := a._up ++ [a._in._d_id] }

/-- Lines 275-281 of `dora_new_order.cpp`. -/
def upd_dist_nord_action.calc_keys (a : nord_action) : nord_action :=
  let a := { a with _down := a._down ++ [a._in._wh_id] }
  let a := { a with _down := a._down ++ [a._in._d_id] }
  let a := { a with _up := a._up ++ [a._in._wh_id] }
  { a with _up := a._up ++ [a._in._d_id] }

/-- Lines 364-370 of `dora_new_order.cpp`. -/
def r_item_nord_action.calc_keys (a : nord_action) : nord_action :=
  let a := a.set_read_only
  let a := { a with _down := a._down ++ [a._in._wh_id] }
  { a with _up := a._up ++ [a._in._wh_id] }

/-- Lines 448-453 of `dora_new_order.cpp`. -/
def upd_sto_nord_action.calc_keys (a : nord_action) : nord_action :=
  let a := { a with _down := a._down ++ [a._in._wh_id] }
  { a with _up := a._up ++ [a._in._wh_id] }

/-- Lines 585-591 of `dora_new_order.cpp`. -/
def ins_ord_nord_action.calc_keys (a : nord_action) : nord_action :=
  let a := { a with _down := a._down ++ [a._in._wh_id] }
  let a := { a with _down := a._down ++ [a._in._d_id] }
  let a := { a with _up := a._up ++ [a._in._wh_id] }
  { a with _up := a._up ++ [a._in._d_id] }

/-- Lines 655-661 of `dora_new_order.cpp`. -/
def ins_nord_nord_action.calc_keys (a : nord_action) : nord_action :=
  let a := { a with _down := a._down ++ [a._in._wh_id] }
  let a := { a with _down := a._down ++ [a._in._d_id] }
  let a := { a with _up := a._up ++ [a._in._wh_id] }
  { a with _up := a._up ++ [a._in._d_id] }

/-- Lines 719-725 of `dora_new_order.cpp`. -/
def ins_ol_nord_action.calc_keys (a : nord_action) : nord_action :=
  let a := { a with _down := a._down ++ [a._in._wh_id] }
  let a := { a with _down := a._down ++ [a._in._d_id] }
  let a := { a with _up := a._up ++ [a._in._wh_id] }
  { a with _up := a._up ++ [a._in._d_id] }

/-- The eight kinds of NewOrder actions. -/
inductive nord_kind where
  | r_wh | r_cust | upd_dist | r_item | upd_sto | ins_ord | ins_nord | ins_ol
deriving DecidableEq, Repr

/-- The virtual call `calc_keys()` on an action of the given kind. -/
def calc_keys : nord_kind → nord_action → nord_action
  | .r_wh => r_wh_nord_action.calc_keys
  | .r_cust => r_cust_nord_action.calc_keys
  | .upd_dist => upd_dist_nord_action.calc_keys
  | .r_item => r_item_nord_action.calc_keys
  | .upd_sto => upd_sto_nord_action.calc_keys
  | .ins_ord => ins_ord_nord_action.calc_keys
  | .ins_nord => ins_nord_nord_action.calc_keys
  | .ins_ol => ins_ol_nord_action.calc_keys

/-! ## The key-range map (`src/util/key_ranges_map.cpp`) -/

/-- Page identifier of the root of a partition (`lpid_t`). -/
abbrev lpid_t := Nat

/-- The multiple-readers/single-writer lock `_rwlock`, as the calls made on it by
one thread: the read acquisitions not yet released and whether the write lock
is held. -/
structure occ_rwlock where
  readers : Nat := 0
  writer : Bool := false
deriving DecidableEq, Repr

def occ_rwlock.acquire_read (l : occ_rwlock) : occ_rwlock := { l with readers := l.readers + 1 }
def occ_rwlock.release_read (l : occ_rwlock) : occ_rwlock := { l with readers := l.readers - 1 }
def occ_rwlock.acquire_write (l : occ_rwlock) : occ_rwlock := { l with writer := true }
def occ_rwlock.release_write (l : occ_rwlock) : occ_rwlock := { l with writer := false }

/-- Modelled from the spec: the comparator of `_keyRangesMap` is declared in
`key_ranges_map.h`, which is not part of the sources. The map is the ordered
mapping from start keys to partitions in which `lower_bound(key)` is the
partition `key` belongs to and whose last entry is the left-most partition
(comments of `getPartitionByKey` and `_deletePartitionByKey`): the keys,
compared as `strcmp` does, are in descending order. -/
def cmp_str_greater {K : Type} [LinearOrder K] (a b : K) : Bool := decide (b < a)

/-- The state of a `key_ranges_map`: the entries of `_keyRangesMap` in iteration
order (start key, root of the partition), and the other members. An iterator
is a position in the list; `end()` is its length. -/
structure key_ranges_map (K : Type) where
  _keyRangesMap : List (K × lpid_t)
  _numPartitions : Nat
  _minKey : K
  _maxKey : K
  _rwlock : occ_rwlock := {}
deriving DecidableEq, Repr

/-- Position of `std::map::lower_bound(k)` for the comparator `comp`: the first entry
whose key does not go before `k`. -/
def lower_bound {K : Type} (comp : K → K → Bool) : List (K × lpid_t) → K → Nat
  | [], _ => 0
  | e :: m, k => if comp e.1 k then lower_bound comp m k + 1 else 0

/-- Position of the first entry whose partition is `pid` (the loops of
`deletePartition` and `getBoundaries`). -/
def find_pid {K : Type} : List (K × lpid_t) → lpid_t → Nat
  | [], _ => 0
  | e :: m, pid => if e.2 = pid then 0 else find_pid m pid + 1

namespace key_ranges_map

variable {K : Type} [LinearOrder K]

/-- Lines 114-135: `addPartition`. The lines that would create the root and insert
the entry for `key` are comments in the source. -/
def addPartition (mrb_PARTITION_NOT_FOUND : Int) (m : key_ranges_map K) (key : K)
    (root : lpid_t) : w_rc_t × lpid_t × key_ranges_map K :=
  let m := { m with _rwlock := m._rwlock.acquire_write }
  let iter := lower_bound cmp_str_greater m._keyRangesMap key
  if iter ≠ m._keyRangesMap.length then
    let m := { m with _numPartitions := (m._numPartitions + 1) % 2 ^ 32 }
    (w_rc_t.RCOK, root, { m with _rwlock := m._rwlock.release_write })
  else
    (w_rc_t.RC mrb_PARTITION_NOT_FOUND, root, { m with _rwlock := m._rwlock.release_write })

/-- Lines 148-179: `_deletePartitionByKey`. The result is `none` when the function
reads `iter->second` with `iter == end()`. -/
def _deletePartitionByKey (mrb_PARTITION_NOT_FOUND : Int) (m : key_ranges_map K) (key : K) :
    Option (w_rc_t × key_ranges_map K) :=
  let m := { m with _rwlock := m._rwlock.acquire_write }
  let iter := lower_bound cmp_str_greater m._keyRangesMap key
  if iter = m._keyRangesMap.length then
    some (w_rc_t.RC mrb_PARTITION_NOT_FOUND, m)
  else
    let iter := iter + 1
    match m._keyRangesMap.get? iter with
    | none => none
    | some _root2 =>
      let iter := iter - 1
      let m := { m with _keyRangesMap := m._keyRangesMap.eraseIdx iter }
      let m := { m with _numPartitions := (m._numPartitions + 2 ^ 32 - 1) % 2 ^ 32 }
      some (w_rc_t.RCOK, { m with _rwlock := m._rwlock.release_write })

/-- Lines 181-189: `deletePartitionByKey`. -/
def deletePartitionByKey (mrb_PARTITION_NOT_FOUND : Int) (m : key_ranges_map K) (key : K) :
    Option (w_rc_t × key_ranges_map K) :=
  _deletePartitionByKey mrb_PARTITION_NOT_FOUND m key

/-- Lines 191-209: `deletePartition`. -/
def deletePartition (mrb_PARTITION_NOT_FOUND : Int) (m : key_ranges_map K) (pid : lpid_t) :
    Option (w_rc_t × key_ranges_map K) :=
  let m := { m with _rwlock := m._rwlock.acquire_read }
  let iter := find_pid m._keyRangesMap pid
  let m := { m with _rwlock := m._rwlock.release_read }
  match m._keyRangesMap.get? iter with
  | some e => _deletePartitionByKey mrb_PARTITION_NOT_FOUND m e.1
  | none => some (w_rc_t.RC mrb_PARTITION_NOT_FOUND, m)

/-- Lines 220-235: `getPartitionByKey`; the second component is `pid` after the
call. -/
def getPartitionByKey (mrb_PARTITION_NOT_FOUND : Int) (m : key_ranges_map K) (key : K)
    (pid : lpid_t) : w_rc_t × lpid_t × key_ranges_map K :=
  let m := { m with _rwlock := m._rwlock.acquire_read }
  let iter := lower_bound cmp_str_greater m._keyRangesMap key
  match m._keyRangesMap.get? iter with
  | none => (w_rc_t.RC mrb_PARTITION_NOT_FOUND, pid, m)
  | some e => (w_rc_t.RCOK, e.2, { m with _rwlock := m._rwlock.release_read })

/-- Lines 278-281: `while (iter1 != iter2)`, on the entries from `iter1` on. The
result is `none` when `iter1` reaches `end()` and is dereferenced. -/
def push_loop (iter2 : Nat) : List (K × lpid_t) → Nat → List lpid_t → Option (List lpid_t)
  | [], iter1, pidVec => if iter1 = iter2 then some pidVec else none
  | e :: rest, iter1, pidVec =>
    if iter1 = iter2 then some pidVec else push_loop iter2 rest (iter1 + 1) (pidVec ++ [e.2])

/-- Lines 253-288: `getPartitions`; the second component is `pidVec` after the call.
`key1Included` is not read by the function. -/
def getPartitions (mrb_PARTITION_NOT_FOUND : Int) (m : key_ranges_map K) (key1 : K)
    (_key1Included : Bool) (key2 : K) (key2Included : Bool) (pidVec : List lpid_t) :
    Option (w_rc_t × List lpid_t × key_ranges_map K) :=
  let m := { m with _rwlock := m._rwlock.acquire_read }
  let iter1 := lower_bound cmp_str_greater m._keyRangesMap key1
  let iter2 := lower_bound cmp_str_greater m._keyRangesMap key2
  if iter1 = m._keyRangesMap.length ∨ iter2 = m._keyRangesMap.length then
    some (w_rc_t.RC mrb_PARTITION_NOT_FOUND, pidVec, m)
  else
    match push_loop iter2 (m._keyRangesMap.drop iter1) iter1 pidVec with
    | none => none
    | some pidVec =>
      match m._keyRangesMap.get? iter2 with
      | none => none
      | some e =>
        let pidVec := if key2Included || decide (e.1 ≠ key2) then pidVec ++ [e.2] else pidVec
        some (w_rc_t.RCOK, pidVec, { m with _rwlock := m._rwlock.release_read })

end key_ranges_map

/-- The entries of a map are in the order of its comparator: the start keys
strictly descend. -/
def krm_ordered {K : Type} [LinearOrder K] (m : List (K × lpid_t)) : Prop :=
  m.Pairwise (fun a b => b.1 < a.1)

/-! ## The midway RVP of NewOrder (`mid_nord_rvp::run`, `dora_new_order.cpp`) -/

/-- Lines 31-35 of `dora_error.h`. -/
def de_PROBLEM_ENQUEUE : Int := 0x820011
def de_WRONG_ACTION : Int := 0x820011
def de_WRONG_PARTITION : Int := 0x820012
def de_WRONG_WORKER : Int := 0x820013

/-- The partitioned tables that `mid_nord_rvp::run` enqueues to: `ord()`, `nor()`,
`oli()`. -/
inductive nord_table where
  | ord
  | nor
  | oli
deriving DecidableEq, Repr

/-- Calls made by `mid_nord_rvp::run`, in program order. `new_final_nord_rvp p` is
the call `_penv->new_final_nord_rvp(...)` that returned the pointer `p`, and
`new_action k rvp` the call `_penv->new_..._action(_tid, _xct, rvp, ...)` that
creates the action of kind `k` with the RVP `rvp`. `cs_enter t` is the
`CRITICAL_SECTION` on the `_enqueue_lock` of the partition of table `t`,
`cs_exit t` its release (by `exit()` or at the end of the scope). -/
inductive RunEvent where
  | new_final_nord_rvp (p : Nat)
  | new_action (k : nord_kind) (rvp : Nat)
  | myPart (t : nord_table) (pos : Int)
  | cs_enter (t : nord_table)
  | cs_exit (t : nord_table)
  | enqueue (k : nord_kind) (t : nord_table) (pos : Int) (bWake : Bool)
  | assert_failed
deriving DecidableEq, Repr

/-- How a call of `run()` ends: it returns a code, or `assert (0)` stops the
program. -/
inductive run_result where
  | returned (rc : w_rc_t)
  | aborted
deriving DecidableEq, Repr

/-- The members of `mid_nord_rvp` that `run()` reads. -/
structure mid_nord_rvp where
  _in : new_order_input_t
  _bWake : Bool
deriving DecidableEq, Repr

/-- Lines 43-114 of `dora_new_order.cpp`: `mid_nord_rvp::run`. `NDEBUG` tells whether
the assertions are compiled out; `enq t` is what `enqueue` returns on the
partition of table `t` (non-zero on a problem); `new_rvp` is the pointer that
`_penv->new_final_nord_rvp(...)` returns, which the function keeps in the
local variable `frvp`. -/
def mid_nord_rvp.run (NDEBUG : Bool) (enq : nord_table → Int) (new_rvp : Nat)
    (r : mid_nord_rvp) : List RunEvent × run_result :=
  let whid := r._in._wh_id
  let frvp := new_rvp
  let fail (t : List RunEvent) (held : nord_table) : List RunEvent × run_result :=
    if NDEBUG then (t ++ [RunEvent.cs_exit held], run_result.returned (w_rc_t.RC de_PROBLEM_ENQUEUE))
    else (t ++ [RunEvent.assert_failed], run_result.aborted)
  let t := [RunEvent.new_final_nord_rvp new_rvp,
    RunEvent.new_action nord_kind.ins_ord frvp, RunEvent.myPart nord_table.ord (whid - 1),
    RunEvent.new_action nord_kind.ins_nord frvp, RunEvent.myPart nord_table.nor (whid - 1),
    RunEvent.new_action nord_kind.ins_ol frvp, RunEvent.myPart nord_table.oli (whid - 1)]
  let t := t ++ [RunEvent.cs_enter nord_table.ord,
    RunEvent.enqueue nord_kind.ins_ord nord_table.ord (whid - 1) r._bWake]
  if enq nord_table.ord ≠ 0 then fail t nord_table.ord
  else
    let t := t ++ [RunEvent.cs_enter nord_table.nor, RunEvent.cs_exit nord_table.ord,
      RunEvent.enqueue nord_kind.ins_nord nord_table.nor (whid - 1) r._bWake]
    if enq nord_table.nor ≠ 0 then fail t nord_table.nor
    else
      let t := t ++ [RunEvent.cs_enter nord_table.oli, RunEvent.cs_exit nord_table.nor,
        RunEvent.enqueue nord_kind.ins_ol nord_table.oli (whid - 1) r._bWake]
      if enq nord_table.oli ≠ 0 then fail t nord_table.oli
      else (t ++ [RunEvent.cs_exit nord_table.oli], run_result.returned w_rc_t.RCOK)

/-- The actions that a list of calls enqueues, in order. -/
def enqueued_actions : List RunEvent → List nord_kind
  | [] => []
  | RunEvent.enqueue k _ _ _ :: t => k :: enqueued_actions t
  | _ :: t => enqueued_actions t

/-! ## The partitioned table (`include/dora/part_table.h`) -/

/-- The value of `PBIND_NONE` in `<sys/processor.h>`. -/
def PBIND_NONE : Int := -1

def INT_MAX : Int := 2 ^ 31 - 1
def INT_MIN : Int := -(2 ^ 31)

/-- The members of `part_table_t` that the embedded functions use: the vector of
partitions, the count `_pcnt` and the processor binding. -/
structure part_table_t (P : Type) where
  _ppvec : List P := []
  _pcnt : Int := 0
  _start_prs_id : Int
  _next_prs_id : Int
  _prs_range : Int

/-- How a call ends that may index the vector of partitions: it returns a value,
an assertion fails, or the vector is indexed outside of its bounds. -/
inductive call_result (α : Type) where
  | returned (a : α)
  | assert_failed
  | out_of_bounds
deriving DecidableEq, Repr

namespace part_table_t

variable {P A : Type}

/-- Lines 72-84 of `part_table.h`: the table after construction (its assertions on
the environment hold). -/
def init (aprs acpurange : Int) : part_table_t P :=
  { _ppvec := [], _pcnt := 0, _start_prs_id := aprs, _next_prs_id := aprs,
    _prs_range := acpurange }

/-- Lines 318-326 of `part_table.h`: `_add_one_part` (the pointer is not null). -/
def _add_one_part (apartition : P) (t : part_table_t P) : part_table_t P × Int :=
  ({ t with _ppvec := t._ppvec ++ [apartition], _pcnt := t._pcnt + 1 }, 0)

def add_one_part (apartition : P) (t : part_table_t P) : part_table_t P × Int :=
  _add_one_part apartition t

/-- Lines 145-148 of `part_table.h`: `enqueue`. `penqueue` is the `enqueue` of a
partition (`partition_t` is not part of the sources). The index of
`_ppvec[part]` is converted to an unsigned size, so a negative `part` is
outside of the vector like any index from `size()` on. -/
def enqueue (penqueue : P → A → Int) (t : part_table_t P) (paction : A) (part : Int) :
    call_result Int :=
  if part < t._pcnt then
    if 0 ≤ part then
      match t._ppvec.get? part.toNat with
      | some p => call_result.returned (penqueue p paction)
      | none => call_result.out_of_bounds
    else call_result.out_of_bounds
  else call_result.assert_failed

/-- Lines 273-283 of `part_table.h`: `next_cpu`. `ev` holds the options of `envVar`,
`DF_CPU_STEP_PARTITIONS` (not declared in the sources) is the default step and
`active_cpu_count` is `_env->get_active_cpu_count()`. The `int` operations
`+` and `%` have no value when the sum is outside of the range of `int` or the
divisor is 0. -/
def next_cpu (ev : String → Option Int) (DF_CPU_STEP_PARTITIONS active_cpu_count : Int)
    (aprd : Int) : Option Int :=
  let binding := getVarInt ev "dora-cpu-binding" 0
  if binding = 0 then some PBIND_NONE
  else
    let partition_step := getVarInt ev "dora-cpu-partition-step" DF_CPU_STEP_PARTITIONS
    let sum := aprd + partition_step
    if sum < INT_MIN ∨ INT_MAX < sum ∨ active_cpu_count = 0 ∨
        (sum = INT_MIN ∧ active_cpu_count = -1) then none
    else some (Int.tmod sum active_cpu_count)

/-- Lines 244-248 of `part_table.h`: the loop of `reset()` on the partitions from
position `i` on; it yields `_next_prs_id` and the calls `_ppvec[i]->reset(cpu)`
made, as pairs of position and CPU. -/
def reset_loop (ncpu : Int → Option Int) :
    List P → Nat → Int → List (Nat × Int) → Option (Int × List (Nat × Int))
  | [], _, next_prs_id, calls => some (next_prs_id, calls)
  | _ :: ps, i, next_prs_id, calls =>
    match ncpu next_prs_id with
    | none => none
    | some n => reset_loop ncpu ps (i + 1) n (calls ++ [(i, next_prs_id)])

/-- Lines 240-250 of `part_table.h`: `reset()`. -/
def reset (ncpu : Int → Option Int) (t : part_table_t P) :
    Option (part_table_t P × List (Nat × Int)) :=
  let t := { t with _next_prs_id := t._start_prs_id }
  match reset_loop ncpu t._ppvec 0 t._next_prs_id [] with
  | none => none
  | some r => some ({ t with _next_prs_id := r.1 }, r.2)

/-- Lines 113-122 of `part_table.h`: `move`. -/
def move (ncpu : Int → Option Int) (t : part_table_t P) (aprs arange : Int) :
    Option (part_table_t P × List (Nat × Int)) :=
  reset ncpu { t with _start_prs_id := aprs, _prs_range := arange }

end part_table_t

/-! ## Tuple format and load (`include/sm/shore/shore_table_man.h`)

A buffer is the list of its bytes, each a number below 256.  A read or a write
outside of the buffer, and a shift of `1` by 31 or more, have no defined
result: the functions return `none` there. -/

/-- The value of a `char` that holds the byte `b`, promoted to `int` and given
as its 32-bit two's complement pattern.  Whether `char` is signed is a property
of the platform. -/
def char_to_int (char_signed : Bool) (b : Nat) : Nat :=
  if char_signed && decide (128 ≤ b) then b + (2 ^ 32 - 2 ^ 8) else b

/-- `SET_NULL_FLAG(start, offset)`, lines 83-84:
`(*(char*)((start)+((offset)>>3))) &= (1<<((offset)>>3))`. -/
def SET_NULL_FLAG (char_signed : Bool) (start : List Nat) (offset : Nat) : Option (List Nat) :=
  if 31 ≤ offset >>> 3 then none
  else
    match start.get? (offset >>> 3) with
    | none => none
    | some b =>
      some (start.set (offset >>> 3)
        ((char_to_int char_signed b &&& (1 <<< (offset >>> 3))) % 256))

/-- `IS_NULL_FLAG(start, offset)`, lines 85-86, as the condition of an `if`:
`(*(char*)((start)+((offset)>>3)))&(1<<((offset)>>3))` is not zero. -/
def IS_NULL_FLAG (char_signed : Bool) (start : List Nat) (offset : Nat) : Option Bool :=
  if 31 ≤ offset >>> 3 then none
  else
    match start.get? (offset >>> 3) with
    | none => none
    | some b => some (decide (char_to_int char_signed b &&& (1 <<< (offset >>> 3)) ≠ 0))

/-- The member functions of a field value that `format` and `load` call; they
are declared outside of `shore_table_man.h`.  `copy_value` gives the bytes it
writes at the destination, `set_value` takes the bytes it reads. -/
structure field_ops (V : Type) where
  allow_null : V → Bool
  is_variable_length : V → Bool
  is_null : V → Bool
  realsize : V → Nat
  maxsize : V → Nat
  copy_value : V → List Nat
  set_value : V → List Nat → V
  set_null : V → V

/-- A tuple: its field values and the pre-calculated offsets that
`get_fixed_offset()`, `get_var_slot_offset()`, `get_var_offset()` and
`get_null_count()` return. -/
structure table_tuple (V : Type) where
  _pvalues : List V
  _fixed_offset : Nat
  _var_slot_offset : Nat
  _var_offset : Nat
  _null_count : Nat
deriving DecidableEq, Repr

/-- Writing `bytes` into the buffer from position `pos` on. -/
def write_bytes : List Nat → Nat → List Nat → Option (List Nat)
  | buf, _, [] => some buf
  | buf, pos, b :: bs =>
    if pos < buf.length then write_bytes (buf.set pos b) (pos + 1) bs else none

/-- Reading `len` bytes of the buffer from position `pos` on. -/
def read_bytes (data : List Nat) (pos len : Nat) : Option (List Nat) :=
  if pos + len ≤ data.length then some ((data.drop pos).take len) else none

/-- The `sz` bytes of an `offset_t` of value `len`, lowest byte first. -/
def offset_bytes (sz len : Nat) : List Nat :=
  (List.range sz).map (fun j => len / 256 ^ j % 256)

/-- The value of an `offset_t` with the given bytes, lowest byte first. -/
def offset_value : List Nat → Nat
  | [] => 0
  | b :: bs => b + 256 * offset_value bs

/-- Step 2 of `format`, lines 636-652: the sizes of the variable-length fields
that are not NULL, each with one `offset_t`. -/
def tupsize_loop {V : Type} (ops : field_ops V) (sizeof_offset_t : Nat) : List V → Int → Int
  | [], tupsize => tupsize
  | v :: vs, tupsize =>
    if ops.is_variable_length v then
      if ops.is_null v then tupsize_loop ops sizeof_offset_t vs tupsize
      else tupsize_loop ops sizeof_offset_t vs (tupsize + ops.realsize v + sizeof_offset_t)
    else tupsize_loop ops sizeof_offset_t vs tupsize

/-- The local variables of the loops of `format` and `load`. -/
structure row_cursor where
  null_index : Int := -1
  fixed_offset : Nat
  var_slot_offset : Nat
  var_offset : Nat
deriving DecidableEq, Repr

/-- Step 4 of `format`, lines 668-700: one iteration per field. -/
def format_loop {V : Type} (ops : field_ops V) (char_signed : Bool) (sizeof_offset_t : Nat) :
    List V → row_cursor → List Nat → Option (List Nat)
  | [], _, dest => some dest
  | v :: vs, c, dest =>
    let null_index := if ops.allow_null v then c.null_index + 1 else c.null_index
    let flagged :=
      if ops.allow_null v && ops.is_null v then SET_NULL_FLAG char_signed dest null_index.toNat
      else some dest
    match flagged with
    | none => none
    | some dest1 =>
      if ops.is_variable_length v then
        match write_bytes dest1 c.var_offset (ops.copy_value v) with
        | none => none
        | some dest2 =>
          match write_bytes dest2 c.var_slot_offset
              (offset_bytes sizeof_offset_t (ops.realsize v)) with
          | none => none
          | some dest3 =>
            format_loop ops char_signed sizeof_offset_t vs
              { c with null_index := null_index,
                       var_offset := c.var_offset + ops.realsize v,
                       var_slot_offset := c.var_slot_offset + sizeof_offset_t } dest3
      else
        match write_bytes dest1 c.fixed_offset (ops.copy_value v) with
        | none => none
        | some dest2 =>
          format_loop ops char_signed sizeof_offset_t vs
            { c with null_index := null_index,
                     fixed_offset := c.fixed_offset + ops.maxsize v } dest2

/-- `table_man_impl::format`, lines 609-703.  `arep_set` gives the buffer that
`arep.set(tupsize)` allocates.  The result is `tupsize` and the buffer. -/
def format {V : Type} (ops : field_ops V) (char_signed : Bool) (sizeof_offset_t : Nat)
    (arep_set : Int → List Nat) (ptuple : table_tuple V) : call_result (Int × List Nat) :=
  let fixed_size : Int := (ptuple._var_slot_offset : Int) - ptuple._fixed_offset
  let tupsize := tupsize_loop ops sizeof_offset_t ptuple._pvalues 0 + fixed_size
  let tupsize :=
    if ptuple._null_count ≠ 0 then tupsize + ((ptuple._null_count >>> 3 : Nat) : Int) + 1
    else tupsize
  if tupsize = 0 then call_result.assert_failed
  else
    match format_loop ops char_signed sizeof_offset_t ptuple._pvalues
        { fixed_offset := ptuple._fixed_offset,
          var_slot_offset := ptuple._var_slot_offset,
          var_offset := ptuple._var_offset } (arep_set tupsize) with
    | none => call_result.out_of_bounds
    | some dest => call_result.returned (tupsize, dest)

/-- The loop of `load`, lines 740-776: one iteration per field; a field whose
flag is set becomes NULL and the offsets stay (`continue`). -/
def load_loop {V : Type} (ops : field_ops V) (char_signed : Bool) (sizeof_offset_t : Nat)
    (data : List Nat) : List V → row_cursor → Option (List V)
  | [], _ => some []
  | v :: vs, c =>
    let null_index := if ops.allow_null v then c.null_index + 1 else c.null_index
    let flag :=
      if ops.allow_null v then IS_NULL_FLAG char_signed data null_index.toNat else some false
    match flag with
    | none => none
    | some true =>
      (load_loop ops char_signed sizeof_offset_t data vs { c with null_index := null_index }).map
        (fun rest => ops.set_null v :: rest)
    | some false =>
      if ops.is_variable_length v then
        match read_bytes data c.var_slot_offset sizeof_offset_t with
        | none => none
        | some slot =>
          match read_bytes data c.var_offset (offset_value slot) with
          | none => none
          | some bytes =>
            (load_loop ops char_signed sizeof_offset_t data vs
              { c with null_index := null_index,
                       var_offset := c.var_offset + offset_value slot,
                       var_slot_offset := c.var_slot_offset + sizeof_offset_t }).map
              (fun rest => ops.set_value v bytes :: rest)
      else
        match read_bytes data c.fixed_offset (ops.maxsize v) with
        | none => none
        | some bytes =>
          (load_loop ops char_signed sizeof_offset_t data vs
            { c with null_index := null_index,
                     fixed_offset := c.fixed_offset + ops.maxsize v }).map
            (fun rest => ops.set_value v bytes :: rest)

/-- `table_man_impl::load`, lines 722-778: the tuple with the fields read from
`data`. -/
def load {V : Type} (ops : field_ops V) (char_signed : Bool) (sizeof_offset_t : Nat)
    (ptuple : table_tuple V) (data : List Nat) : Option (table_tuple V) :=
  (load_loop ops char_signed sizeof_offset_t data ptuple._pvalues
    { fixed_offset := ptuple._fixed_offset,
      var_slot_offset := ptuple._var_slot_offset,
      var_offset := ptuple._var_offset }).map (fun vs => { ptuple with _pvalues := vs })

/-- A field value for the examples: a description (may be NULL, variable
length, maximal size), the NULL flag and the bytes of the value. -/
structure byte_field where
  allow_null : Bool
  is_variable_length : Bool
  maxsize : Nat
  is_null : Bool
  value : List Nat
deriving DecidableEq, Repr

/-- The operations of `byte_field`: `copy_value` writes the bytes of the value,
`set_value` stores the bytes read and clears the NULL flag. -/
def byte_field_ops : field_ops byte_field where
  allow_null := fun v => v.allow_null
  is_variable_length := fun v => v.is_variable_length
  is_null := fun v => v.is_null
  realsize := fun v => v.value.length
  maxsize := fun v => v.maxsize
  copy_value := fun v => v.value
  set_value := fun v bytes => { v with value := bytes, is_null := false }
  set_null := fun v => { v with is_null := true }

/-! ## The sort buffer (`src/sm/shore/shore_sort_buf.cpp`, `include/sm/shore/shore_sort_buf.h`) -/

def MIN_TUPLES_FOR_SORT : Nat := 100

/-- Sequencing of calls: the next call is made when the one before returned. -/
def call_result.bind {α β : Type} : call_result α → (α → call_result β) → call_result β
  | .returned a, f => f a
  | .assert_failed, _ => .assert_failed
  | .out_of_bounds, _ => .out_of_bounds

/-- The members of `sort_man_impl` (lines 94-98 of the header). `_ptable` holds
the `fieldmaxsize()` of the fields of the buffer description, `_sort_buf` the
bytes of the memory buffer; `none` is the `NULL` pointer. -/
structure sort_man_impl where
  _ptable : Option (List Nat)
  _sort_buf : Option (List Nat) := none
  _tuple_size : Nat := 0
  _tuple_count : Nat := 0
  _buf_size : Nat := 0
  _is_sorted : Bool := false
deriving DecidableEq, Repr

/-- The call `memset(buf, 0, n)`. -/
def memset_zero (buf : List Nat) (n : Nat) : Option (List Nat) :=
  if n ≤ buf.length then some (List.replicate n 0 ++ buf.drop n) else none

namespace sort_man_impl

/-- Lines 80-96: `init`. `fresh n` is the content of a newly allocated array of
`n` bytes. -/
def init (fresh : Nat → List Nat) (m : sort_man_impl) : call_result sort_man_impl :=
  match m._ptable with
  | none => call_result.assert_failed
  | some fields =>
    call_result.returned
      { m with
        _tuple_size := fields.sum
        _sort_buf := some (fresh (MIN_TUPLES_FOR_SORT * fields.sum))
        _buf_size := MIN_TUPLES_FOR_SORT
        _is_sorted := false }

/-- Lines 108-121: `reset`. -/
def reset (m : sort_man_impl) : call_result sort_man_impl :=
  match m._ptable with
  | none => call_result.assert_failed
  | some _ =>
    match m._sort_buf with
    | none => call_result.assert_failed
    | some buf =>
      if m._buf_size = 0 then call_result.assert_failed
      else if m._tuple_size = 0 then call_result.assert_failed
      else
        match memset_zero buf m._buf_size with
        | none => call_result.out_of_bounds
        | some buf1 => call_result.returned { m with _sort_buf := some buf1, _is_sorted := false }

/-- Lines 141-149 of `add_tuple`: the buffer is doubled when it is full. -/
def grow (fresh : Nat → List Nat) (m : sort_man_impl) : call_result sort_man_impl :=
  if m._buf_size = m._tuple_count then
    match m._sort_buf with
    | none => call_result.out_of_bounds
    | some buf =>
      if m._buf_size * m._tuple_size ≤ buf.length then
        call_result.returned
          { m with
            _sort_buf := some (buf.take (m._buf_size * m._tuple_size) ++
              (fresh (2 * m._buf_size * m._tuple_size)).drop (m._buf_size * m._tuple_size))
            _buf_size := m._buf_size * 2 }
      else call_result.out_of_bounds
  else call_result.returned m

/-- Lines 151-156 of `add_tuple`: the formatted tuple `dest` (the buffer
`_preprow->_dest` after `format`) is copied behind the tuples of the buffer. -/
def append (dest : Option (List Nat)) (m : sort_man_impl) : call_result sort_man_impl :=
  match dest with
  | none => call_result.assert_failed
  | some d =>
    match m._sort_buf with
    | none => call_result.out_of_bounds
    | some buf =>
      if m._tuple_size ≤ d.length then
        match write_bytes buf (m._tuple_count * m._tuple_size) (d.take m._tuple_size) with
        | none => call_result.out_of_bounds
        | some buf1 =>
          call_result.returned
            { m with
              _sort_buf := some buf1
              _tuple_count := m._tuple_count + 1
              _is_sorted := false }
      else call_result.out_of_bounds

/-- Lines 133-157: `add_tuple`. -/
def add_tuple (fresh : Nat → List Nat) (dest : Option (List Nat)) (m : sort_man_impl) :
    call_result sort_man_impl :=
  ((if m._tuple_size = 0 then init fresh m else call_result.returned m).bind
    (grow fresh)).bind (append dest)

/-- Line 134 of the header: `count`. -/
def count (m : sort_man_impl) : Nat := m._tuple_count

end sort_man_impl

/-- The enqueue locks held after one more call. -/
def lock_step (held : List nord_table) : RunEvent → List nord_table
  | RunEvent.cs_enter t => held ++ [t]
  | RunEvent.cs_exit t => held.erase t
  | _ => held

/-- The enqueue locks held after a list of calls, in the order in which they
were taken. -/
def locks_held (t : List RunEvent) : List nord_table := t.foldl lock_step []

/-- The enqueue locks that a list of calls takes, in order. -/
def locks_taken : List RunEvent → List nord_table
  | [] => []
  | RunEvent.cs_enter t :: l => t :: locks_taken l
  | _ :: l => locks_taken l

/-- The final RVPs that a list of calls creates, in order. -/
def created_rvps : List RunEvent → List Nat
  | [] => []
  | RunEvent.new_final_nord_rvp p :: l => p :: created_rvps l
  | _ :: l => created_rvps l

/-- The actions that a list of calls creates, each with the RVP it is created
with, in order. -/
def created_actions : List RunEvent → List (nord_kind × Nat)
  | [] => []
  | RunEvent.new_action k rvp :: l => (k, rvp) :: created_actions l
  | _ :: l => created_actions l

/-! ## Construction and setters of the key-range map (`src/util/key_ranges_map.cpp`) -/

/-- Lines 82-102: `makeEqualPartitions`. Its body is `assert (0)`; the code that
would fill the map is a comment. -/
def key_ranges_map.makeEqualPartitions {K : Type} (NDEBUG : Bool) (m : key_ranges_map K) :
    call_result (key_ranges_map K) :=
  if NDEBUG then call_result.returned m else call_result.assert_failed

/-- Lines 43-52: the constructor `key_ranges_map::key_ranges_map`. -/
def key_ranges_map.construct {K : Type} (NDEBUG : Bool) (minKey maxKey : K)
    (numPartitions : Nat) : call_result (key_ranges_map K) :=
  key_ranges_map.makeEqualPartitions NDEBUG
    { _keyRangesMap := [], _numPartitions := numPartitions, _minKey := minKey, _maxKey := maxKey }

/-- Lines 345-351: `setNumPartitions`. -/
def key_ranges_map.setNumPartitions {K : Type} (m : key_ranges_map K) (numPartitions : Nat) :
    key_ranges_map K :=
  let m := { m with _rwlock := m._rwlock.acquire_write }
  let m := { m with _numPartitions := numPartitions }
  { m with _rwlock := m._rwlock.release_write }

/-- Lines 353-363: `setMinKey`. The lines that would move the last entry of the map
to the new key are comments. -/
def key_ranges_map.setMinKey {K : Type} (m : key_ranges_map K) (minKey : K) : key_ranges_map K :=
  let m := { m with _rwlock := m._rwlock.acquire_write }
  let m := { m with _minKey := minKey }
  { m with _rwlock := m._rwlock.release_write }

/-- Lines 365-370: `setMaxKey`. -/
def key_ranges_map.setMaxKey {K : Type} (m : key_ranges_map K) (maxKey : K) : key_ranges_map K :=
  let m := { m with _rwlock := m._rwlock.acquire_write }
  let m := { m with _maxKey := maxKey }
  { m with _rwlock := m._rwlock.release_write }

/-! ## The tuple buffer (`src/tuple.cpp`) -/

/-- The members of `tuple_buffer_t` that `wait_for_input` and `get_tuple` use:
`read_page`, the tuples of the mounted page (`none` is `NULL`), and
`read_iterator`, a position in that page (`begin()` is 0, `end()` the number of
tuples). Without a mounted page the iterator points to no tuple. -/
structure tuple_buffer_t (T : Type) where
  read_page : Option (List T)
  read_iterator : Nat
deriving DecidableEq, Repr

namespace tuple_buffer_t

variable {T : Type}

/-- Lines 23-35: `wait_for_input`. `page` is what `page_buffer.read()` returns if
it is called (`none` is `NULL`). -/
def wait_for_input (page : Option (List T)) (b : tuple_buffer_t T) : Int × tuple_buffer_t T :=
  match b.read_page with
  | some _ => (0, b)
  | none =>
    match page with
    | none => (1, b)
    | some p => (0, { read_page := some p, read_iterator := 0 })

/-- Lines 37-49: `get_tuple`; the result is the value returned, `rec` after the
call and the buffer. It is `none` when `read_iterator` is dereferenced without
a mounted page. -/
def get_tuple (page : Option (List T)) (b : tuple_buffer_t T) (rec : T) :
    Option (Int × T × tuple_buffer_t T) :=
  let w := wait_for_input page b
  if w.1 = 0 then some (1, rec, w.2)
  else
    match w.2.read_page with
    | none => none
    | some p =>
      match p.get? w.2.read_iterator with
      | none => none
      | some t =>
        if w.2.read_iterator + 1 = p.length then
          some (0, t, { read_page := none, read_iterator := w.2.read_iterator + 1 })
        else some (0, t, { w.2 with read_iterator := w.2.read_iterator + 1 })

end tuple_buffer_t

/-! ## Field numbers of the STOCK tuple in NewOrder (`src/dora/tpcc/dora_new_order.cpp`) -/

/-- The members of `tpcc_stock_tuple` that `upd_sto_nord_action::trx_exec` fills;
`S_DIST k` is the element `S_DIST[k]`. -/
inductive stock_member where
  | S_I_ID
  | S_W_ID
  | S_YTD
  | S_REMOTE_CNT
  | S_QUANTITY
  | S_DIST (k : Int)
  | S_DATA
  | S_ORDER_CNT
deriving DecidableEq, Repr

/-- Lines 506-524 of `upd_sto_nord_action::trx_exec`: the calls
`prst->get_value(field, member)` of one iteration, in program order, as pairs
of the field number of the STOCK row and the member that is filled. -/
def upd_sto_nord_action.get_values (i : new_order_input_t) : List (Int × stock_member) :=
  [(0, stock_member.S_I_ID), (1, stock_member.S_W_ID), (5, stock_member.S_YTD),
   (2, stock_member.S_REMOTE_CNT), (3, stock_member.S_QUANTITY),
   (6 + i._d_id, stock_member.S_DIST (6 + i._d_id)), (16, stock_member.S_DATA),
   (4, stock_member.S_ORDER_CNT)]

/-- Line 766 of `ins_ol_nord_action::trx_exec`: the member of the stock tuple that
is stored in field 9 of the ORDER_LINE row. -/
def ins_ol_nord_action.dist_member (i : new_order_input_t) : stock_member :=
  stock_member.S_DIST (6 + i._d_id)

/-- The index of an element of `S_DIST` lies in an array of `len` elements. -/
def stock_member.in_bounds (len : Int) : stock_member → Bool
  | stock_member.S_DIST k => decide (0 ≤ k) && decide (k < len)
  | _ => true

/-! ## The partition of an index (`table_man_impl::get_pnum`, `shore_table_man.h`) -/

/-- The members of `index_desc_t` that `get_pnum` reads: `is_partitioned()`,
`get_partition_count()` and `key_index(0)`. -/
structure index_desc_t where
  is_partitioned : Bool
  get_partition_count : Int
  key_index0 : Nat
deriving DecidableEq, Repr

/-- The operator `%` on `int`: the remainder of the division that truncates
towards zero; no value for a divisor 0 and for `INT_MIN % -1`. -/
def int_rem (a b : Int) : Option Int :=
  if b = 0 ∨ (a = INT_MIN ∧ b = -1) then none else some (Int.tmod a b)

/-- Lines 1032-1042: `get_pnum`. The tuple is given by the `int` values of its
fields (`get_value`); a `NULL` argument is `none`. The result is `none` when an
assertion fails or `%` has no value. -/
def table_man_impl.get_pnum (pindex : Option index_desc_t) (ptuple : Option (Nat → Int)) :
    Option Int :=
  match ptuple with
  | none => none
  | some tuple =>
    match pindex with
    | none => none
    | some index =>
      if !index.is_partitioned then some 0
      else int_rem (tuple index.key_index0) index.get_partition_count

/-! ## Properties of traces -/

/-- Every `enqueue_tonotify r` of the event list `t` comes after a
`get_durable_lsn d` of the same list with `r.my_last_lsn ≤ d`. -/
def durably_ordered (t : List Event) : Prop :=
  ∀ pre r post, t = pre ++ Event.enqueue_tonotify r :: post →
    ∃ d, Event.get_durable_lsn d ∈ pre ∧ r.my_last_lsn ≤ d

/-- Invariant of the loops of a generation, relative to the trace `B` at the
start: the events since then are durably ordered and contain the reading of
the current `durablelsn`. -/
def dora_flusher_t.tracked (B : List Event) (s : dora_flusher_t) : Prop :=
  ∃ E, s.trace = B ++ E ∧ durably_ordered E ∧ Event.get_durable_lsn s.durablelsn ∈ E

/-- The weaker invariant that holds between generations. -/
def dora_flusher_t.ordered_since (B : List Event) (s : dora_flusher_t) : Prop :=
  ∃ E, s.trace = B ++ E ∧ durably_ordered E

/-! ## Lemmas: group-commit pipeline -/

theorem durably_ordered_nil : durably_ordered [] := by
  intro pre r post h
  cases pre <;> simp at h

theorem durably_ordered_snoc_other {t : List Event} {e : Event}
    (ht : durably_ordered t) (he : ∀ r, e ≠ Event.enqueue_tonotify r) :
    durably_ordered (t ++ [e]) := by
  intro pre r post h
  rcases List.eq_nil_or_concat post with hp | ⟨post1, x, hp⟩
  · subst hp
    have h2 := List.append_inj' h rfl
    exact absurd (List.singleton_inj.mp h2.2) (he r)
  · subst hp
    have h1 : t ++ [e] = (pre ++ Event.enqueue_tonotify r :: post1) ++ [x] := by
      simpa using h
    have h2 := List.append_inj' h1 rfl
    exact ht pre r post1 h2.1

theorem durably_ordered_snoc_enqueue {t : List Event} {r0 : terminal_rvp_t} {d : lsn_t}
    (ht : durably_ordered t) (hd : Event.get_durable_lsn d ∈ t) (hle : r0.my_last_lsn ≤ d) :
    durably_ordered (t ++ [Event.enqueue_tonotify r0]) := by
  intro pre r post h
  rcases List.eq_nil_or_concat post with hp | ⟨post1, x, hp⟩
  · subst hp
    have h2 := List.append_inj' h rfl
    have h3 := List.singleton_inj.mp h2.2
    injection h3 with h4
    subst h4
    rw [← h2.1]
    exact ⟨d, hd, hle⟩
  · subst hp
    have h1 : t ++ [Event.enqueue_tonotify r0] =
        (pre ++ Event.enqueue_tonotify r :: post1) ++ [x] := by
      simpa using h
    have h2 := List.append_inj' h1 rfl
    exact ht pre r post1 h2.1

namespace dora_flusher_t

theorem tracked_drain_body {B : List Event} (prvp : Option terminal_rvp_t)
    {s : dora_flusher_t} (h : tracked B s) : tracked B (drain_body prvp s) := by
  obtain ⟨E, hE, hord, hmem⟩ := h
  cases prvp with
  | none => exact ⟨E, by simpa [drain_body] using hE, hord, by simpa [drain_body] using hmem⟩
  | some r =>
    by_cases hlt : s.durablelsn > r.my_last_lsn
    · refine ⟨E ++ [Event.enqueue_tonotify r], ?_, ?_, ?_⟩
      · simp [drain_body, hlt, hE]
      · exact durably_ordered_snoc_enqueue hord hmem (Nat.le_of_lt hlt)
      · simp [drain_body, hlt, hmem]
    · refine ⟨E ++ [Event.push_flushing r], ?_, ?_, ?_⟩
      · simp [drain_body, hlt, hE]
      · exact durably_ordered_snoc_other hord (by intro r1 h1; cases h1)
      · simp [drain_body, hlt, hmem]

theorem tracked_drain_loop {B : List Event} (q : List terminal_rvp_t) :
    ∀ {s : dora_flusher_t}, tracked B s → tracked B (drain_loop q s) := by
  induction q with
  | nil =>
    intro s h
    unfold drain_loop
    split
    · exact tracked_drain_body none (by simpa [tracked] using h)
    · exact h
  | cons r q ih =>
    intro s h
    unfold drain_loop
    exact ih (tracked_drain_body (some r) (by simpa [tracked] using h))

theorem tracked_decide_flush {B : List Event} (c : flusher_conf) (now : timespec)
    {s : dora_flusher_t} (h : tracked B s) : tracked B (decide_flush c now s) := by
  obtain ⟨E, hE, hord, hmem⟩ := h
  unfold decide_flush
  split
  · exact ⟨E, hE, hord, hmem⟩
  · dsimp only
    split
    · exact ⟨E, hE, hord, hmem⟩
    · split
      · exact ⟨E, hE, hord, hmem⟩
      · split
        · refine ⟨E ++ [Event.sync_log], ?_, ?_, ?_⟩
          · simp [hE]
          · exact durably_ordered_snoc_other hord (by intro r1 h1; cases h1)
          · simp [hmem]
        · exact ⟨E, hE, hord, hmem⟩

theorem ordered_since_flush {B : List Event} {s : dora_flusher_t}
    (h : ordered_since B s) : ordered_since B (flush s) := by
  obtain ⟨E, hE, hord⟩ := h
  unfold flush
  split
  · refine ⟨E ++ [Event.sync_log], ?_, ?_⟩
    · simp [hE]
    · exact durably_ordered_snoc_other hord (by intro r1 h1; cases h1)
  · exact ⟨E, hE, hord⟩

theorem tracked_forward_loop {B : List Event} (q : List terminal_rvp_t) :
    ∀ {s : dora_flusher_t}, tracked B s → tracked B (forward_loop q s) := by
  induction q with
  | nil => intro s h; simpa [forward_loop] using h
  | cons r q ih =>
    intro s h
    obtain ⟨E, hE, hord, hmem⟩ := h
    unfold forward_loop
    dsimp only
    split
    · rename_i hlt
      apply ih
      refine ⟨E ++ [Event.enqueue_tonotify r], ?_, ?_, ?_⟩
      · simp [hE]
      · exact durably_ordered_snoc_enqueue hord hmem (Nat.le_of_lt hlt)
      · simp [hmem]
    · refine ⟨E ++ [Event.assert_failed r], ?_, ?_, ?_⟩
      · simp [hE]
      · exact durably_ordered_snoc_other hord (by intro r1 h1; cases h1)
      · simp [hmem]

theorem ordered_since_generation {B : List Event} (c : flusher_conf) (i : gen_input)
    {s : dora_flusher_t} (h : ordered_since B s) :
    ordered_since B (generation c i s) := by
  obtain ⟨E, hE, hord⟩ := h
  have h1 : tracked B (begin_generation i s) :=
    ⟨E ++ [Event.get_durable_lsn i.durable1], by simp [begin_generation, hE],
      durably_ordered_snoc_other hord (by intro r1 h1; cases h1), by simp [begin_generation]⟩
  have h2 : tracked B (decide_flush c i.now (drain_toflush (begin_generation i s))) :=
    tracked_decide_flush c i.now (tracked_drain_loop _ h1)
  unfold generation
  dsimp only
  split
  · obtain ⟨E2, hE2, hord2, _⟩ := h2
    obtain ⟨E3, hE3, hord3⟩ := ordered_since_flush ⟨E2, hE2, hord2⟩
    have h4 : tracked B (reread_durable i
        (flush (decide_flush c i.now (drain_toflush (begin_generation i s))))) :=
      ⟨E3 ++ [Event.get_durable_lsn i.durable2], by simp [reread_durable, hE3],
        durably_ordered_snoc_other hord3 (by intro r1 h1; cases h1), by simp [reread_durable]⟩
    obtain ⟨E5, hE5, hord5, _⟩ := tracked_forward_loop _ h4
    exact ⟨E5, hE5, hord5⟩
  · obtain ⟨E3, hE3, hord3, _⟩ := h2
    exact ⟨E3, hE3, hord3⟩

theorem ordered_since_work_loop {B : List Event} (c : flusher_conf)
    (inputs : List gen_input) :
    ∀ {s : dora_flusher_t}, ordered_since B s → ordered_since B (work_loop c inputs s) := by
  induction inputs with
  | nil => intro s h; simpa [work_loop] using h
  | cons i is ih =>
    intro s h
    unfold work_loop
    dsimp only
    split
    · exact ordered_since_generation c i h
    · exact ih (ordered_since_generation c i h)

/-- Fields that the body of the drain loop leaves alone. -/
theorem drain_body_frame (prvp : Option terminal_rvp_t) (s : dora_flusher_t) :
    (drain_body prvp s).durablelsn = s.durablelsn ∧ (drain_body prvp s).ts = s.ts ∧
    (drain_body prvp s).aborted = s.aborted ∧
    (drain_body prvp s).bShouldFlush = s.bShouldFlush ∧
    (drain_body prvp s).stats.trigByXcts = s.stats.trigByXcts ∧
    (drain_body prvp s).stats.trigBySize = s.stats.trigBySize ∧
    (drain_body prvp s).stats.trigByTimeout = s.stats.trigByTimeout := by
  cases prvp with
  | none => simp [drain_body]
  | some r =>
    by_cases hlt : s.durablelsn > r.my_last_lsn <;> simp [drain_body, hlt]

theorem drain_loop_frame (q : List terminal_rvp_t) : ∀ s : dora_flusher_t,
    (drain_loop q s).durablelsn = s.durablelsn ∧ (drain_loop q s).ts = s.ts ∧
    (drain_loop q s).aborted = s.aborted ∧
    (drain_loop q s).bShouldFlush = s.bShouldFlush ∧
    (drain_loop q s).stats.trigByXcts = s.stats.trigByXcts ∧
    (drain_loop q s).stats.trigBySize = s.stats.trigBySize ∧
    (drain_loop q s).stats.trigByTimeout = s.stats.trigByTimeout := by
  induction q with
  | nil =>
    intro s
    unfold drain_loop
    split
    · simpa using drain_body_frame none { s with toflush := [] }
    · simp
  | cons r q ih =>
    intro s
    unfold drain_loop
    have h1 := ih (drain_body (some r) { s with toflush := q })
    have h2 := drain_body_frame (some r) { s with toflush := q }
    simp only [] at h2
    simp only [h1, h2, and_self]

theorem forward_loop_frame (q : List terminal_rvp_t) : ∀ s : dora_flusher_t,
    (forward_loop q s).bShouldFlush = s.bShouldFlush ∧
    (forward_loop q s).stats = s.stats ∧ (forward_loop q s).waiting = s.waiting ∧
    (forward_loop q s).toflush = s.toflush ∧ (forward_loop q s).ts = s.ts := by
  induction q with
  | nil => intro s; simp [forward_loop]
  | cons r q ih =>
    intro s
    unfold forward_loop
    dsimp only
    split
    · simpa using ih _
    · simp

theorem decide_flush_spec (c : flusher_conf) (now : timespec) (d : dora_flusher_t) :
    let byXcts : Bool := decide (d.waiting ≥ c.maxGroupSize)
    let bySize : Bool := !byXcts && decide (c.log_diff d.maxlsn d.durablelsn ≥ (c.maxLogSize : Int))
    let byTimeout : Bool := !byXcts && !bySize && deadline_passed now d.ts
    ((decide_flush c now d).bShouldFlush = (d.bShouldFlush || byXcts || bySize || byTimeout)) ∧
    (decide_flush c now d).stats.trigByXcts = d.stats.trigByXcts + (if byXcts then 1 else 0) ∧
    (decide_flush c now d).stats.trigBySize = d.stats.trigBySize + (if bySize then 1 else 0) ∧
    (decide_flush c now d).stats.trigByTimeout =
      d.stats.trigByTimeout + (if byTimeout then 1 else 0) := by
  intro byXcts bySize byTimeout
  by_cases h1 : d.waiting ≥ c.maxGroupSize
  · simp [decide_flush, byXcts, bySize, byTimeout, h1]
  · by_cases h2 : c.log_diff d.maxlsn d.durablelsn ≥ (c.maxLogSize : Int)
    · simp [decide_flush, byXcts, bySize, byTimeout, h1, h2]
    · by_cases h3 : deadline_passed now d.ts = true
      · simp [decide_flush, byXcts, bySize, byTimeout, h1, h2, h3]
      · by_cases h4 : d.waiting = 0
        · have hg : ¬ c.maxGroupSize = 0 := by omega
          simp [decide_flush, byXcts, bySize, byTimeout, h2, h3, h4, hg]
        · simp [decide_flush, byXcts, bySize, byTimeout, h1, h2, h3, h4]

theorem generation_decision (c : flusher_conf) (i : gen_input) (s : dora_flusher_t) :
    (generation c i s).bShouldFlush =
      (decide_flush c i.now (drain_toflush (begin_generation i s))).bShouldFlush ∧
    (generation c i s).stats.trigByXcts =
      (decide_flush c i.now (drain_toflush (begin_generation i s))).stats.trigByXcts ∧
    (generation c i s).stats.trigBySize =
      (decide_flush c i.now (drain_toflush (begin_generation i s))).stats.trigBySize ∧
    (generation c i s).stats.trigByTimeout =
      (decide_flush c i.now (drain_toflush (begin_generation i s))).stats.trigByTimeout := by
  unfold generation
  dsimp only
  split
  · have h := forward_loop_frame
      (reread_durable i (flush (decide_flush c i.now
        (drain_toflush (begin_generation i s))))).flushing
      (reread_durable i (flush (decide_flush c i.now (drain_toflush (begin_generation i s)))))
    unfold forward_flushing
    rw [h.1, h.2.1]
    unfold reread_durable flush
    split <;> simp
  · exact ⟨rfl, rfl, rfl, rfl⟩

theorem drain_loop_spec (q : List terminal_rvp_t) : ∀ s : dora_flusher_t, s.toflush = q →
    (drain_loop q s).toflush = [] ∧
    (drain_loop q s).tonotify =
      s.tonotify ++ q.filter (fun r => decide (r.my_last_lsn < s.durablelsn)) ∧
    (drain_loop q s).flushing =
      s.flushing ++ q.filter (fun r => !decide (r.my_last_lsn < s.durablelsn)) ∧
    (drain_loop q s).waiting =
      q.foldl (fun w r => if r.my_last_lsn < s.durablelsn then w else (w + 1) % 2 ^ 32)
        s.waiting ∧
    (drain_loop q s).maxlsn =
      q.foldl (fun m r => if r.my_last_lsn < s.durablelsn then m else max m r.my_last_lsn)
        s.maxlsn := by
  induction q with
  | nil =>
    intro s hs
    unfold drain_loop
    split
    · simp [drain_body]
    · simp [hs]
  | cons r q ih =>
    intro s _
    unfold drain_loop
    have h := ih (drain_body (some r) { s with toflush := q }) (by
      by_cases hlt : s.durablelsn > r.my_last_lsn <;> simp [drain_body, hlt])
    have hd : (drain_body (some r) { s with toflush := q }).durablelsn = s.durablelsn :=
      (drain_body_frame (some r) { s with toflush := q }).1
    rw [hd] at h
    by_cases hlt : r.my_last_lsn < s.durablelsn
    · have e : drain_body (some r) { s with toflush := q } =
          { s with
            toflush := q
            tonotify := s.tonotify ++ [r]
            trace := s.trace ++ [Event.enqueue_tonotify r]
            bSleepNext := false
            stats := { s.stats with
              alreadyFlushed := s.stats.alreadyFlushed + 1
              served := s.stats.served + 1 } } := by
        simp [drain_body, hlt]
      rw [e] at h ⊢
      simpa [hlt] using h
    · have e : drain_body (some r) { s with toflush := q } =
          { s with
            toflush := q
            maxlsn := max s.maxlsn r.my_last_lsn
            flushing := s.flushing ++ [r]
            trace := s.trace ++ [Event.push_flushing r]
            waiting := (s.waiting + 1) % 2 ^ 32
            bSleepNext := false
            stats := { s.stats with served := s.stats.served + 1 } } := by
        simp [drain_body, hlt]
      rw [e] at h ⊢
      simpa [hlt] using h

/-! Counting the entries of the queues. -/

theorem drain_body_count (r : terminal_rvp_t) (q : List terminal_rvp_t) (s : dora_flusher_t)
    (hs : s.toflush = r :: q) (a : terminal_rvp_t) :
    (drain_body (some r) { s with toflush := q }).queues.count a = s.queues.count a := by
  by_cases hlt : s.durablelsn > r.my_last_lsn <;>
    simp [drain_body, hlt, queues, hs, List.count_append, List.count_cons] <;> omega

theorem drain_loop_count (q : List terminal_rvp_t) : ∀ s : dora_flusher_t, s.toflush = q →
    ∀ a, (drain_loop q s).queues.count a = s.queues.count a := by
  induction q with
  | nil =>
    intro s hs a
    unfold drain_loop
    split
    · simp [drain_body, queues, hs]
    · rfl
  | cons r q ih =>
    intro s hs a
    unfold drain_loop
    rw [ih _ (by by_cases hlt : s.durablelsn > r.my_last_lsn <;> simp [drain_body, hlt]) a]
    exact drain_body_count r q s hs a

theorem decide_flush_queues (c : flusher_conf) (now : timespec) (s : dora_flusher_t) :
    (decide_flush c now s).queues = s.queues ∧ (decide_flush c now s).aborted = s.aborted ∧
    (decide_flush c now s).flushing = s.flushing := by
  unfold decide_flush
  split
  · exact ⟨rfl, rfl, rfl⟩
  · dsimp only
    split
    · exact ⟨rfl, rfl, rfl⟩
    · split
      · exact ⟨rfl, rfl, rfl⟩
      · split <;> exact ⟨rfl, rfl, rfl⟩

theorem flush_queues (s : dora_flusher_t) :
    (flush s).queues = s.queues ∧ (flush s).aborted = s.aborted := by
  unfold flush
  split <;> exact ⟨rfl, rfl⟩

theorem forward_loop_count (q : List terminal_rvp_t) : ∀ s : dora_flusher_t, s.flushing = q →
    ∀ a, (forward_loop q s).queues.count a ≤ s.queues.count a ∧
      ((forward_loop q s).aborted = false →
        (forward_loop q s).queues.count a = s.queues.count a) := by
  induction q with
  | nil => intro s _ a; simp [forward_loop]
  | cons r q ih =>
    intro s hs a
    unfold forward_loop
    dsimp only
    split
    · have h := ih { s with
          flushing := q
          tonotify := s.tonotify ++ [r]
          trace := s.trace ++ [Event.enqueue_tonotify r] } rfl a
      have e : ({ s with
          flushing := q
          tonotify := s.tonotify ++ [r]
          trace := s.trace ++ [Event.enqueue_tonotify r] } : dora_flusher_t).queues.count a =
          s.queues.count a := by
        simp [queues, hs, List.count_append, List.count_cons]; omega
      rw [e] at h
      exact h
    · refine ⟨?_, fun h => by simp at h⟩
      simp [queues, hs, List.count_append, List.count_cons]

theorem generation_count (c : flusher_conf) (i : gen_input) (s : dora_flusher_t)
    (a : terminal_rvp_t) :
    (generation c i s).queues.count a ≤ s.queues.count a ∧
      ((generation c i s).aborted = false →
        (generation c i s).queues.count a = s.queues.count a) := by
  have h1 : (decide_flush c i.now (drain_toflush (begin_generation i s))).queues.count a =
      s.queues.count a := by
    rw [(decide_flush_queues c i.now _).1]
    exact drain_loop_count _ (begin_generation i s) rfl a
  unfold generation
  dsimp only
  split
  · have h2 := forward_loop_count
      (reread_durable i (flush (decide_flush c i.now
        (drain_toflush (begin_generation i s))))).flushing
      (reread_durable i (flush (decide_flush c i.now (drain_toflush (begin_generation i s)))))
      rfl a
    have e : (reread_durable i (flush (decide_flush c i.now
        (drain_toflush (begin_generation i s))))).queues.count a = s.queues.count a := by
      rw [← h1, ← (flush_queues (decide_flush c i.now (drain_toflush (begin_generation i s)))).1]
      rfl
    rw [e] at h2
    exact h2
  · exact ⟨le_of_eq h1, fun _ => h1⟩

theorem stop_loop_trace (q : List terminal_rvp_t) : ∀ acc : List Event × Nat,
    (stop_loop q acc).1 =
      acc.1 ++ q.flatMap (fun r => [Event.notify_client r, Event.giveback r]) := by
  induction q with
  | nil => intro acc; simp [stop_loop]
  | cons r q ih =>
    intro acc
    obtain ⟨t, n⟩ := acc
    unfold stop_loop
    rw [ih]
    simp

end dora_flusher_t

theorem notifier_stop_loop_trace (q : List terminal_rvp_t) : ∀ acc : List Event × Nat,
    (dora_notifier_t.stop_loop q acc).1 =
      acc.1 ++ q.flatMap (fun r =>
        [Event.upd_committed_stats r, Event.notify_client r, Event.giveback r]) := by
  induction q with
  | nil => intro acc; simp [dora_notifier_t.stop_loop]
  | cons r q ih =>
    intro acc
    obtain ⟨t, n⟩ := acc
    unfold dora_notifier_t.stop_loop
    rw [ih]
    simp

/-! Steps of the transition system. -/

theorem gc_step_count (c : flusher_conf) (st : gc_step) (s : dora_flusher_t)
    (a : terminal_rvp_t) : (st.apply c s).queues.count a ≤ s.queues.count a := by
  cases st with
  | flusher_generation i => exact (dora_flusher_t.generation_count c i s a).1
  | notifier_iteration =>
    simp only [gc_step.apply]
    unfold dora_notifier_t.iteration
    split
    · exact le_rfl
    · rename_i r q hs
      simp [dora_flusher_t.queues, hs, List.count_append, List.count_cons]
  | flusher_pre_STOP =>
    simp only [gc_step.apply, dora_flusher_t._pre_STOP_impl, dora_flusher_t.queues,
      List.count_append, List.count_nil]
    omega
  | notifier_pre_STOP =>
    simp [gc_step.apply, dora_notifier_t._pre_STOP_impl, dora_flusher_t.queues,
      List.count_append]

theorem gc_step_accounts (c : flusher_conf) (st : gc_step) (s : dora_flusher_t)
    (hok : (st.apply c s).aborted = false) :
    ∃ E, (st.apply c s).trace = s.trace ++ E ∧
      ∀ r ∈ s.queues, r ∈ (st.apply c s).queues ∨ Event.notify_client r ∈ E := by
  cases st with
  | flusher_generation i =>
    obtain ⟨E, hE, _⟩ := dora_flusher_t.ordered_since_generation (B := s.trace) c i
      (s := s) ⟨[], by simp, durably_ordered_nil⟩
    refine ⟨E, hE, fun r hr => Or.inl ?_⟩
    have h := (dora_flusher_t.generation_count c i s r).2 hok
    rw [← List.count_pos_iff] at hr ⊢
    show 0 < List.count r (dora_flusher_t.generation c i s).queues
    omega
  | notifier_iteration =>
    simp only [gc_step.apply] at hok ⊢
    unfold dora_notifier_t.iteration
    split
    · exact ⟨[], by simp, fun r hr => Or.inl hr⟩
    · rename_i r0 q hs
      refine ⟨[Event.upd_committed_stats r0, Event.notify_client r0, Event.notify r0,
        Event.giveback r0], rfl, fun r hr => ?_⟩
      simp only [dora_flusher_t.queues, hs, List.mem_append, List.mem_cons] at hr ⊢
      by_cases e : r = r0
      · right; simp [e]
      · left; tauto
  | flusher_pre_STOP =>
    refine ⟨[Event.notifier_stop, Event.notifier_join] ++
      (s.flushing ++ s.toflush).flatMap (fun r => [Event.notify_client r, Event.giveback r]),
      ?_, fun r hr => ?_⟩
    · simp [gc_step.apply, dora_flusher_t._pre_STOP_impl, dora_flusher_t.stop_loop_trace]
    · simp only [dora_flusher_t.queues, List.mem_append] at hr
      simp only [gc_step.apply, dora_flusher_t._pre_STOP_impl, dora_flusher_t.queues,
        List.mem_append, List.mem_flatMap, List.mem_cons]
      rcases hr with (hr | hr) | hr
      · right; right; exact ⟨r, Or.inr hr, Or.inl rfl⟩
      · right; right; exact ⟨r, Or.inl hr, Or.inl rfl⟩
      · left; simp [hr]
  | notifier_pre_STOP =>
    refine ⟨s.tonotify.flatMap (fun r =>
      [Event.upd_committed_stats r, Event.notify_client r, Event.giveback r]),
      ?_, fun r hr => ?_⟩
    · simp [gc_step.apply, dora_notifier_t._pre_STOP_impl, notifier_stop_loop_trace]
    · simp only [dora_flusher_t.queues, List.mem_append] at hr
      simp only [gc_step.apply, dora_notifier_t._pre_STOP_impl, dora_flusher_t.queues,
        List.mem_append, List.mem_flatMap, List.mem_cons]
      rcases hr with (hr | hr) | hr
      · left; simp [hr]
      · left; simp [hr]
      · right; exact ⟨r, hr, Or.inr (Or.inl rfl)⟩

theorem run_steps_count (c : flusher_conf) (steps : List gc_step) :
    ∀ (s : dora_flusher_t) (a : terminal_rvp_t),
      (run_steps c steps s).queues.count a ≤ s.queues.count a := by
  induction steps with
  | nil => intro s a; exact le_rfl
  | cons st l ih =>
    intro s a
    unfold run_steps
    dsimp only
    split
    · exact gc_step_count c st s a
    · exact le_trans (ih _ a) (gc_step_count c st s a)

theorem run_steps_accounts (c : flusher_conf) (steps : List gc_step) :
    ∀ s : dora_flusher_t, (run_steps c steps s).aborted = false →
      ∃ E, (run_steps c steps s).trace = s.trace ++ E ∧
        ∀ r ∈ s.queues, r ∈ (run_steps c steps s).queues ∨ Event.notify_client r ∈ E := by
  induction steps with
  | nil => intro s _; exact ⟨[], by simp [run_steps], fun r hr => Or.inl hr⟩
  | cons st l ih =>
    intro s hok
    unfold run_steps at hok ⊢
    dsimp only at hok ⊢
    split
    · rename_i hab
      rw [if_pos hab] at hok
      exact gc_step_accounts c st s hok
    · rename_i hab
      rw [if_neg hab] at hok
      obtain ⟨E1, hE1, h1⟩ := gc_step_accounts c st s (by simpa using hab)
      obtain ⟨E2, hE2, h2⟩ := ih _ hok
      refine ⟨E1 ++ E2, by rw [hE2, hE1, List.append_assoc], fun r hr => ?_⟩
      rcases h1 r hr with h | h
      · rcases h2 r h with h' | h'
        · exact Or.inl h'
        · exact Or.inr (List.mem_append_right _ h')
      · exact Or.inr (List.mem_append_left _ h)

/-! Counting the notifications of the drains at stop. -/

theorem count_notify_flusher_stop (q : List terminal_rvp_t) (r : terminal_rvp_t) :
    (q.flatMap (fun x => [Event.notify_client x, Event.giveback x])).count
      (Event.notify_client r) = q.count r := by
  induction q with
  | nil => simp
  | cons x q ih =>
    rw [List.flatMap_cons, List.count_append, ih]
    by_cases e : x = r
    · simp [List.count_cons, e]; omega
    · simp [List.count_cons, e]

theorem count_notify_notifier_stop (q : List terminal_rvp_t) (r : terminal_rvp_t) :
    (q.flatMap (fun x =>
      [Event.upd_committed_stats x, Event.notify_client x, Event.giveback x])).count
      (Event.notify_client r) = q.count r := by
  induction q with
  | nil => simp
  | cons x q ih =>
    rw [List.flatMap_cons, List.count_append, ih]
    by_cases e : x = r
    · simp [List.count_cons, e]; omega
    · simp [List.count_cons, e]

/-! ## Lemmas: partition worker -/

namespace dora_worker_t

theorem finalize_spec (b : worker_build) (a : base_action_t) (ie : Bool) (rc : Int)
    (w : dora_worker_t) :
    (finalize b a ie rc w).1.trace =
      w.trace ++ [WEvent.post a.rvp ie] ++
        rvp_events (decide ((w.rvps a.rvp).received + 1 = (w.rvps a.rvp).expected)) a.rvp ∧
    (finalize b a ie rc w).1.rvps =
      Function.update w.rvps a.rvp
        { w.rvps a.rvp with
          received := (w.rvps a.rvp).received + 1
          aborted := (w.rvps a.rvp).aborted || ie } ∧
    (finalize b a ie rc w).1.stats = w.stats ∧
    (finalize b a ie rc w).1.aborted = w.aborted := by
  by_cases h : (w.rvps a.rvp).received + 1 = (w.rvps a.rvp).expected <;>
    simp [finalize, rvp_t.post, emit, rvp_events, h]

theorem exec_action_frame (b : worker_build) (a : base_action_t) (w : dora_worker_t) :
    (exec_action b a w).1.rvps = w.rvps ∧ (exec_action b a w).1.aborted = w.aborted ∧
    (exec_action b a w).1.stats._processed = w.stats._processed := by
  unfold exec_action
  split
  · dsimp only
    split <;> split <;> try split
    all_goals simp [emit]
  · simp

theorem exec_action_early (b : worker_build) (a : base_action_t) (w : dora_worker_t)
    (h : (w.rvps a.rvp).isAborted = true) :
    exec_action b a w =
      ({ w with stats := { w.stats with _early_aborts := w.stats._early_aborts + 1 } },
        false, b.de_EARLY_ABORT) := by
  simp [exec_action, h]

theorem exec_action_ok (b : worker_build) (a : base_action_t) (w : dora_worker_t)
    (h : (w.rvps a.rvp).isAborted = false) (he : a.trx_exec = w_rc_t.RCOK) :
    exec_action b a w = ({ w with trace := w.trace ++ exec_events b a }, false, 0) := by
  cases hb : b.ONLYDORA <;> simp [exec_action, h, he, hb, emit, exec_events, w_rc_t.is_error]

theorem exec_action_problem (b : worker_build) (a : base_action_t) (w : dora_worker_t) (n : Int)
    (h : (w.rvps a.rvp).isAborted = false) (he : a.trx_exec = w_rc_t.RC n)
    (hm : ¬ (b.MIDWAY_ABORTS = true ∧ n = b.de_MIDWAY_ABORT)) :
    exec_action b a w =
      ({ w with
          trace := w.trace ++ exec_events b a
          stats := { w.stats with _problems := w.stats._problems + 1 } },
        true, b.de_WORKER_RUN_XCT) := by
  have hm1 : (b.MIDWAY_ABORTS && decide (n = b.de_MIDWAY_ABORT)) = false := by
    cases hM : b.MIDWAY_ABORTS
    · rfl
    · simp only [Bool.true_and, decide_eq_false_iff_not]
      exact fun e => hm ⟨hM, e⟩
  cases hb : b.ONLYDORA <;>
    simp [exec_action, h, he, hb, emit, exec_events, w_rc_t.is_error, w_rc_t.err_num, hm1]

theorem exec_action_midway (b : worker_build) (a : base_action_t) (w : dora_worker_t)
    (h : (w.rvps a.rvp).isAborted = false)
    (he : a.trx_exec = w_rc_t.RC b.de_MIDWAY_ABORT) (hm : b.MIDWAY_ABORTS = true) :
    exec_action b a w =
      ({ w with
          trace := w.trace ++ exec_events b a
          stats := { w.stats with _mid_aborts := w.stats._mid_aborts + 1 } },
        false, b.de_MIDWAY_ABORT) := by
  cases hb : b.ONLYDORA <;>
    simp [exec_action, h, he, hb, emit, exec_events, w_rc_t.is_error, w_rc_t.err_num, hm]

/-- The events of the body of a served action: none on an early abort, the
`exec_events` otherwise. -/
theorem exec_action_trace (b : worker_build) (a : base_action_t) (w : dora_worker_t) :
    (exec_action b a w).1.trace =
      w.trace ++ (if (w.rvps a.rvp).isAborted then [] else exec_events b a) := by
  cases h : (w.rvps a.rvp).isAborted
  · cases he : a.trx_exec with
    | RCOK => rw [exec_action_ok b a w h he]; simp
    | RC n =>
      by_cases hm : b.MIDWAY_ABORTS = true ∧ n = b.de_MIDWAY_ABORT
      · obtain ⟨hm1, hm2⟩ := hm
        subst hm2
        rw [exec_action_midway b a w h he hm1]; simp
      · rw [exec_action_problem b a w n h he hm]; simp
  · rw [exec_action_early b a w h]; simp

/-- A served action that is ready: the events and the RVP table. -/
theorem serve_action_ready (b : worker_build) (a : base_action_t) (w : dora_worker_t)
    (hr : a.is_ready = true) :
    (_serve_action b a w).1.trace =
      w.trace ++ [WEvent.serve_action a] ++
        (if (w.rvps a.rvp).isAborted then [] else exec_events b a) ++
        [WEvent.post a.rvp (exec_action b a (emit [WEvent.serve_action a] w)).2.1] ++
        rvp_events (decide ((w.rvps a.rvp).received + 1 = (w.rvps a.rvp).expected)) a.rvp ∧
    (_serve_action b a w).1.rvps =
      Function.update w.rvps a.rvp
        { w.rvps a.rvp with
          received := (w.rvps a.rvp).received + 1
          aborted := (w.rvps a.rvp).aborted ||
            (exec_action b a (emit [WEvent.serve_action a] w)).2.1 } ∧
    (_serve_action b a w).1.aborted = w.aborted ∧
    (_serve_action b a w).1.stats._processed = w.stats._processed + 1 := by
  have hf := finalize_spec b a (exec_action b a (emit [WEvent.serve_action a] w)).2.1
    (exec_action b a (emit [WEvent.serve_action a] w)).2.2
    (exec_action b a (emit [WEvent.serve_action a] w)).1
  have hx := exec_action_frame b a (emit [WEvent.serve_action a] w)
  have ht := exec_action_trace b a (emit [WEvent.serve_action a] w)
  rw [hx.1] at hf
  simp only [_serve_action, hr, Bool.not_true, Bool.false_eq_true, if_false]
  refine ⟨?_, ?_, ?_, ?_⟩
  · rw [hf.1, ht]; simp [emit]
  · rw [hf.2.1]; rfl
  · rw [hf.2.2.2, hx.2.1]; rfl
  · show (finalize b a _ _ _).1.stats._processed + 1 = _
    rw [hf.2.2.1, hx.2.2]; rfl

/-- The statistics after serving a ready action: those of the body, with
`_processed` incremented. -/
theorem serve_action_stats (b : worker_build) (a : base_action_t) (w : dora_worker_t)
    (hr : a.is_ready = true) :
    (_serve_action b a w).1.stats =
      { (exec_action b a (emit [WEvent.serve_action a] w)).1.stats with
        _processed := (exec_action b a (emit [WEvent.serve_action a] w)).1.stats._processed + 1 } := by
  have hf := finalize_spec b a (exec_action b a (emit [WEvent.serve_action a] w)).2.1
    (exec_action b a (emit [WEvent.serve_action a] w)).2.2
    (exec_action b a (emit [WEvent.serve_action a] w)).1
  simp only [_serve_action, hr, Bool.not_true, Bool.false_eq_true, if_false]
  rw [hf.2.2.1]

theorem exec_events_count_rvp (b : worker_build) (a : base_action_t) (p : Nat) :
    (exec_events b a).count (WEvent.rvp_run p) = 0 ∧
    (exec_events b a).count (WEvent.rvp_notify p) = 0 ∧
    (exec_events b a).count (WEvent.rvp_giveback p) = 0 := by
  cases hb : b.ONLYDORA <;> simp [exec_events, hb, List.count_cons]

/-- Number of `run()` calls on the RVP at `p` when one ready action is served. -/
theorem serve_action_run_count (b : worker_build) (a : base_action_t) (w : dora_worker_t)
    (hr : a.is_ready = true) (p : Nat) :
    ∃ E, (_serve_action b a w).1.trace = w.trace ++ E ∧
      E.count (WEvent.rvp_run p) =
        (if a.rvp = p ∧ (w.rvps a.rvp).received + 1 = (w.rvps a.rvp).expected then 1 else 0) ∧
      E.count (WEvent.rvp_notify p) = E.count (WEvent.rvp_run p) ∧
      E.count (WEvent.rvp_giveback p) = E.count (WEvent.rvp_run p) := by
  refine ⟨[WEvent.serve_action a] ++
    (if (w.rvps a.rvp).isAborted then [] else exec_events b a) ++
    [WEvent.post a.rvp (exec_action b a (emit [WEvent.serve_action a] w)).2.1] ++
    rvp_events (decide ((w.rvps a.rvp).received + 1 = (w.rvps a.rvp).expected)) a.rvp,
    ?_, ?_⟩
  · rw [(serve_action_ready b a w hr).1]; simp
  · have hc := exec_events_count_rvp b a p
    by_cases h2 : a.rvp = p
    · subst h2
      by_cases h1 : (w.rvps a.rvp).received + 1 = (w.rvps a.rvp).expected <;>
        cases h3 : (w.rvps a.rvp).isAborted <;>
        simp [rvp_events, h1, List.count_cons, List.count_append, hc]
    · by_cases h1 : (w.rvps a.rvp).received + 1 = (w.rvps a.rvp).expected <;>
        cases h3 : (w.rvps a.rvp).isAborted <;>
        simp [rvp_events, h1, h2, List.count_cons, List.count_append, hc]

theorem serve_all_cons (b : worker_build) (a : base_action_t) (l : List base_action_t)
    (w : dora_worker_t) :
    serve_all b (a :: l) w = serve_all b l (_serve_action b a w).1 := rfl

/-- Number of `run()` calls on the RVP at `p` when the ready actions of a list
are served. -/
theorem serve_all_run_count (b : worker_build) (p : Nat) (l : List base_action_t) :
    ∀ w : dora_worker_t, (∀ x ∈ l, x.is_ready = true) →
      ∃ E, (serve_all b l w).trace = w.trace ++ E ∧
        E.count (WEvent.rvp_run p) =
          (if (w.rvps p).received < (w.rvps p).expected ∧
              (w.rvps p).expected ≤
                (w.rvps p).received + (l.filter (fun x => decide (x.rvp = p))).length
            then 1 else 0) := by
  induction l with
  | nil =>
    intro w _
    refine ⟨[], by simp [serve_all], ?_⟩
    simp only [List.count_nil, List.filter_nil, List.length_nil, Nat.add_zero]
    split_ifs <;> omega
  | cons a l ih =>
    intro w hl
    have hr : a.is_ready = true := hl a (List.mem_cons_self a l)
    obtain ⟨E1, hE1, hc1, _⟩ := serve_action_run_count b a w hr p
    obtain ⟨E2, hE2, hc2⟩ := ih (_serve_action b a w).1
      (fun x hx => hl x (List.mem_cons_of_mem a hx))
    refine ⟨E1 ++ E2, by rw [serve_all_cons, hE2, hE1, List.append_assoc], ?_⟩
    rw [List.count_append, hc1, hc2, (serve_action_ready b a w hr).2.1]
    by_cases h2 : a.rvp = p
    · subst h2
      simp only [Function.update_same, true_and, List.filter_cons, decide_True, if_true,
        List.length_cons]
      split_ifs <;> omega
    · rw [Function.update_noteq (Ne.symm h2)]
      simp only [h2, false_and, if_false, List.filter_cons, decide_False, Bool.false_eq_true,
        zero_add]

end dora_worker_t

/-! Scheduling calls of a generation. -/

namespace dora_worker_t

theorem exec_events_sched (b : worker_build) (a : base_action_t) :
    (exec_events b a).filter WEvent.is_sched = [] := by
  cases hb : b.ONLYDORA <;> simp [exec_events, hb, WEvent.is_sched]

theorem rvp_events_sched (last : Bool) (p : Nat) :
    (rvp_events last p).filter WEvent.is_sched = [] := by
  cases last <;> simp [rvp_events, WEvent.is_sched]

theorem serve_action_sched (b : worker_build) (a : base_action_t) (w : dora_worker_t)
    (hr : a.is_ready = true) :
    ∃ E, (_serve_action b a w).1.trace = w.trace ++ E ∧
      E.filter WEvent.is_sched = [WEvent.serve_action a] ∧
      (_serve_action b a w).1.aborted = w.aborted := by
  have hs := serve_action_ready b a w hr
  refine ⟨[WEvent.serve_action a] ++
    (if (w.rvps a.rvp).isAborted then [] else exec_events b a) ++
    [WEvent.post a.rvp (exec_action b a (emit [WEvent.serve_action a] w)).2.1] ++
    rvp_events (decide ((w.rvps a.rvp).received + 1 = (w.rvps a.rvp).expected)) a.rvp,
    by rw [hs.1]; simp, ?_, hs.2.2.1⟩
  cases h : (w.rvps a.rvp).isAborted <;>
    simp [List.filter_append, exec_events_sched, rvp_events_sched, WEvent.is_sched,
      List.filter_cons]

theorem serve_ready_sched (b : worker_build) (l : List base_action_t) :
    ∀ w : dora_worker_t, (∀ a ∈ l, a.is_ready = true) → w.aborted = false →
      ∃ E, (serve_ready b l w).trace = w.trace ++ E ∧
        E.filter WEvent.is_sched = l.map WEvent.serve_action ∧
        (serve_ready b l w).aborted = false := by
  induction l with
  | nil => intro w _ hw; exact ⟨[], by simp [serve_ready], rfl, hw⟩
  | cons a l ih =>
    intro w hl hw
    obtain ⟨E1, hE1, hf1, ha1⟩ := serve_action_sched b a w (hl a (List.mem_cons_self a l))
    rw [hw] at ha1
    have hne : ¬ (_serve_action b a w).1.aborted = true := by simp [ha1]
    unfold serve_ready
    dsimp only
    rw [if_neg hne]
    obtain ⟨E2, hE2, hf2, ha2⟩ := ih (incr_served_waiting (_serve_action b a w).1)
      (fun x hx => hl x (List.mem_cons_of_mem a hx)) ha1
    refine ⟨E1 ++ E2, ?_, ?_, ha2⟩
    · rw [hE2]
      show (_serve_action b a w).1.trace ++ E2 = _
      rw [hE1, List.append_assoc]
    · rw [List.filter_append, hf1, hf2]; rfl

theorem release_committed_sched (b : worker_build) (cs : List commit_input) :
    ∀ w : dora_worker_t, (∀ c ∈ cs, ∀ a ∈ c.actionReadyList, a.is_ready = true) →
      w.aborted = false →
      ∃ E, (release_committed b cs w).trace = w.trace ++ E ∧
        E.filter WEvent.is_sched = cs.flatMap commit_schedule ∧
        (release_committed b cs w).aborted = false := by
  induction cs with
  | nil => intro w _ hw; exact ⟨[], by simp [release_committed], rfl, hw⟩
  | cons c cs ih =>
    intro w hl hw
    obtain ⟨E1, hE1, hf1, ha1⟩ := serve_ready_sched b c.actionReadyList
      (emit [WEvent.dequeue_commit c.apa, WEvent.trx_rel_locks c.apa, WEvent.giveback c.apa] w)
      (hl c (List.mem_cons_self c cs)) hw
    have hne : ¬ (serve_ready b c.actionReadyList (emit [WEvent.dequeue_commit c.apa,
        WEvent.trx_rel_locks c.apa, WEvent.giveback c.apa] w)).aborted = true := by simp [ha1]
    unfold release_committed
    dsimp only
    rw [if_neg hne]
    obtain ⟨E2, hE2, hf2, ha2⟩ := ih _ (fun x hx => hl x (List.mem_cons_of_mem c hx)) ha1
    refine ⟨[WEvent.dequeue_commit c.apa, WEvent.trx_rel_locks c.apa, WEvent.giveback c.apa] ++
      E1 ++ E2, ?_, ?_, ha2⟩
    · rw [hE2, hE1]; simp [emit]
    · rw [List.filter_append, List.filter_append, hf1, hf2]
      simp [commit_schedule, WEvent.is_sched, List.filter_cons]

theorem serve_input_sched (b : worker_build) (input : Option base_action_t) (w : dora_worker_t)
    (hin : ∀ a, input = some a → a.trx_acq_locks = true → a.is_ready = true) :
    ∃ E, (serve_input b input w).trace = w.trace ++ [WEvent.dequeue input] ++ E ∧
      E.filter WEvent.is_sched = input_schedule input ∧
      (serve_input b input w).aborted = w.aborted := by
  cases input with
  | none => exact ⟨[], by simp [serve_input, emit], rfl, rfl⟩
  | some a =>
    cases hacq : a.trx_acq_locks
    · refine ⟨[WEvent.trx_acq_locks a], ?_, ?_, ?_⟩
      · simp [serve_input, emit, hacq, incr_checked_input]
      · simp [input_schedule, hacq, WEvent.is_sched, List.filter_cons]
      · simp [serve_input, emit, hacq, incr_checked_input]
    · obtain ⟨E1, hE1, hf1, ha1⟩ := serve_action_sched b a
        (emit [WEvent.trx_acq_locks a] (incr_checked_input (emit [WEvent.dequeue (some a)] w)))
        (hin a rfl hacq)
      refine ⟨[WEvent.trx_acq_locks a] ++ E1, ?_, ?_, ?_⟩
      · simp only [serve_input, hacq, if_true]
        split
        · rw [hE1]; simp [emit, incr_checked_input]
        · show (_serve_action b a _).1.trace = _
          rw [hE1]; simp [emit, incr_checked_input]
      · rw [List.filter_append, hf1]
        simp [input_schedule, hacq, WEvent.is_sched, List.filter_cons]
      · simp only [serve_input, hacq, if_true]
        split
        · rw [ha1]; rfl
        · show (_serve_action b a _).1.aborted = _
          rw [ha1]; rfl

end dora_worker_t

/-! ## Lemmas: key-range map -/

theorem lower_bound_le_length {K : Type} (comp : K → K → Bool) (m : List (K × lpid_t)) (k : K) :
    lower_bound comp m k ≤ m.length := by
  induction m with
  | nil => simp [lower_bound]
  | cons e m ih =>
    unfold lower_bound
    split
    · simpa using ih
    · simp

/-- In a map whose start keys descend, `lower_bound(k)` is the entry with the
greatest start key that is at most `k`, and `end()` when every start key is
above `k`. -/
theorem lower_bound_greater_spec {K : Type} [LinearOrder K] (m : List (K × lpid_t))
    (hord : krm_ordered m) (k : K) :
    match m.get? (lower_bound cmp_str_greater m k) with
    | some e => e ∈ m ∧ e.1 ≤ k ∧ ∀ e1 ∈ m, e1.1 ≤ k → e1.1 ≤ e.1
    | none => ∀ e ∈ m, k < e.1 := by
  induction m with
  | nil => simp [lower_bound]
  | cons e0 m ih =>
    have hord1 : krm_ordered m := (List.pairwise_cons.mp hord).2
    have hhead : ∀ e1 ∈ m, e1.1 < e0.1 := (List.pairwise_cons.mp hord).1
    have ih1 := ih hord1
    by_cases hc : k < e0.1
    · have e : lower_bound cmp_str_greater (e0 :: m) k = lower_bound cmp_str_greater m k + 1 := by
        simp [lower_bound, cmp_str_greater, hc]
      rw [e, List.get?_cons_succ]
      cases hg : m.get? (lower_bound cmp_str_greater m k) with
      | none =>
        rw [hg] at ih1
        intro e1 he1
        rcases List.mem_cons.mp he1 with h | h
        · rw [h]; exact hc
        · exact ih1 e1 h
      | some e2 =>
        rw [hg] at ih1
        refine ⟨List.mem_cons_of_mem _ ih1.1, ih1.2.1, fun e1 he1 hle => ?_⟩
        rcases List.mem_cons.mp he1 with h | h
        · rw [h] at hle; exact absurd hc (not_lt.mpr hle)
        · exact ih1.2.2 e1 h hle
    · have e : lower_bound cmp_str_greater (e0 :: m) k = 0 := by
        simp [lower_bound, cmp_str_greater, hc]
      rw [e]
      refine ⟨List.mem_cons_self _ _, not_lt.mp hc, fun e1 he1 _ => ?_⟩
      rcases List.mem_cons.mp he1 with h | h
      · rw [h]
      · exact le_of_lt (hhead e1 h)

/-- The entries of the map are never changed by `addPartition`. -/
theorem addPartition_keeps_entries {K : Type} [LinearOrder K] (nf : Int)
    (m : key_ranges_map K) (key : K) (root : lpid_t) :
    (key_ranges_map.addPartition nf m key root).2.2._keyRangesMap = m._keyRangesMap := by
  unfold key_ranges_map.addPartition
  dsimp only
  split <;> rfl

/-- Deleting by a key whose partition is the last entry in map order reads past
the end of the map. -/
theorem deletePartitionByKey_last {K : Type} [LinearOrder K] (nf : Int)
    (m : key_ranges_map K) (key : K)
    (h : lower_bound cmp_str_greater m._keyRangesMap key + 1 = m._keyRangesMap.length) :
    key_ranges_map._deletePartitionByKey nf m key = none := by
  unfold key_ranges_map._deletePartitionByKey
  dsimp only
  rw [if_neg (by omega)]
  have hg : m._keyRangesMap.get? (lower_bound cmp_str_greater m._keyRangesMap key + 1) = none := by
    rw [List.get?_eq_none]; omega
  rw [hg]

/-- Deleting by a key whose partition is not the last entry removes that entry. -/
theorem deletePartitionByKey_inner {K : Type} [LinearOrder K] (nf : Int)
    (m : key_ranges_map K) (key : K)
    (h : lower_bound cmp_str_greater m._keyRangesMap key + 1 < m._keyRangesMap.length) :
    ∃ m1, key_ranges_map._deletePartitionByKey nf m key = some (w_rc_t.RCOK, m1) ∧
      m1._keyRangesMap =
        m._keyRangesMap.eraseIdx (lower_bound cmp_str_greater m._keyRangesMap key) ∧
      m1._numPartitions = (m._numPartitions + 2 ^ 32 - 1) % 2 ^ 32 := by
  unfold key_ranges_map._deletePartitionByKey
  dsimp only
  rw [if_neg (by omega)]
  obtain ⟨e, he⟩ : ∃ e, m._keyRangesMap.get?
      (lower_bound cmp_str_greater m._keyRangesMap key + 1) = some e :=
    ⟨_, List.get?_eq_get h⟩
  rw [he]
  exact ⟨_, rfl, rfl, rfl⟩

/-! ## Lemmas: a generation that flushes -/

namespace dora_flusher_t

/-- When the durable LSN is above the last LSN of every entry, the forwarding loop
moves all entries of the flushing queue to the notifier. -/
theorem forward_loop_durable (q : List terminal_rvp_t) : ∀ s : dora_flusher_t,
    (∀ r ∈ q, r.my_last_lsn < s.durablelsn) →
    (forward_loop q s).tonotify = s.tonotify ++ q ∧
    (forward_loop q s).trace = s.trace ++ q.map Event.enqueue_tonotify ∧
    (forward_loop q s).aborted = s.aborted ∧
    (forward_loop q s).logWaiting = s.logWaiting ∧
    (q ≠ [] ∨ s.flushing = [] → (forward_loop q s).flushing = []) := by
  induction q with
  | nil => intro s _; simp [forward_loop]
  | cons r q ih =>
    intro s h
    have hr : r.my_last_lsn < s.durablelsn := h r (List.mem_cons_self r q)
    unfold forward_loop
    simp only [hr, if_true]
    have h1 := ih { s with
        flushing := q
        tonotify := s.tonotify ++ [r]
        trace := s.trace ++ [Event.enqueue_tonotify r] }
      (fun x hx => h x (List.mem_cons_of_mem r hx))
    refine ⟨by rw [h1.1]; simp, by rw [h1.2.1]; simp, h1.2.2.1, h1.2.2.2.1, fun _ => ?_⟩
    cases q with
    | nil => simp [forward_loop]
    | cons r1 q1 => exact h1.2.2.2.2 (Or.inl (by simp))

/-- The state after a generation in which the count trigger fires and the flusher
is still active. -/
theorem generation_count_trigger (c : flusher_conf) (i : gen_input) (s : dora_flusher_t)
    (hW : (drain_toflush (begin_generation i s)).waiting ≥ c.maxGroupSize)
    (hact : i.active = true) :
    generation c i s =
      forward_flushing (reread_durable i (flush
        { drain_toflush (begin_generation i s) with
          bShouldFlush := true
          stats := { (drain_toflush (begin_generation i s)).stats with
            trigByXcts := (drain_toflush (begin_generation i s)).stats.trigByXcts + 1 } })) := by
  unfold generation
  simp only [hact, if_true]
  congr 3
  unfold decide_flush
  rw [if_pos hW]

end dora_flusher_t

namespace dora_flusher_t

/-- The deadline `ts` after the flush decision: it is moved only when the timeout
trigger fires. -/
theorem decide_flush_deadline (c : flusher_conf) (now : timespec) (d : dora_flusher_t) :
    (d.waiting ≥ c.maxGroupSize → (decide_flush c now d).ts = d.ts) ∧
    (¬ d.waiting ≥ c.maxGroupSize → c.log_diff d.maxlsn d.durablelsn ≥ (c.maxLogSize : Int) →
      (decide_flush c now d).ts = d.ts) ∧
    (¬ d.waiting ≥ c.maxGroupSize → ¬ c.log_diff d.maxlsn d.durablelsn ≥ (c.maxLogSize : Int) →
      (decide_flush c now d).ts =
        if deadline_passed now d.ts then set_timeout c.maxTimeIntervalusec now else d.ts) := by
  refine ⟨fun h1 => ?_, fun h1 h2 => ?_, fun h1 h2 => ?_⟩
  · simp [decide_flush, h1]
  · simp [decide_flush, h1, h2]
  · by_cases h3 : deadline_passed now d.ts = true
    · simp [decide_flush, h1, h2, h3]
    · by_cases h4 : d.waiting = 0
      · have hg : ¬ c.maxGroupSize = 0 := by omega
        simp [decide_flush, h2, h3, h4, hg]
      · simp [decide_flush, h1, h2, h3, h4]

end dora_flusher_t

/-! ## Lemmas: partitioned table -/

namespace part_table_t

variable {P : Type}

/-- The calls made by the loop of `reset()`: the partitions are visited in vector
order, each is given the current `_next_prs_id`, and the next one the value of
`next_cpu` on it. -/
theorem reset_loop_spec (ncpu : Int → Option Int) (ps : List P) :
    ∀ (i : Nat) (c : Int) (calls : List (Nat × Int)) (c1 : Int) (out : List (Nat × Int)),
      reset_loop ncpu ps i c calls = some (c1, out) →
      ∃ cs : List Int, out = calls ++ (List.range' i ps.length).zip cs ∧
        cs.length = ps.length ∧
        List.Chain' (fun a b => ncpu a = some b) (cs ++ [c1]) ∧
        (cs ++ [c1]).head? = some c := by
  induction ps with
  | nil =>
    intro i c calls c1 out h
    simp only [reset_loop, Option.some.injEq, Prod.mk.injEq] at h
    refine ⟨[], by simp [h.2], rfl, by simp, by simp [h.1]⟩
  | cons p ps ih =>
    intro i c calls c1 out h
    unfold reset_loop at h
    cases hn : ncpu c with
    | none => rw [hn] at h; simp at h
    | some n =>
      rw [hn] at h
      obtain ⟨cs, h1, h2, h3, h4⟩ := ih (i + 1) n (calls ++ [(i, c)]) c1 out h
      refine ⟨c :: cs, ?_, by simp [h2], ?_, by simp⟩
      · rw [h1]
        simp [List.range'_succ]
      · rw [List.cons_append, List.chain'_cons']
        refine ⟨fun y hy => ?_, h3⟩
        rw [h4] at hy
        simp only [Option.mem_def, Option.some.injEq] at hy
        rw [← hy]; exact hn

/-- The loop of `reset()` has a result when `next_cpu` has one on every CPU of an
invariant set that contains the start CPU. -/
theorem reset_loop_total (ncpu : Int → Option Int) (inv : Int → Prop)
    (hinv : ∀ c, inv c → ∃ c1, ncpu c = some c1 ∧ inv c1) (ps : List P) :
    ∀ (i : Nat) (c : Int) (calls : List (Nat × Int)), inv c →
      (reset_loop ncpu ps i c calls).isSome = true := by
  induction ps with
  | nil => intro i c calls _; simp [reset_loop]
  | cons p ps ih =>
    intro i c calls hc
    obtain ⟨c1, h1, h2⟩ := hinv c hc
    unfold reset_loop
    rw [h1]
    exact ih (i + 1) c1 _ h2

/-- The value of `next_cpu` when the binding is enabled and the operands are not
negative. -/
theorem next_cpu_bound (ev : String → Option Int) (DF n c : Int)
    (hb : getVarInt ev "dora-cpu-binding" 0 ≠ 0) (hc : 0 ≤ c)
    (hs : 0 ≤ getVarInt ev "dora-cpu-partition-step" DF) (hn : 0 < n) :
    (∀ r, next_cpu ev DF n c = some r →
      r = (c + getVarInt ev "dora-cpu-partition-step" DF) % n ∧ 0 ≤ r ∧ r < n) ∧
    (c + getVarInt ev "dora-cpu-partition-step" DF ≤ INT_MAX →
      next_cpu ev DF n c = some ((c + getVarInt ev "dora-cpu-partition-step" DF) % n)) := by
  have hsum : 0 ≤ c + getVarInt ev "dora-cpu-partition-step" DF := by omega
  have hmod : Int.tmod (c + getVarInt ev "dora-cpu-partition-step" DF) n =
      (c + getVarInt ev "dora-cpu-partition-step" DF) % n :=
    Int.tmod_eq_emod hsum (le_of_lt hn)
  have hlo : INT_MIN ≤ c + getVarInt ev "dora-cpu-partition-step" DF := by
    have : INT_MIN ≤ 0 := by decide
    omega
  refine ⟨fun r hr => ?_, fun hle => ?_⟩
  · unfold next_cpu at hr
    simp only [hb, if_false] at hr
    split at hr
    · simp at hr
    · simp only [Option.some.injEq] at hr
      rw [← hr, hmod]
      exact ⟨rfl, Int.emod_nonneg _ (ne_of_gt hn), Int.emod_lt_of_pos _ hn⟩
  · unfold next_cpu
    simp only [hb, if_false]
    rw [if_neg, hmod]
    intro h
    rcases h with h | h | h | h
    · omega
    · omega
    · omega
    · omega

end part_table_t

/-! ## Lemmas: NULL flags -/

/-- The macro `SET_NULL_FLAG` never turns a flag on: a flag that reads as set
after it was set before. -/
theorem SET_NULL_FLAG_never_sets (char_signed : Bool) (start start1 : List Nat) (offset : Nat)
    (hset : SET_NULL_FLAG char_signed start offset = some start1)
    (his : IS_NULL_FLAG char_signed start1 offset = some true) :
    IS_NULL_FLAG char_signed start offset = some true := by
  unfold SET_NULL_FLAG at hset
  unfold IS_NULL_FLAG at his ⊢
  by_cases hk : 31 ≤ offset >>> 3
  · rw [if_pos hk] at hset; exact absurd hset (by simp)
  · rw [if_neg hk] at hset his ⊢
    cases hb : start.get? (offset >>> 3) with
    | none => rw [hb] at hset; exact absurd hset (by simp)
    | some b =>
      rw [hb] at hset
      simp only [Option.some.injEq] at hset
      have hlt : offset >>> 3 < start.length := (List.get?_eq_some.mp hb).1
      have hget : start1.get? (offset >>> 3) =
          some ((char_to_int char_signed b &&& (1 <<< (offset >>> 3))) % 256) := by
        rw [← hset]; simp [hlt]
      rw [hget] at his
      by_cases hz : char_to_int char_signed b &&& (1 <<< (offset >>> 3)) = 0
      · rw [hz] at his
        have h0 : char_to_int char_signed (0 % 256) = 0 := by
          cases char_signed <;> simp [char_to_int]
        simp only [h0] at his
        simp at his
      · simp [hz]

/-- Two NULL indexes in the same group of eight read the same flag. -/
theorem IS_NULL_FLAG_shared (char_signed : Bool) (start : List Nat) (i j : Nat)
    (h : i >>> 3 = j >>> 3) :
    IS_NULL_FLAG char_signed start i = IS_NULL_FLAG char_signed start j := by
  unfold IS_NULL_FLAG
  rw [h]

/-! ## Lemmas: the log sync of a generation -/

namespace dora_flusher_t

/-- What the body of the drain loop does to `waiting`, the flushing queue and
the trace for an entry `r`. -/
theorem drain_body_some_fields (r : terminal_rvp_t) (q : List terminal_rvp_t)
    (s : dora_flusher_t) :
    (s.durablelsn > r.my_last_lsn →
      (drain_body (some r) { s with toflush := q }).waiting = s.waiting ∧
      (drain_body (some r) { s with toflush := q }).flushing = s.flushing ∧
      (drain_body (some r) { s with toflush := q }).trace =
        s.trace ++ [Event.enqueue_tonotify r]) ∧
    (¬ s.durablelsn > r.my_last_lsn →
      (drain_body (some r) { s with toflush := q }).waiting = (s.waiting + 1) % 2 ^ 32 ∧
      (drain_body (some r) { s with toflush := q }).flushing = s.flushing ++ [r] ∧
      (drain_body (some r) { s with toflush := q }).trace =
        s.trace ++ [Event.push_flushing r]) := by
  constructor
  · intro hd; simp [drain_body, hd]
  · intro hd; simp [drain_body, hd]

/-- While the counter does not wrap, the drain loop adds to `waiting` the number
of entries that it pushes to the flushing queue, and it extends the trace. -/
theorem drain_loop_waiting (q : List terminal_rvp_t) : ∀ s : dora_flusher_t,
    s.waiting + q.length < 2 ^ 32 →
    (drain_loop q s).waiting + s.flushing.length =
      s.waiting + (drain_loop q s).flushing.length ∧
    ∃ g, (drain_loop q s).trace = s.trace ++ g := by
  induction q with
  | nil =>
    intro s _
    unfold drain_loop
    by_cases hb : s.bSleepNext = true
    · simp [hb, drain_body]
    · simp [hb]
  | cons r q ih =>
    intro s h
    unfold drain_loop
    simp only [List.length_cons] at h
    have hb := drain_body_some_fields r q s
    by_cases hd : s.durablelsn > r.my_last_lsn
    · obtain ⟨hw, hf, ht⟩ := hb.1 hd
      have h1 := ih (drain_body (some r) { s with toflush := q }) (by rw [hw]; omega)
      rw [hw, hf, ht] at h1
      obtain ⟨g, hg⟩ := h1.2
      exact ⟨h1.1, Event.enqueue_tonotify r :: g, by rw [hg]; simp⟩
    · obtain ⟨hw, hf, ht⟩ := hb.2 hd
      have hmod : (s.waiting + 1) % 2 ^ 32 = s.waiting + 1 := Nat.mod_eq_of_lt (by omega)
      rw [hmod] at hw
      have h1 := ih (drain_body (some r) { s with toflush := q }) (by rw [hw]; omega)
      rw [hw, hf, ht] at h1
      obtain ⟨g, hg⟩ := h1.2
      refine ⟨?_, Event.push_flushing r :: g, by rw [hg]; simp⟩
      have := h1.1
      simp only [List.length_append, List.length_singleton] at this
      omega

/-- The flush decision leaves the flushing queue alone; either it sets
`bShouldFlush`, or it calls the lazy flush when `waiting` is not zero. -/
theorem decide_flush_sync (c : flusher_conf) (now : timespec) (d : dora_flusher_t) :
    (decide_flush c now d).flushing = d.flushing ∧
    (decide_flush c now d).aborted = d.aborted ∧
    (((decide_flush c now d).bShouldFlush = true ∧ (decide_flush c now d).trace = d.trace) ∨
     ((decide_flush c now d).bShouldFlush = d.bShouldFlush ∧
      (decide_flush c now d).trace =
        d.trace ++ (if d.waiting ≠ 0 then [Event.sync_log] else []))) := by
  unfold decide_flush
  by_cases h1 : d.waiting ≥ c.maxGroupSize
  · simp [h1]
  · by_cases h2 : c.log_diff d.maxlsn d.durablelsn ≥ (c.maxLogSize : Int)
    · simp [h1, h2]
    · by_cases h3 : deadline_passed now d.ts = true
      · simp [h1, h2, h3]
      · by_cases h4 : d.waiting = 0
        · have hg : ¬ c.maxGroupSize = 0 := by omega
          simp [h2, h3, h4, hg]
        · simp [h1, h2, h3, h4]

/-- The forwarding loop extends the trace, and when no assertion fails it leaves
the flushing queue empty. -/
theorem forward_loop_empties (q : List terminal_rvp_t) : ∀ s : dora_flusher_t,
    s.flushing = q →
    ((forward_loop q s).aborted = false → (forward_loop q s).flushing = []) ∧
    ∃ g, (forward_loop q s).trace = s.trace ++ g := by
  induction q with
  | nil => intro s h; simp [forward_loop, h]
  | cons r q ih =>
    intro s _
    unfold forward_loop
    by_cases hr : r.my_last_lsn < s.durablelsn
    · simp only [hr, if_true]
      have h1 := ih { s with
        flushing := q
        tonotify := s.tonotify ++ [r]
        trace := s.trace ++ [Event.enqueue_tonotify r] } rfl
      obtain ⟨g, hg⟩ := h1.2
      exact ⟨h1.1, Event.enqueue_tonotify r :: g, by rw [hg]; simp⟩
    · simp [hr]

end dora_flusher_t

namespace dora_flusher_t

/-- The blocking flush leaves the flushing queue alone and calls `sync_log` when
`bShouldFlush` is set. -/
theorem flush_sync (s : dora_flusher_t) :
    (flush s).flushing = s.flushing ∧
    (flush s).trace = s.trace ++ (if s.bShouldFlush = true then [Event.sync_log] else []) := by
  unfold flush
  by_cases h : s.bShouldFlush = true
  · simp [h]
  · simp [h]

end dora_flusher_t

/-! ## Lemmas: the remainder of `int` -/

/-- The remainder of the truncating division by a positive divisor. -/
theorem tmod_bounds (a n : Int) (hn : 0 < n) :
    -n < Int.tmod a n ∧ Int.tmod a n < n ∧ (a < 0 → Int.tmod a n ≤ 0) := by
  obtain ⟨k, rfl⟩ := Int.eq_ofNat_of_zero_le (le_of_lt hn)
  have hk : 0 < k := by exact_mod_cast hn
  cases a with
  | ofNat m =>
    have h1 : ((m % k : Nat) : Int) < (k : Int) := by exact_mod_cast Nat.mod_lt m hk
    have h0 : (0 : Int) ≤ ((m % k : Nat) : Int) := Int.ofNat_nonneg _
    have he : Int.tmod (Int.ofNat m) (k : Int) = ((m % k : Nat) : Int) := rfl
    rw [he]
    refine ⟨by omega, h1, fun h => ?_⟩
    have : (0 : Int) ≤ Int.ofNat m := Int.ofNat_nonneg m
    omega
  | negSucc m =>
    have h1 : (((m + 1) % k : Nat) : Int) < (k : Int) := by exact_mod_cast Nat.mod_lt (m + 1) hk
    have h0 : (0 : Int) ≤ (((m + 1) % k : Nat) : Int) := Int.ofNat_nonneg _
    have he : Int.tmod (Int.negSucc m) (k : Int) = -(((m + 1) % k : Nat) : Int) := rfl
    rw [he]
    exact ⟨by omega, by omega, fun _ => by omega⟩

/-! ## Theorems -/

/-! ### C1: durability before notification -/

/-- C1. In every run of `dora_flusher_t::_work_ACTIVE_impl`, whatever the storage
engine, the clock and the control state answer, each `enqueue_tonotify r` among
the events `E` of the run comes after a `get_durable_lsn` of the same run whose
result is at least `r.my_last_lsn`. This covers the RVPs forwarded while
draining to-flush and those forwarded from the flushing queue. -/
theorem group_commit_durability_ordering (ev : String → Option Int)
    (log_diff : lsn_t → lsn_t → Int) (start0 : timespec) (inputs : List gen_input)
    (s : dora_flusher_t) :
    ∃ E, (dora_flusher_t._work_ACTIVE_impl ev log_diff start0 inputs s).trace = s.trace ++ E ∧
      ∀ pre r post, E = pre ++ Event.enqueue_tonotify r :: post →
        ∃ d, Event.get_durable_lsn d ∈ pre ∧ r.my_last_lsn ≤ d := by
  unfold dora_flusher_t._work_ACTIVE_impl
  dsimp only
  obtain ⟨E, hE, hord⟩ := dora_flusher_t.ordered_since_work_loop (B := s.trace)
    (read_configuration ev log_diff) inputs
    (s := { s with
      waiting := 0
      bShouldFlush := false
      logWaiting := 0
      bSleepNext := false
      start := start0
      ts := set_timeout (read_configuration ev log_diff).maxTimeIntervalusec start0 })
    ⟨[], by simp, durably_ordered_nil⟩
  exact ⟨E, hE, hord⟩

/-- A run of one generation on the queue `[(1,5), (2,3), (3,7)]` with durable LSN
5 and then 9: the transaction 2 is forwarded while draining, 1 and 3 from the
flushing queue, each after a durable LSN above its own. -/
theorem group_commit_durability_ordering_witness :
    (dora_flusher_t._work_ACTIVE_impl (fun _ => none) (fun a b => (a : Int) - b) ⟨0, 0⟩
        [⟨5, ⟨0, 0⟩, true, 9⟩] { toflush := [⟨1, 5⟩, ⟨2, 3⟩, ⟨3, 7⟩] }).trace =
      [Event.get_durable_lsn 5, Event.push_flushing ⟨1, 5⟩, Event.enqueue_tonotify ⟨2, 3⟩,
        Event.push_flushing ⟨3, 7⟩, Event.sync_log, Event.get_durable_lsn 9,
        Event.enqueue_tonotify ⟨1, 5⟩, Event.enqueue_tonotify ⟨3, 7⟩] ∧
    ∃ d, Event.get_durable_lsn d ∈
        [Event.get_durable_lsn 5, Event.push_flushing ⟨1, 5⟩, Event.enqueue_tonotify ⟨2, 3⟩,
          Event.push_flushing ⟨3, 7⟩, Event.sync_log, Event.get_durable_lsn 9,
          Event.enqueue_tonotify ⟨1, 5⟩] ∧ (7 : Nat) ≤ d := by
  refine ⟨by decide, ?_⟩
  obtain ⟨E, hE, h⟩ := group_commit_durability_ordering (fun _ => none)
    (fun a b => (a : Int) - b) ⟨0, 0⟩ [⟨5, ⟨0, 0⟩, true, 9⟩]
    { toflush := [⟨1, 5⟩, ⟨2, 3⟩, ⟨3, 7⟩] }
  have hE1 : E = [Event.get_durable_lsn 5, Event.push_flushing ⟨1, 5⟩,
      Event.enqueue_tonotify ⟨2, 3⟩, Event.push_flushing ⟨3, 7⟩, Event.sync_log,
      Event.get_durable_lsn 9, Event.enqueue_tonotify ⟨1, 5⟩,
      Event.enqueue_tonotify ⟨3, 7⟩] := by
    rw [show ([] : List Event) ++ E = E from rfl] at hE
    rw [← hE]
    decide
  exact h _ ⟨3, 7⟩ [] (by rw [hE1]; rfl)

/-! ### C2: precedence of the flush triggers -/

/-- C2. In a generation of the flusher loop let `W` be the waiting counter after
the drain of to-flush and `L = _log_diff(maxlsn, durablelsn)`. The generation
decides to flush by the count trigger iff `W ≥ maxGroupSize`; otherwise by the
size trigger iff `L ≥ maxLogSize`; otherwise by the timeout trigger iff the
deadline `ts` has passed; otherwise it does not decide to flush. The counter of
the deciding trigger is incremented by one and no other trigger counter changes.
When an option is not set, its threshold is 100, 200000 or 1000. -/
theorem flush_trigger_precedence (c : flusher_conf) (i : gen_input) (s : dora_flusher_t) :
    let d := dora_flusher_t.drain_toflush (dora_flusher_t.begin_generation i s)
    let W := d.waiting
    let L := c.log_diff d.maxlsn i.durable1
    let byXcts : Bool := decide (W ≥ c.maxGroupSize)
    let bySize : Bool := !byXcts && decide (L ≥ (c.maxLogSize : Int))
    let byTimeout : Bool := !byXcts && !bySize && deadline_passed i.now s.ts
    let g := dora_flusher_t.generation c i s
    g.bShouldFlush = (byXcts || bySize || byTimeout) ∧
    g.stats.trigByXcts = s.stats.trigByXcts + (if byXcts then 1 else 0) ∧
    g.stats.trigBySize = s.stats.trigBySize + (if bySize then 1 else 0) ∧
    g.stats.trigByTimeout = s.stats.trigByTimeout + (if byTimeout then 1 else 0) ∧
    (∀ (ev : String → Option Int) (ld : lsn_t → lsn_t → Int),
      (ev "flusher-group-size" = none → (read_configuration ev ld).maxGroupSize = 100) ∧
      (ev "flusher-log-size" = none → (read_configuration ev ld).maxLogSize = 200000) ∧
      (ev "flusher-timeout" = none → (read_configuration ev ld).maxTimeIntervalusec = 1000)) := by
  intro d W L byXcts bySize byTimeout g
  have hf := dora_flusher_t.drain_loop_frame (dora_flusher_t.begin_generation i s).toflush
    (dora_flusher_t.begin_generation i s)
  have hd := dora_flusher_t.decide_flush_spec c i.now d
  have e1 : d.durablelsn = i.durable1 := hf.1
  have e2 : d.ts = s.ts := hf.2.1
  have e3 : d.bShouldFlush = false := hf.2.2.2.1
  have e4 : d.stats.trigByXcts = s.stats.trigByXcts := hf.2.2.2.2.1
  have e5 : d.stats.trigBySize = s.stats.trigBySize := hf.2.2.2.2.2.1
  have e6 : d.stats.trigByTimeout = s.stats.trigByTimeout := hf.2.2.2.2.2.2
  simp only [e1, e2, e3, e4, e5, e6, Bool.false_or] at hd
  have hg := dora_flusher_t.generation_decision c i s
  refine ⟨hg.1.trans hd.1, hg.2.1.trans hd.2.1, hg.2.2.1.trans hd.2.2.1,
    hg.2.2.2.trans hd.2.2.2, ?_⟩
  intro ev ld
  refine ⟨fun h => ?_, fun h => ?_, fun h => ?_⟩ <;>
    simp [read_configuration, getVarInt, h, to_uint, DFLUSHER_GROUP_SIZE_THRESHOLD,
      DFLUSHER_LOG_SIZE_THRESHOLD, DFLUSHER_TIME_THRESHOLD]

/-- The thresholds of C2 when no option is set. -/
theorem flush_trigger_precedence_witness :
    (read_configuration (fun _ => none) (fun a b => (a : Int) - b)).maxGroupSize = 100 ∧
    (read_configuration (fun _ => none) (fun a b => (a : Int) - b)).maxLogSize = 200000 ∧
    (read_configuration (fun _ => none) (fun a b => (a : Int) - b)).maxTimeIntervalusec = 1000 :=
  ⟨((flush_trigger_precedence ⟨100, 200000, 1000, fun a b => (a : Int) - b⟩
      ⟨5, ⟨0, 0⟩, true, 9⟩ {}).2.2.2.2 (fun _ => none) (fun a b => (a : Int) - b)).1 rfl,
    ((flush_trigger_precedence ⟨100, 200000, 1000, fun a b => (a : Int) - b⟩
      ⟨5, ⟨0, 0⟩, true, 9⟩ {}).2.2.2.2 (fun _ => none) (fun a b => (a : Int) - b)).2.1 rfl,
    ((flush_trigger_precedence ⟨100, 200000, 1000, fun a b => (a : Int) - b⟩
      ⟨5, ⟨0, 0⟩, true, 9⟩ {}).2.2.2.2 (fun _ => none) (fun a b => (a : Int) - b)).2.2 rfl⟩

/-! ### C3: classification while draining to-flush -/

/-- C3 as stated fails when the last LSN equals the durable LSN: with durable LSN
5 at the start of the generation, the RVP with last LSN 5 is not forwarded to
the notifier but put into the flushing queue. -/
theorem drain_classification_counterexample :
    (⟨1, 5⟩ : terminal_rvp_t).my_last_lsn ≤ (⟨5, ⟨0, 0⟩, true, 5⟩ : gen_input).durable1 ∧
    (dora_flusher_t.drain_toflush (dora_flusher_t.begin_generation ⟨5, ⟨0, 0⟩, true, 5⟩
      { toflush := [⟨1, 5⟩] })).tonotify = [] ∧
    (dora_flusher_t.drain_toflush (dora_flusher_t.begin_generation ⟨5, ⟨0, 0⟩, true, 5⟩
      { toflush := [⟨1, 5⟩] })).flushing = [⟨1, 5⟩] := by
  decide

/-- C3, amended. For a popped RVP `r`: if `r.my_last_lsn` is strictly below the
durable LSN it is appended to to-notify and the flushing queue, the waiting
counter and `maxlsn` are unchanged; otherwise it is appended to the flushing
queue, to-notify is unchanged, the waiting counter is incremented by one (as a
`uint`) and `maxlsn` becomes the maximum of its value and `r.my_last_lsn`. The
drain of a generation does this for every entry of to-flush, in order, with the
durable LSN read at the start of the generation, and empties to-flush. -/
theorem drain_classification (i : gen_input) (s : dora_flusher_t) (r : terminal_rvp_t) :
    (r.my_last_lsn < s.durablelsn →
      (dora_flusher_t.drain_body (some r) s).tonotify = s.tonotify ++ [r] ∧
      (dora_flusher_t.drain_body (some r) s).flushing = s.flushing ∧
      (dora_flusher_t.drain_body (some r) s).waiting = s.waiting ∧
      (dora_flusher_t.drain_body (some r) s).maxlsn = s.maxlsn) ∧
    (¬ r.my_last_lsn < s.durablelsn →
      (dora_flusher_t.drain_body (some r) s).tonotify = s.tonotify ∧
      (dora_flusher_t.drain_body (some r) s).flushing = s.flushing ++ [r] ∧
      (dora_flusher_t.drain_body (some r) s).waiting = (s.waiting + 1) % 2 ^ 32 ∧
      (dora_flusher_t.drain_body (some r) s).maxlsn = max s.maxlsn r.my_last_lsn) ∧
    (dora_flusher_t.drain_toflush (dora_flusher_t.begin_generation i s)).toflush = [] ∧
    (dora_flusher_t.drain_toflush (dora_flusher_t.begin_generation i s)).tonotify =
      s.tonotify ++ s.toflush.filter (fun r => decide (r.my_last_lsn < i.durable1)) ∧
    (dora_flusher_t.drain_toflush (dora_flusher_t.begin_generation i s)).flushing =
      s.flushing ++ s.toflush.filter (fun r => !decide (r.my_last_lsn < i.durable1)) ∧
    (dora_flusher_t.drain_toflush (dora_flusher_t.begin_generation i s)).waiting =
      s.toflush.foldl (fun w r => if r.my_last_lsn < i.durable1 then w else (w + 1) % 2 ^ 32)
        s.waiting ∧
    (dora_flusher_t.drain_toflush (dora_flusher_t.begin_generation i s)).maxlsn =
      s.toflush.foldl (fun m r => if r.my_last_lsn < i.durable1 then m else max m r.my_last_lsn)
        i.durable1 := by
  refine ⟨fun h => ?_, fun h => ?_, ?_⟩
  · simp [dora_flusher_t.drain_body, h]
  · simp [dora_flusher_t.drain_body, h]
  · exact dora_flusher_t.drain_loop_spec (dora_flusher_t.begin_generation i s).toflush
      (dora_flusher_t.begin_generation i s) rfl

/-- The amended C3 on the queue `[(1,5), (2,3)]` with durable LSN 5. -/
theorem drain_classification_witness :
    (dora_flusher_t.drain_body (some ⟨2, 3⟩) { durablelsn := 5 }).tonotify = [⟨2, 3⟩] ∧
    (dora_flusher_t.drain_body (some ⟨1, 5⟩) { durablelsn := 5 }).flushing = [⟨1, 5⟩] ∧
    (dora_flusher_t.drain_body (some ⟨1, 5⟩) { durablelsn := 5 }).waiting = 1 :=
  ⟨((drain_classification ⟨5, ⟨0, 0⟩, true, 5⟩ { durablelsn := 5 } ⟨2, 3⟩).1 (by decide)).1,
    ((drain_classification ⟨5, ⟨0, 0⟩, true, 5⟩ { durablelsn := 5 } ⟨1, 5⟩).2.1 (by decide)).2.1,
    ((drain_classification ⟨5, ⟨0, 0⟩, true, 5⟩ { durablelsn := 5 } ⟨1, 5⟩).2.1
      (by decide)).2.2.1⟩

/-! ### C4: an RVP is in at most one queue -/

/-- C4. Take the queues to-flush, flushing and to-notify as the state and let the
steps be the generations of the flusher loop, the iterations of the notifier
loop and the two drains at stop, in any order. From a state whose queue
entries are pairwise distinct, every state reached has pairwise distinct
queue entries (no RVP is in two queues or twice in one). A generation that
completes keeps every RVP in the queues (it only moves it), an iteration of the
notifier removes exactly the head of to-notify, and, in a run in which no
assertion fails, an RVP that is no longer in the queues has had
`notify_client` called by the notifier or a drain at stop. -/
theorem queue_exclusivity (c : flusher_conf) (steps : List gc_step) (s : dora_flusher_t)
    (hs : s.queues.Nodup) :
    (run_steps c steps s).queues.Nodup ∧
    ((run_steps c steps s).aborted = false →
      ∃ E, (run_steps c steps s).trace = s.trace ++ E ∧
        ∀ r ∈ s.queues, r ∈ (run_steps c steps s).queues ∨ Event.notify_client r ∈ E) ∧
    (∀ i : gen_input, (dora_flusher_t.generation c i s).aborted = false →
      (dora_flusher_t.generation c i s).queues.Perm s.queues) ∧
    (∀ r q, s.tonotify = r :: q →
      (dora_notifier_t.iteration s).toflush = s.toflush ∧
      (dora_notifier_t.iteration s).flushing = s.flushing ∧
      (dora_notifier_t.iteration s).tonotify = q) := by
  refine ⟨?_, run_steps_accounts c steps s, fun i hok => ?_, fun r q h => ?_⟩
  · rw [List.nodup_iff_count_le_one] at hs ⊢
    exact fun a => le_trans (run_steps_count c steps s a) (hs a)
  · rw [List.perm_iff_count]
    exact fun a => (dora_flusher_t.generation_count c i s a).2 hok
  · simp [dora_notifier_t.iteration, h]

/-- C4 on a run of one generation followed by one iteration of the notifier. -/
theorem queue_exclusivity_witness :
    (dora_flusher_t.queues { toflush := [⟨1, 5⟩, ⟨2, 3⟩] }).Nodup ∧
    (run_steps ⟨100, 200000, 1000, fun a b => (a : Int) - b⟩
      [gc_step.flusher_generation ⟨5, ⟨0, 0⟩, true, 9⟩, gc_step.notifier_iteration]
      { toflush := [⟨1, 5⟩, ⟨2, 3⟩] }).queues.Nodup :=
  ⟨by decide,
    (queue_exclusivity ⟨100, 200000, 1000, fun a b => (a : Int) - b⟩
      [gc_step.flusher_generation ⟨5, ⟨0, 0⟩, true, 9⟩, gc_step.notifier_iteration]
      { toflush := [⟨1, 5⟩, ⟨2, 3⟩] } (by decide)).1⟩

/-! ### C5: the RVP is run by the last poster, once -/

/-- C5. When `_serve_action` serves a ready action, it calls `post` once, and it
calls `run()` on the RVP iff that `post` returned true; then `notify()` and
`giveback()` follow `run()`, once each, whatever `run()` returns. Hence, for an
RVP at address `p` with `received = 0` and `expected = N > 0`, serving a list
of ready actions of which exactly `N` belong to `p` calls `run()` on `p`
exactly once. -/
theorem rvp_join_exactness (b : worker_build) (a : base_action_t) (w : dora_worker_t)
    (hr : a.is_ready = true) :
    (∃ is_error : Bool,
      (dora_worker_t._serve_action b a w).1.trace =
        w.trace ++ [WEvent.serve_action a] ++
          (if (w.rvps a.rvp).isAborted then [] else exec_events b a) ++
          [WEvent.post a.rvp is_error] ++
          (if ((w.rvps a.rvp).post is_error).1
            then [WEvent.rvp_run a.rvp, WEvent.rvp_notify a.rvp, WEvent.rvp_giveback a.rvp]
            else [])) ∧
    (∀ (l : List base_action_t) (p N : Nat), (∀ x ∈ l, x.is_ready = true) →
      (w.rvps p).expected = N → (w.rvps p).received = 0 →
      (l.filter (fun x => decide (x.rvp = p))).length = N → 0 < N →
      ∃ E, (dora_worker_t.serve_all b l w).trace = w.trace ++ E ∧
        E.count (WEvent.rvp_run p) = 1) := by
  refine ⟨⟨(dora_worker_t.exec_action b a
    (dora_worker_t.emit [WEvent.serve_action a] w)).2.1, ?_⟩, ?_⟩
  · rw [(dora_worker_t.serve_action_ready b a w hr).1]
    simp [rvp_t.post, rvp_events]
  · intro l p N hl hN h0 hlen hpos
    obtain ⟨E, hE, hc⟩ := dora_worker_t.serve_all_run_count b p l w hl
    refine ⟨E, hE, ?_⟩
    rw [hc, h0, hN, hlen]
    simp [hpos]

/-- C5 on an RVP that expects two actions. -/
theorem rvp_join_exactness_witness :
    (⟨1, 0, true, true, w_rc_t.RCOK⟩ : base_action_t).is_ready = true ∧
    ∃ E, (dora_worker_t.serve_all ⟨false, false, 1, 2, 3, 4⟩
        [⟨1, 0, true, true, w_rc_t.RCOK⟩, ⟨1, 0, true, true, w_rc_t.RC 7⟩]
        { rvps := fun _ => ⟨2, 0, false, w_rc_t.RCOK⟩ }).trace = [] ++ E ∧
      E.count (WEvent.rvp_run 0) = 1 :=
  ⟨rfl, (rvp_join_exactness ⟨false, false, 1, 2, 3, 4⟩ ⟨1, 0, true, true, w_rc_t.RCOK⟩
    { rvps := fun _ => ⟨2, 0, false, w_rc_t.RCOK⟩ } rfl).2
    [⟨1, 0, true, true, w_rc_t.RCOK⟩, ⟨1, 0, true, true, w_rc_t.RC 7⟩] 0 2
    (by intro x hx; simp at hx; rcases hx with rfl | rfl <;> rfl) rfl rfl rfl (by decide)⟩

/-! ### C6: early abort -/

/-- C6. Serving a ready action advances the received count of its RVP by one,
whether the action is executed or not. When the RVP reports `isAborted()` on
entry to `_serve_action`, the calls made are `post(false)` followed by the
calls of the last poster only (`attach_xct`, `trx_exec` and `detach_xct` are
not called), the early-abort counter and the processed counter are
incremented by one and the problem counter is unchanged. -/
theorem early_abort_lifecycle (b : worker_build) (a : base_action_t) (w : dora_worker_t)
    (hr : a.is_ready = true) :
    ((dora_worker_t._serve_action b a w).1.rvps a.rvp).received =
      (w.rvps a.rvp).received + 1 ∧
    ((w.rvps a.rvp).isAborted = true →
      (dora_worker_t._serve_action b a w).1.trace =
        w.trace ++ [WEvent.serve_action a, WEvent.post a.rvp false] ++
          rvp_events (decide ((w.rvps a.rvp).received + 1 = (w.rvps a.rvp).expected)) a.rvp ∧
      (dora_worker_t._serve_action b a w).1.stats._early_aborts = w.stats._early_aborts + 1 ∧
      (dora_worker_t._serve_action b a w).1.stats._processed = w.stats._processed + 1 ∧
      (dora_worker_t._serve_action b a w).1.stats._problems = w.stats._problems) := by
  have hs := dora_worker_t.serve_action_ready b a w hr
  refine ⟨by rw [hs.2.1]; simp, fun hab => ?_⟩
  have hx := dora_worker_t.exec_action_early b a
    (dora_worker_t.emit [WEvent.serve_action a] w) hab
  refine ⟨?_, ?_, hs.2.2.2, ?_⟩
  · rw [hs.1, hx]; simp [hab]
  · rw [dora_worker_t.serve_action_stats b a w hr, hx]; rfl
  · rw [dora_worker_t.serve_action_stats b a w hr, hx]; rfl

/-- C6 on an action whose RVP is already aborted. -/
theorem early_abort_lifecycle_witness :
    (⟨1, 0, true, true, w_rc_t.RCOK⟩ : base_action_t).is_ready = true ∧
    (dora_worker_t._serve_action ⟨false, false, 1, 2, 3, 4⟩ ⟨1, 0, true, true, w_rc_t.RCOK⟩
      { rvps := fun _ => ⟨2, 0, true, w_rc_t.RCOK⟩ }).1.stats._early_aborts = 0 + 1 :=
  ⟨rfl, ((early_abort_lifecycle ⟨false, false, 1, 2, 3, 4⟩ ⟨1, 0, true, true, w_rc_t.RCOK⟩
    { rvps := fun _ => ⟨2, 0, true, w_rc_t.RCOK⟩ } rfl).2 rfl).2.1⟩

/-! ### C7: runtime errors of `trx_exec` -/

/-- C7. For a ready action whose RVP is not aborted: when `trx_exec` returns an
error that is not handled as a midway abort, the problem counter is incremented
by one and `post` is called once, with `is_error = true`; when `trx_exec`
returns `RCOK`, the problem counter is unchanged and `post` is called once,
with `is_error = false`. In both cases the processed counter is incremented by
one, the received count of the RVP advances by one, and the calls made are the
same except for the argument of `post`. -/
theorem runtime_error_propagation (b : worker_build) (a : base_action_t) (w : dora_worker_t)
    (hr : a.is_ready = true) (hab : (w.rvps a.rvp).isAborted = false) :
    (∀ n : Int, a.trx_exec = w_rc_t.RC n →
      ¬ (b.MIDWAY_ABORTS = true ∧ n = b.de_MIDWAY_ABORT) →
      (dora_worker_t._serve_action b a w).1.trace =
        w.trace ++ [WEvent.serve_action a] ++ exec_events b a ++ [WEvent.post a.rvp true] ++
          rvp_events (decide ((w.rvps a.rvp).received + 1 = (w.rvps a.rvp).expected)) a.rvp ∧
      (dora_worker_t._serve_action b a w).1.stats._problems = w.stats._problems + 1 ∧
      (dora_worker_t._serve_action b a w).1.stats._processed = w.stats._processed + 1 ∧
      ((dora_worker_t._serve_action b a w).1.rvps a.rvp).received =
        (w.rvps a.rvp).received + 1 ∧
      ((dora_worker_t._serve_action b a w).1.rvps a.rvp).aborted = true) ∧
    (a.trx_exec = w_rc_t.RCOK →
      (dora_worker_t._serve_action b a w).1.trace =
        w.trace ++ [WEvent.serve_action a] ++ exec_events b a ++ [WEvent.post a.rvp false] ++
          rvp_events (decide ((w.rvps a.rvp).received + 1 = (w.rvps a.rvp).expected)) a.rvp ∧
      (dora_worker_t._serve_action b a w).1.stats._problems = w.stats._problems ∧
      (dora_worker_t._serve_action b a w).1.stats._processed = w.stats._processed + 1 ∧
      ((dora_worker_t._serve_action b a w).1.rvps a.rvp).received =
        (w.rvps a.rvp).received + 1 ∧
      ((dora_worker_t._serve_action b a w).1.rvps a.rvp).aborted = false) := by
  have hs := dora_worker_t.serve_action_ready b a w hr
  have hab1 : (w.rvps a.rvp).aborted = false := hab
  refine ⟨fun n he hm => ?_, fun he => ?_⟩
  · have hx := dora_worker_t.exec_action_problem b a
      (dora_worker_t.emit [WEvent.serve_action a] w) n hab he hm
    refine ⟨?_, ?_, hs.2.2.2, ?_, ?_⟩
    · rw [hs.1, hx]; simp [hab]
    · rw [dora_worker_t.serve_action_stats b a w hr, hx]; rfl
    · rw [hs.2.1]; simp
    · rw [hs.2.1, hx]; simp
  · have hx := dora_worker_t.exec_action_ok b a
      (dora_worker_t.emit [WEvent.serve_action a] w) hab he
    refine ⟨?_, ?_, hs.2.2.2, ?_, ?_⟩
    · rw [hs.1, hx]; simp [hab]
    · rw [dora_worker_t.serve_action_stats b a w hr, hx]; rfl
    · rw [hs.2.1]; simp
    · rw [hs.2.1, hx]; simp [hab1]

/-- C7 on an action whose `trx_exec` returns the error 7. -/
theorem runtime_error_propagation_witness :
    (⟨1, 0, true, true, w_rc_t.RC 7⟩ : base_action_t).is_ready = true ∧
    (dora_worker_t._serve_action ⟨false, false, 1, 2, 3, 4⟩ ⟨1, 0, true, true, w_rc_t.RC 7⟩
      { rvps := fun _ => ⟨2, 0, false, w_rc_t.RCOK⟩ }).1.stats._problems = 0 + 1 :=
  ⟨rfl, ((runtime_error_propagation ⟨false, false, 1, 2, 3, 4⟩
    ⟨1, 0, true, true, w_rc_t.RC 7⟩ { rvps := fun _ => ⟨2, 0, false, w_rc_t.RCOK⟩ } rfl rfl).1
    7 rfl (by decide)).2.1⟩

/-! ### C8: order of a worker generation -/

/-- C8. In a generation of `dora_worker_t::_work_ACTIVE_impl` in which every action
served is ready, the calls made are `E1`, then `dequeue()`, then `E2`, where:
the scheduling calls of `E1` are, for each committed action in turn,
`dequeue_commit`, `trx_rel_locks`, `giveback` and then `_serve_action` for
every action of its ready list in list order, all before the next committed
action; `E1` contains no `dequeue()`; and the scheduling calls of `E2` are
`trx_acq_locks` on the dequeued action followed by `_serve_action` on it iff
`trx_acq_locks` returned true. So every action made ready by a lock release is
served before the input action is dequeued. -/
theorem worker_generation_order (b : worker_build) (i : worker_gen_input) (w : dora_worker_t)
    (hw : w.aborted = false)
    (hready : ∀ c ∈ i.commits, ∀ a ∈ c.actionReadyList, a.is_ready = true)
    (hin : ∀ a, i.input = some a → a.trx_acq_locks = true → a.is_ready = true) :
    ∃ E1 E2, (dora_worker_t.generation b i w).trace =
        w.trace ++ E1 ++ [WEvent.dequeue i.input] ++ E2 ∧
      E1.filter WEvent.is_sched = i.commits.flatMap commit_schedule ∧
      (∀ x, WEvent.dequeue x ∉ E1) ∧
      E2.filter WEvent.is_sched = input_schedule i.input ∧
      (∀ c ∈ i.commits, ∀ a ∈ c.actionReadyList, WEvent.serve_action a ∈ E1) := by
  obtain ⟨E1, hE1, hf1, ha1⟩ := dora_worker_t.release_committed_sched b i.commits w hready hw
  obtain ⟨E2, hE2, hf2, _⟩ := dora_worker_t.serve_input_sched b i.input
    (dora_worker_t.release_committed b i.commits w) hin
  refine ⟨E1, E2, ?_, hf1, fun x hx => ?_, hf2, fun c hc a ha => ?_⟩
  · simp only [dora_worker_t.generation, ha1, Bool.false_eq_true, if_false]
    rw [hE2, hE1]
  · have h : WEvent.dequeue x ∈ E1.filter WEvent.is_sched :=
      List.mem_filter.mpr ⟨hx, rfl⟩
    rw [hf1] at h
    simp [commit_schedule] at h
  · have h : WEvent.serve_action a ∈ i.commits.flatMap commit_schedule :=
      List.mem_flatMap.mpr ⟨c, hc, by simp [commit_schedule, ha]⟩
    rw [← hf1] at h
    exact (List.mem_filter.mp h).1

/-- C8 on a generation with one committed action, whose release makes one action
ready, and one input action that gets its locks. -/
theorem worker_generation_order_witness :
    ({ rvps := fun _ => ⟨2, 0, false, w_rc_t.RCOK⟩ } : dora_worker_t).aborted = false ∧
    ∃ E1 E2, (dora_worker_t.generation ⟨false, false, 1, 2, 3, 4⟩
        ⟨[⟨⟨1, 0, true, true, w_rc_t.RCOK⟩, [⟨2, 1, true, true, w_rc_t.RCOK⟩], []⟩],
          some ⟨3, 2, true, true, w_rc_t.RCOK⟩⟩
        { rvps := fun _ => ⟨2, 0, false, w_rc_t.RCOK⟩ }).trace =
        [] ++ E1 ++ [WEvent.dequeue (some ⟨3, 2, true, true, w_rc_t.RCOK⟩)] ++ E2 ∧
      E1.filter WEvent.is_sched =
        [WEvent.dequeue_commit ⟨1, 0, true, true, w_rc_t.RCOK⟩,
          WEvent.trx_rel_locks ⟨1, 0, true, true, w_rc_t.RCOK⟩,
          WEvent.giveback ⟨1, 0, true, true, w_rc_t.RCOK⟩,
          WEvent.serve_action ⟨2, 1, true, true, w_rc_t.RCOK⟩] := by
  refine ⟨rfl, ?_⟩
  obtain ⟨E1, E2, h1, h2, _⟩ := worker_generation_order ⟨false, false, 1, 2, 3, 4⟩
    ⟨[⟨⟨1, 0, true, true, w_rc_t.RCOK⟩, [⟨2, 1, true, true, w_rc_t.RCOK⟩], []⟩],
      some ⟨3, 2, true, true, w_rc_t.RCOK⟩⟩
    { rvps := fun _ => ⟨2, 0, false, w_rc_t.RCOK⟩ } rfl
    (by
      intro c hc a ha
      simp only [List.mem_singleton] at hc
      subst hc
      simp only [List.mem_singleton] at ha
      subst ha
      rfl)
    (by
      intro a ha _
      simp only [Option.some.injEq] at ha
      subst ha
      rfl)
  exact ⟨E1, E2, h1, h2⟩

/-! ### C9: `calc_keys` called twice -/

/-- C9 as stated fails: on a fresh `r_wh` action with warehouse 1, one call of
`calc_keys` gives the down keys `[1]` and two calls give `[1, 1]`. -/
theorem calc_keys_idempotent_counterexample :
    (calc_keys nord_kind.r_wh { _in := ⟨1, 2, 3, 4⟩ })._down = [1] ∧
    (calc_keys nord_kind.r_wh (calc_keys nord_kind.r_wh { _in := ⟨1, 2, 3, 4⟩ }))._down = [1, 1] ∧
    (calc_keys nord_kind.r_wh (calc_keys nord_kind.r_wh { _in := ⟨1, 2, 3, 4⟩ }))._up ≠
      (calc_keys nord_kind.r_wh { _in := ⟨1, 2, 3, 4⟩ })._up := by
  decide

/-- C9, amended. For every kind of NewOrder action, `calc_keys` appends to the
down and up key vectors keys that depend only on the kind and the input: two
actions of one kind with the same input and empty key vectors get the same
vectors. The input is left unchanged, so a second call on the same action
appends the same keys once more: after two calls on a fresh action each
vector is the vector after one call, twice. -/
theorem calc_keys_deterministic (k : nord_kind) (a a1 : nord_action) :
    (calc_keys k a)._in = a._in ∧
    (calc_keys k a)._down = a._down ++ (calc_keys k { _in := a._in })._down ∧
    (calc_keys k a)._up = a._up ++ (calc_keys k { _in := a._in })._up ∧
    (calc_keys k (calc_keys k { _in := a._in }))._down =
      (calc_keys k { _in := a._in })._down ++ (calc_keys k { _in := a._in })._down ∧
    (calc_keys k (calc_keys k { _in := a._in }))._up =
      (calc_keys k { _in := a._in })._up ++ (calc_keys k { _in := a._in })._up ∧
    (a1._in = a._in → a1._down = [] → a1._up = [] → a._down = [] → a._up = [] →
      (calc_keys k a1)._down = (calc_keys k a)._down ∧
      (calc_keys k a1)._up = (calc_keys k a)._up) := by
  refine ⟨?_, ?_, ?_, ?_, ?_, ?_⟩
  · cases k <;> rfl
  · cases k <;>
      simp [calc_keys, r_wh_nord_action.calc_keys, r_cust_nord_action.calc_keys,
        upd_dist_nord_action.calc_keys, r_item_nord_action.calc_keys,
        upd_sto_nord_action.calc_keys, ins_ord_nord_action.calc_keys,
        ins_nord_nord_action.calc_keys, ins_ol_nord_action.calc_keys,
        nord_action.set_read_only]
  · cases k <;>
      simp [calc_keys, r_wh_nord_action.calc_keys, r_cust_nord_action.calc_keys,
        upd_dist_nord_action.calc_keys, r_item_nord_action.calc_keys,
        upd_sto_nord_action.calc_keys, ins_ord_nord_action.calc_keys,
        ins_nord_nord_action.calc_keys, ins_ol_nord_action.calc_keys,
        nord_action.set_read_only]
  · cases k <;>
      simp [calc_keys, r_wh_nord_action.calc_keys, r_cust_nord_action.calc_keys,
        upd_dist_nord_action.calc_keys, r_item_nord_action.calc_keys,
        upd_sto_nord_action.calc_keys, ins_ord_nord_action.calc_keys,
        ins_nord_nord_action.calc_keys, ins_ol_nord_action.calc_keys,
        nord_action.set_read_only]
  · cases k <;>
      simp [calc_keys, r_wh_nord_action.calc_keys, r_cust_nord_action.calc_keys,
        upd_dist_nord_action.calc_keys, r_item_nord_action.calc_keys,
        upd_sto_nord_action.calc_keys, ins_ord_nord_action.calc_keys,
        ins_nord_nord_action.calc_keys, ins_ol_nord_action.calc_keys,
        nord_action.set_read_only]
  · intro h1 h2 h3 h4 h5
    cases k <;>
      simp [calc_keys, r_wh_nord_action.calc_keys, r_cust_nord_action.calc_keys,
        upd_dist_nord_action.calc_keys, r_item_nord_action.calc_keys,
        upd_sto_nord_action.calc_keys, ins_ord_nord_action.calc_keys,
        ins_nord_nord_action.calc_keys, ins_ol_nord_action.calc_keys,
        nord_action.set_read_only, h1, h2, h3, h4, h5]

/-- The amended C9 on two fresh `upd_dist` actions with the same input. -/
theorem calc_keys_deterministic_witness :
    (calc_keys nord_kind.upd_dist { _in := ⟨1, 2, 3, 4⟩, _read_only := true })._down =
      (calc_keys nord_kind.upd_dist { _in := ⟨1, 2, 3, 4⟩ })._down :=
  ((calc_keys_deterministic nord_kind.upd_dist { _in := ⟨1, 2, 3, 4⟩ }
    { _in := ⟨1, 2, 3, 4⟩, _read_only := true }).2.2.2.2.2 rfl rfl rfl rfl rfl).1

/-! ### C10: the drains at stop -/

/-- C10. `dora_flusher_t::_pre_STOP_impl` leaves flushing and to-flush empty and,
after stopping the notifier, calls `notify_client` and then `giveback` for each
of their entries, flushing first; `dora_notifier_t::_pre_STOP_impl` leaves
to-notify empty and calls `upd_committed_stats`, `notify_client`, `giveback`
for each of its entries. In both, the number of `notify_client r` calls is the
number of times `r` was in the drained queues (once, for distinct entries), so
after the two drains the three queues are empty and every pending RVP has been
notified. -/
theorem shutdown_drain (s : dora_flusher_t) (r : terminal_rvp_t) :
    (dora_flusher_t._pre_STOP_impl s).flushing = [] ∧
    (dora_flusher_t._pre_STOP_impl s).toflush = [] ∧
    (dora_flusher_t._pre_STOP_impl s).tonotify = s.tonotify ∧
    (dora_flusher_t._pre_STOP_impl s).trace =
      s.trace ++ [Event.notifier_stop, Event.notifier_join] ++
        (s.flushing ++ s.toflush).flatMap (fun x => [Event.notify_client x, Event.giveback x]) ∧
    (dora_flusher_t._pre_STOP_impl s).trace.count (Event.notify_client r) =
      s.trace.count (Event.notify_client r) + (s.flushing ++ s.toflush).count r ∧
    (dora_notifier_t._pre_STOP_impl s).tonotify = [] ∧
    (dora_notifier_t._pre_STOP_impl s).toflush = s.toflush ∧
    (dora_notifier_t._pre_STOP_impl s).flushing = s.flushing ∧
    (dora_notifier_t._pre_STOP_impl s).trace =
      s.trace ++ s.tonotify.flatMap (fun x =>
        [Event.upd_committed_stats x, Event.notify_client x, Event.giveback x]) ∧
    (dora_notifier_t._pre_STOP_impl s).trace.count (Event.notify_client r) =
      s.trace.count (Event.notify_client r) + s.tonotify.count r ∧
    (dora_flusher_t._pre_STOP_impl (dora_notifier_t._pre_STOP_impl s)).queues = [] ∧
    (dora_flusher_t._pre_STOP_impl (dora_notifier_t._pre_STOP_impl s)).trace.count
        (Event.notify_client r) =
      s.trace.count (Event.notify_client r) + s.queues.count r := by
  have hf : ∀ t : dora_flusher_t, (dora_flusher_t._pre_STOP_impl t).trace =
      t.trace ++ [Event.notifier_stop, Event.notifier_join] ++
        (t.flushing ++ t.toflush).flatMap
          (fun x => [Event.notify_client x, Event.giveback x]) := by
    intro t
    simp [dora_flusher_t._pre_STOP_impl, dora_flusher_t.stop_loop_trace]
  have hn : (dora_notifier_t._pre_STOP_impl s).trace =
      s.trace ++ s.tonotify.flatMap (fun x =>
        [Event.upd_committed_stats x, Event.notify_client x, Event.giveback x]) := by
    simp [dora_notifier_t._pre_STOP_impl, notifier_stop_loop_trace]
  have hfc : ∀ t : dora_flusher_t,
      (dora_flusher_t._pre_STOP_impl t).trace.count (Event.notify_client r) =
        t.trace.count (Event.notify_client r) + (t.flushing ++ t.toflush).count r := by
    intro t
    rw [hf t, List.count_append, List.count_append, count_notify_flusher_stop]
    simp [List.count_cons]
  have hnc : (dora_notifier_t._pre_STOP_impl s).trace.count (Event.notify_client r) =
      s.trace.count (Event.notify_client r) + s.tonotify.count r := by
    rw [hn, List.count_append, count_notify_notifier_stop]
  refine ⟨rfl, rfl, rfl, hf s, hfc s, rfl, rfl, rfl, hn, hnc, ?_, ?_⟩
  · simp [dora_flusher_t._pre_STOP_impl, dora_notifier_t._pre_STOP_impl, dora_flusher_t.queues]
  · rw [hfc, hnc]
    simp only [dora_notifier_t._pre_STOP_impl, dora_flusher_t.queues, List.count_append]
    omega

/-! ### C11: lookup of the partition of a key -/

/-- C11. For a map whose start keys are in the order of the map (descending) and
that has a partition starting at or below `_minKey`, `getPartitionByKey(key)`
returns `RCOK` for every `key ≥ _minKey` and sets `pid` to the partition of the
entry with the greatest start key `≤ key`; and whenever it returns
`mrb_PARTITION_NOT_FOUND`, every start key of the map is above `key`. -/
theorem key_range_lookup {K : Type} [LinearOrder K] (mrb_PARTITION_NOT_FOUND : Int)
    (m : key_ranges_map K) (key : K) (pid : lpid_t)
    (hord : krm_ordered m._keyRangesMap) :
    ((∃ e ∈ m._keyRangesMap, e.1 ≤ m._minKey) → m._minKey ≤ key →
      ∃ e ∈ m._keyRangesMap,
        (key_ranges_map.getPartitionByKey mrb_PARTITION_NOT_FOUND m key pid).1 = w_rc_t.RCOK ∧
        (key_ranges_map.getPartitionByKey mrb_PARTITION_NOT_FOUND m key pid).2.1 = e.2 ∧
        e.1 ≤ key ∧ ∀ e1 ∈ m._keyRangesMap, e1.1 ≤ key → e1.1 ≤ e.1) ∧
    ((key_ranges_map.getPartitionByKey mrb_PARTITION_NOT_FOUND m key pid).1 =
        w_rc_t.RC mrb_PARTITION_NOT_FOUND →
      ∀ e ∈ m._keyRangesMap, key < e.1) := by
  have hs := lower_bound_greater_spec m._keyRangesMap hord key
  unfold key_ranges_map.getPartitionByKey
  dsimp only
  cases hg : m._keyRangesMap.get? (lower_bound cmp_str_greater m._keyRangesMap key) with
  | none =>
    rw [hg] at hs
    refine ⟨fun ⟨e, he, hle⟩ hk => ?_, fun _ => hs⟩
    exact absurd (hs e he) (not_lt.mpr (le_trans hle hk))
  | some e =>
    rw [hg] at hs
    refine ⟨fun _ _ => ⟨e, hs.1, rfl, rfl, hs.2.1, hs.2.2⟩, fun h => ?_⟩
    simp at h

/-- C11 on the map `{20 → 2, 10 → 1}` and the key 15. -/
theorem key_range_lookup_witness :
    krm_ordered ([(20, 2), (10, 1)] : List (Nat × lpid_t)) ∧
    (key_ranges_map.getPartitionByKey 7
      (⟨[(20, 2), (10, 1)], 2, 10, 30, {}⟩ : key_ranges_map Nat) 15 0).1 = w_rc_t.RCOK ∧
    (key_ranges_map.getPartitionByKey 7
      (⟨[(20, 2), (10, 1)], 2, 10, 30, {}⟩ : key_ranges_map Nat) 15 0).2.1 = 1 := by
  have hord : krm_ordered ([(20, 2), (10, 1)] : List (Nat × lpid_t)) := by
    simp [krm_ordered]
  obtain ⟨e, _, h1, _, _⟩ := (key_range_lookup 7
    (⟨[(20, 2), (10, 1)], 2, 10, 30, {}⟩ : key_ranges_map Nat) 15 0 hord).1
    ⟨(10, 1), by simp, le_refl _⟩ (by decide)
  exact ⟨hord, h1, by decide⟩

/-! ### C12: `addPartition` -/

/-- C12 fails on the code: on the map `{10 → 1}`, `addPartition(60, root)` returns
`RCOK` and increments the partition count, but the map has no entry for the key
60 afterwards, has still one entry, and `getPartitionByKey(60)` yields the old
partition 1. -/
theorem addPartition_does_not_split :
    (key_ranges_map.addPartition 7 (⟨[(10, 1)], 1, 10, 100, {}⟩ : key_ranges_map Nat) 60 9).1 =
      w_rc_t.RCOK ∧
    (key_ranges_map.addPartition 7 (⟨[(10, 1)], 1, 10, 100, {}⟩ : key_ranges_map Nat)
      60 9).2.2._numPartitions = 2 ∧
    (key_ranges_map.addPartition 7 (⟨[(10, 1)], 1, 10, 100, {}⟩ : key_ranges_map Nat)
      60 9).2.2._keyRangesMap = [(10, 1)] ∧
    (key_ranges_map.getPartitionByKey 7
      (key_ranges_map.addPartition 7 (⟨[(10, 1)], 1, 10, 100, {}⟩ : key_ranges_map Nat)
        60 9).2.2 60 0).2.1 = 1 := by
  decide

/-! ### C13: `deletePartitionByKey` and `deletePartition` -/

/-- C13 fails on the code for the last partition in map order: on the map
`{20 → 2, 10 → 1}`, `deletePartitionByKey(10)` and `deletePartition(1)` read
`iter->second` at `end()`; so does the deletion of the only partition of the
map `{10 → 1}`. Deleting the partition 2 removes its entry and decrements the
count. -/
theorem deletePartition_reads_past_end :
    key_ranges_map.deletePartitionByKey 7
      (⟨[(20, 2), (10, 1)], 2, 10, 100, {}⟩ : key_ranges_map Nat) 10 = none ∧
    key_ranges_map.deletePartition 7
      (⟨[(20, 2), (10, 1)], 2, 10, 100, {}⟩ : key_ranges_map Nat) 1 = none ∧
    key_ranges_map.deletePartitionByKey 7
      (⟨[(10, 1)], 1, 10, 100, {}⟩ : key_ranges_map Nat) 10 = none ∧
    (key_ranges_map.deletePartition 7
      (⟨[(20, 2), (10, 1)], 2, 10, 100, {}⟩ : key_ranges_map Nat) 2).map
        (fun x => (x.1, x.2._keyRangesMap, x.2._numPartitions)) =
      some (w_rc_t.RCOK, [(10, 1)], 1) := by
  decide

/-! ### C17: `getPartitions` -/

/-- C17 fails on the code: on the map `{20 → 2, 10 → 1}` the call
`getPartitions(15, true, 25, true)` starts at the entry of the key 15 and
increments the iterator away from the entry of the key 25 until it reads
`end()`; and within the partition 1 the empty ranges `(15, 15]` and `[15, 15)`
yield the partition 1. -/
theorem getPartitions_diverges :
    key_ranges_map.getPartitions 7
      (⟨[(20, 2), (10, 1)], 2, 10, 100, {}⟩ : key_ranges_map Nat) 15 true 25 true [] = none ∧
    (key_ranges_map.getPartitions 7
      (⟨[(20, 2), (10, 1)], 2, 10, 100, {}⟩ : key_ranges_map Nat) 15 false 15 true []).map
        (fun x => (x.1, x.2.1)) = some (w_rc_t.RCOK, [1]) ∧
    (key_ranges_map.getPartitions 7
      (⟨[(20, 2), (10, 1)], 2, 10, 100, {}⟩ : key_ranges_map Nat) 15 true 15 false []).map
        (fun x => (x.1, x.2.1)) = some (w_rc_t.RCOK, [1]) := by
  decide

/-! ### C14: a failing enqueue in `mid_nord_rvp::run` -/

/-- C14 as stated fails in a build with assertions: when the enqueue of the
insert-order action fails, `assert (0)` stops the program and `run()` does not
return `de_PROBLEM_ENQUEUE`. -/
theorem enqueue_failure_counterexample :
    (mid_nord_rvp.run false (fun _ => 1) 9 ⟨⟨1, 2, 3, 4⟩, true⟩).2 = run_result.aborted ∧
    (mid_nord_rvp.run false (fun _ => 1) 9 ⟨⟨1, 2, 3, 4⟩, true⟩).2 ≠
      run_result.returned (w_rc_t.RC de_PROBLEM_ENQUEUE) := by
  decide

/-- C14, amended. If the enqueue of one of the three next-phase actions fails,
`run()` does not proceed: the actions enqueued are those up to the failing
one, in the order insert-order, insert-new-order, insert-order-line, and no
later one. There `assert (0)` stops the program; in a build without assertions
`run()` returns the error `de_PROBLEM_ENQUEUE`. -/
theorem enqueue_failure_stops_dispatch (NDEBUG : Bool) (enq : nord_table → Int)
    (new_rvp : Nat) (r : mid_nord_rvp) :
    (enq nord_table.ord ≠ 0 →
      enqueued_actions (mid_nord_rvp.run NDEBUG enq new_rvp r).1 = [nord_kind.ins_ord]) ∧
    (enq nord_table.ord = 0 → enq nord_table.nor ≠ 0 →
      enqueued_actions (mid_nord_rvp.run NDEBUG enq new_rvp r).1 =
        [nord_kind.ins_ord, nord_kind.ins_nord]) ∧
    (enq nord_table.ord = 0 → enq nord_table.nor = 0 → enq nord_table.oli ≠ 0 →
      enqueued_actions (mid_nord_rvp.run NDEBUG enq new_rvp r).1 =
        [nord_kind.ins_ord, nord_kind.ins_nord, nord_kind.ins_ol]) ∧
    ((enq nord_table.ord ≠ 0 ∨ enq nord_table.nor ≠ 0 ∨ enq nord_table.oli ≠ 0) →
      (mid_nord_rvp.run NDEBUG enq new_rvp r).2 =
        if NDEBUG then run_result.returned (w_rc_t.RC de_PROBLEM_ENQUEUE)
        else run_result.aborted) := by
  refine ⟨fun h1 => ?_, fun h1 h2 => ?_, fun h1 h2 h3 => ?_, fun h => ?_⟩
  · cases NDEBUG <;> simp [mid_nord_rvp.run, h1, enqueued_actions]
  · cases NDEBUG <;> simp [mid_nord_rvp.run, h1, h2, enqueued_actions]
  · cases NDEBUG <;> simp [mid_nord_rvp.run, h1, h2, h3, enqueued_actions]
  · by_cases h1 : enq nord_table.ord = 0
    · by_cases h2 : enq nord_table.nor = 0
      · have h3 : enq nord_table.oli ≠ 0 := by tauto
        cases NDEBUG <;> simp [mid_nord_rvp.run, h1, h2, h3]
      · cases NDEBUG <;> simp [mid_nord_rvp.run, h1, h2]
    · cases NDEBUG <;> simp [mid_nord_rvp.run, h1]

/-- The amended C14 when the enqueue of the insert-new-order action fails in a
build without assertions. -/
theorem enqueue_failure_stops_dispatch_witness :
    enqueued_actions (mid_nord_rvp.run true
        (fun t => if t = nord_table.nor then 1 else 0) 9 ⟨⟨1, 2, 3, 4⟩, true⟩).1 =
      [nord_kind.ins_ord, nord_kind.ins_nord] ∧
    (mid_nord_rvp.run true (fun t => if t = nord_table.nor then 1 else 0) 9
        ⟨⟨1, 2, 3, 4⟩, true⟩).2 = run_result.returned (w_rc_t.RC de_PROBLEM_ENQUEUE) :=
  ⟨(enqueue_failure_stops_dispatch true (fun t => if t = nord_table.nor then 1 else 0) 9
      ⟨⟨1, 2, 3, 4⟩, true⟩).2.1 (by decide) (by decide),
    (enqueue_failure_stops_dispatch true (fun t => if t = nord_table.nor then 1 else 0) 9
      ⟨⟨1, 2, 3, 4⟩, true⟩).2.2.2 (Or.inr (Or.inl (by decide)))⟩

/-! ### C15: a flush triggered by the count -/

/-- C15 as stated fails when the flusher is told to stop: with `group-size` 1 and
one transaction that is not yet durable, the drain leaves `waiting = 1`, the
count trigger is counted, and line 203 returns: no `sync_log` is issued, the
RVP stays in the flushing queue and `waiting` is not reset. -/
theorem count_triggered_flush_counterexample :
    (dora_flusher_t.drain_toflush (dora_flusher_t.begin_generation ⟨5, ⟨0, 0⟩, false, 9⟩
      { toflush := [⟨1, 5⟩] })).waiting ≥ 1 ∧
    (dora_flusher_t.generation ⟨1, 200000, 1000, fun a b => (a : Int) - b⟩
      ⟨5, ⟨0, 0⟩, false, 9⟩ { toflush := [⟨1, 5⟩] }).stats.trigByXcts = 1 ∧
    Event.sync_log ∉ (dora_flusher_t.generation ⟨1, 200000, 1000, fun a b => (a : Int) - b⟩
      ⟨5, ⟨0, 0⟩, false, 9⟩ { toflush := [⟨1, 5⟩] }).trace ∧
    (dora_flusher_t.generation ⟨1, 200000, 1000, fun a b => (a : Int) - b⟩
      ⟨5, ⟨0, 0⟩, false, 9⟩ { toflush := [⟨1, 5⟩] }).flushing = [⟨1, 5⟩] ∧
    (dora_flusher_t.generation ⟨1, 200000, 1000, fun a b => (a : Int) - b⟩
      ⟨5, ⟨0, 0⟩, false, 9⟩ { toflush := [⟨1, 5⟩] }).waiting = 1 := by
  decide

/-- C15, amended. In a generation whose drain leaves `waiting ≥ group-size`, in
which the flusher is still active at the check of line 203 and the durable LSN
read after the flush is above the last LSN of every entry of the flushing
queue: the count trigger is counted and neither the size nor the timeout
trigger, the blocking `sync_log` is issued after the drain and followed by the
re-read of the durable LSN, then every entry of flushing is handed to the
notifier in queue order, the flushing queue is empty, and `waiting` and
`logWaiting` are 0. -/
theorem count_triggered_flush (c : flusher_conf) (i : gen_input) (s : dora_flusher_t)
    (hW : (dora_flusher_t.drain_toflush (dora_flusher_t.begin_generation i s)).waiting ≥
      c.maxGroupSize)
    (hact : i.active = true)
    (hdur : ∀ r ∈ (dora_flusher_t.drain_toflush (dora_flusher_t.begin_generation i s)).flushing,
      r.my_last_lsn < i.durable2) :
    (dora_flusher_t.generation c i s).stats.trigByXcts = s.stats.trigByXcts + 1 ∧
    (dora_flusher_t.generation c i s).stats.trigBySize = s.stats.trigBySize ∧
    (dora_flusher_t.generation c i s).stats.trigByTimeout = s.stats.trigByTimeout ∧
    (dora_flusher_t.generation c i s).trace =
      (dora_flusher_t.drain_toflush (dora_flusher_t.begin_generation i s)).trace ++
        [Event.sync_log, Event.get_durable_lsn i.durable2] ++
        (dora_flusher_t.drain_toflush (dora_flusher_t.begin_generation i s)).flushing.map
          Event.enqueue_tonotify ∧
    (dora_flusher_t.generation c i s).tonotify =
      (dora_flusher_t.drain_toflush (dora_flusher_t.begin_generation i s)).tonotify ++
        (dora_flusher_t.drain_toflush (dora_flusher_t.begin_generation i s)).flushing ∧
    (dora_flusher_t.generation c i s).flushing = [] ∧
    (dora_flusher_t.generation c i s).waiting = 0 ∧
    (dora_flusher_t.generation c i s).logWaiting = 0 := by
  have hf := dora_flusher_t.drain_loop_frame (dora_flusher_t.begin_generation i s).toflush
    (dora_flusher_t.begin_generation i s)
  have e4 : (dora_flusher_t.drain_toflush (dora_flusher_t.begin_generation i s)).stats.trigByXcts =
      s.stats.trigByXcts := hf.2.2.2.2.1
  have e5 : (dora_flusher_t.drain_toflush (dora_flusher_t.begin_generation i s)).stats.trigBySize =
      s.stats.trigBySize := hf.2.2.2.2.2.1
  have e6 : (dora_flusher_t.drain_toflush
      (dora_flusher_t.begin_generation i s)).stats.trigByTimeout = s.stats.trigByTimeout :=
    hf.2.2.2.2.2.2
  rw [dora_flusher_t.generation_count_trigger c i s hW hact]
  generalize dora_flusher_t.drain_toflush (dora_flusher_t.begin_generation i s) = d at *
  have hd := dora_flusher_t.forward_loop_durable d.flushing
    (dora_flusher_t.reread_durable i (dora_flusher_t.flush
      { d with
        bShouldFlush := true
        stats := { d.stats with trigByXcts := d.stats.trigByXcts + 1 } }))
    (by simpa [dora_flusher_t.reread_durable, dora_flusher_t.flush] using hdur)
  have hfr := dora_flusher_t.forward_loop_frame d.flushing
    (dora_flusher_t.reread_durable i (dora_flusher_t.flush
      { d with
        bShouldFlush := true
        stats := { d.stats with trigByXcts := d.stats.trigByXcts + 1 } }))
  have hfl : (dora_flusher_t.reread_durable i (dora_flusher_t.flush
      { d with
        bShouldFlush := true
        stats := { d.stats with trigByXcts := d.stats.trigByXcts + 1 } })).flushing =
      d.flushing := by
    simp [dora_flusher_t.reread_durable, dora_flusher_t.flush]
  unfold dora_flusher_t.forward_flushing
  rw [hfl]
  refine ⟨?_, ?_, ?_, ?_, ?_, ?_, ?_, ?_⟩
  · rw [hfr.2.1]; simp [dora_flusher_t.reread_durable, dora_flusher_t.flush, e4]
  · rw [hfr.2.1]; simp [dora_flusher_t.reread_durable, dora_flusher_t.flush, e5]
  · rw [hfr.2.1]; simp [dora_flusher_t.reread_durable, dora_flusher_t.flush, e6]
  · rw [hd.2.1]; simp [dora_flusher_t.reread_durable, dora_flusher_t.flush]
  · rw [hd.1]; simp [dora_flusher_t.reread_durable, dora_flusher_t.flush]
  · by_cases hq : d.flushing = []
    · exact hd.2.2.2.2 (Or.inr (hfl.trans hq))
    · exact hd.2.2.2.2 (Or.inl hq)
  · rw [hfr.2.2.1]; simp [dora_flusher_t.reread_durable, dora_flusher_t.flush]
  · rw [hd.2.2.2.1]; simp [dora_flusher_t.reread_durable, dora_flusher_t.flush]

/-- The amended C15 with `group-size` 2 and three transactions that are not yet
durable when the generation starts. -/
theorem count_triggered_flush_witness :
    (dora_flusher_t.drain_toflush (dora_flusher_t.begin_generation ⟨5, ⟨0, 0⟩, true, 9⟩
      { toflush := [⟨1, 5⟩, ⟨2, 6⟩, ⟨3, 7⟩] })).waiting ≥ 2 ∧
    (dora_flusher_t.generation ⟨2, 200000, 1000, fun a b => (a : Int) - b⟩
      ⟨5, ⟨0, 0⟩, true, 9⟩ { toflush := [⟨1, 5⟩, ⟨2, 6⟩, ⟨3, 7⟩] }).flushing = [] ∧
    (dora_flusher_t.generation ⟨2, 200000, 1000, fun a b => (a : Int) - b⟩
      ⟨5, ⟨0, 0⟩, true, 9⟩ { toflush := [⟨1, 5⟩, ⟨2, 6⟩, ⟨3, 7⟩] }).waiting = 0 :=
  ⟨by decide,
    (count_triggered_flush ⟨2, 200000, 1000, fun a b => (a : Int) - b⟩
      ⟨5, ⟨0, 0⟩, true, 9⟩ { toflush := [⟨1, 5⟩, ⟨2, 6⟩, ⟨3, 7⟩] } (by decide) rfl
      (by decide)).2.2.2.2.2.1,
    (count_triggered_flush ⟨2, 200000, 1000, fun a b => (a : Int) - b⟩
      ⟨5, ⟨0, 0⟩, true, 9⟩ { toflush := [⟨1, 5⟩, ⟨2, 6⟩, ⟨3, 7⟩] } (by decide) rfl
      (by decide)).2.2.2.2.2.2.1⟩

/-! ### C16: what the timeout trigger measures -/

/-- C16 fails on the code. With `flusher-group-size` 1 and the default timeout of
1000 microseconds, the loop starts at time 0 and sets the deadline to 1 ms. The
first generation, at 0.9 ms, flushes by the count trigger and leaves the
deadline where it is; the second generation, at 1.000001 ms, which is
0.100001 ms after that flush, flushes by the timeout trigger. -/
theorem timeout_not_since_last_flush :
    (dora_flusher_t._work_ACTIVE_impl
      (fun n => if n = "flusher-group-size" then some 1 else none)
      (fun a b => (a : Int) - b) ⟨0, 0⟩
      [⟨5, ⟨0, 900000⟩, true, 9⟩] { toflush := [⟨1, 5⟩] }).stats =
      { served := 1, trigByXcts := 1, flushes := 1, waiting := 1 } ∧
    (dora_flusher_t._work_ACTIVE_impl
      (fun n => if n = "flusher-group-size" then some 1 else none)
      (fun a b => (a : Int) - b) ⟨0, 0⟩
      [⟨5, ⟨0, 900000⟩, true, 9⟩] { toflush := [⟨1, 5⟩] }).ts = ⟨0, 1000000⟩ ∧
    (dora_flusher_t._work_ACTIVE_impl
      (fun n => if n = "flusher-group-size" then some 1 else none)
      (fun a b => (a : Int) - b) ⟨0, 0⟩
      [⟨5, ⟨0, 900000⟩, true, 9⟩, ⟨9, ⟨0, 1000001⟩, true, 9⟩] { toflush := [⟨1, 5⟩] }).stats =
      { served := 1, trigByXcts := 1, trigByTimeout := 1, flushes := 2, waiting := 1 } := by
  decide

/-! ### C18: `part_table_t::enqueue` on a wrong partition number -/

/-- C18 fails on the code. On a table with the two partitions 10 and 20 (added by
`_add_one_part`), `enqueue` delegates for the numbers 0 and 1 and the assertion
`part < _pcnt` fails for the number 2, but for the number -1 the assertion
holds and `_ppvec[-1]` is indexed outside of the vector. -/
theorem enqueue_negative_partition :
    ((part_table_t._add_one_part 20
      (part_table_t._add_one_part 10 (part_table_t.init 0 1 : part_table_t Nat)).1).1._pcnt = 2) ∧
    part_table_t.enqueue (fun (p a : Nat) => ((p + a : Nat) : Int))
      (part_table_t._add_one_part 20
        (part_table_t._add_one_part 10 (part_table_t.init 0 1 : part_table_t Nat)).1).1
      (5 : Nat) 1 = call_result.returned 25 ∧
    part_table_t.enqueue (fun (p a : Nat) => ((p + a : Nat) : Int))
      (part_table_t._add_one_part 20
        (part_table_t._add_one_part 10 (part_table_t.init 0 1 : part_table_t Nat)).1).1
      (5 : Nat) 2 = call_result.assert_failed ∧
    part_table_t.enqueue (fun (p a : Nat) => ((p + a : Nat) : Int))
      (part_table_t._add_one_part 20
        (part_table_t._add_one_part 10 (part_table_t.init 0 1 : part_table_t Nat)).1).1
      (5 : Nat) (-1) = call_result.out_of_bounds := by
  decide

/-! ### C19: distribution of the CPUs by `reset()` -/

/-- C19. When `reset()` returns, it has called `reset(cpu)` on the partitions in
vector order, the first with the start CPU of the table and each next one with
`next_cpu` of the CPU given to the one before; `move()` sets the start CPU and
the range and then does the same. With the binding enabled, for `c ≥ 0`,
`step ≥ 0` and `active_cpu_count > 0` every CPU that `next_cpu(c)` returns is
`(c + step) mod active_cpu_count` and lies in `[0, active_cpu_count)`, and it
returns one when `c + step` is an `int`; with the binding disabled it returns
`PBIND_NONE`. `reset()` does return when the binding is disabled, and when it
is enabled and the sums stay in the range of `int`. -/
theorem cpu_distribution_on_reset {P : Type} (ev : String → Option Int) (DF n : Int)
    (t : part_table_t P) :
    (∀ t1 calls, part_table_t.reset (part_table_t.next_cpu ev DF n) t = some (t1, calls) →
      calls.map Prod.fst = List.range t._ppvec.length ∧
      (t._ppvec ≠ [] → (calls.map Prod.snd).head? = some t._start_prs_id) ∧
      List.Chain' (fun a b => part_table_t.next_cpu ev DF n a = some b) (calls.map Prod.snd)) ∧
    (∀ aprs arange, part_table_t.move (part_table_t.next_cpu ev DF n) t aprs arange =
      part_table_t.reset (part_table_t.next_cpu ev DF n)
        { t with _start_prs_id := aprs, _prs_range := arange }) ∧
    (getVarInt ev "dora-cpu-binding" 0 ≠ 0 →
      ∀ c, 0 ≤ c → 0 ≤ getVarInt ev "dora-cpu-partition-step" DF → 0 < n →
        (∀ r, part_table_t.next_cpu ev DF n c = some r →
          r = (c + getVarInt ev "dora-cpu-partition-step" DF) % n ∧ 0 ≤ r ∧ r < n) ∧
        (c + getVarInt ev "dora-cpu-partition-step" DF ≤ INT_MAX →
          part_table_t.next_cpu ev DF n c =
            some ((c + getVarInt ev "dora-cpu-partition-step" DF) % n))) ∧
    (getVarInt ev "dora-cpu-binding" 0 = 0 →
      (∀ c, part_table_t.next_cpu ev DF n c = some PBIND_NONE) ∧
      (part_table_t.reset (part_table_t.next_cpu ev DF n) t).isSome = true) ∧
    (getVarInt ev "dora-cpu-binding" 0 ≠ 0 → 0 ≤ t._start_prs_id →
      0 ≤ getVarInt ev "dora-cpu-partition-step" DF → 0 < n →
      t._start_prs_id + getVarInt ev "dora-cpu-partition-step" DF ≤ INT_MAX →
      n - 1 + getVarInt ev "dora-cpu-partition-step" DF ≤ INT_MAX →
      (part_table_t.reset (part_table_t.next_cpu ev DF n) t).isSome = true) := by
  refine ⟨fun t1 calls h => ?_, fun _ _ => rfl, fun hb c hc hs hn => ?_, fun hb => ⟨?_, ?_⟩,
    fun hb h0 hs hn h1 h2 => ?_⟩
  · unfold part_table_t.reset at h
    dsimp only at h
    cases hl : part_table_t.reset_loop (part_table_t.next_cpu ev DF n) t._ppvec 0
        t._start_prs_id [] with
    | none => rw [hl] at h; simp at h
    | some r =>
      rw [hl] at h
      simp only [Option.some.injEq, Prod.mk.injEq] at h
      obtain ⟨cs, h1, h2, h3, h4⟩ := part_table_t.reset_loop_spec _ t._ppvec 0
        t._start_prs_id [] r.1 r.2 hl
      rw [← h.2, h1]
      have hlen : (List.range' 0 t._ppvec.length).length = cs.length := by simp [h2]
      refine ⟨?_, fun hne => ?_, ?_⟩
      · rw [List.nil_append, List.map_fst_zip _ _ (le_of_eq hlen), List.range_eq_range']
      · rw [List.nil_append, List.map_snd_zip _ _ (le_of_eq hlen.symm)]
        cases cs with
        | nil => simp at h2; exact absurd (List.length_eq_zero.mp h2.symm) hne
        | cons c0 cs0 => simpa using h4
      · rw [List.nil_append, List.map_snd_zip _ _ (le_of_eq hlen.symm)]
        exact h3.left_of_append
  · exact part_table_t.next_cpu_bound ev DF n c hb hc hs hn
  · intro c; simp [part_table_t.next_cpu, hb]
  · have ht := part_table_t.reset_loop_total (part_table_t.next_cpu ev DF n) (fun _ => True)
      (fun c _ => ⟨PBIND_NONE, by simp [part_table_t.next_cpu, hb], trivial⟩) t._ppvec 0
      t._start_prs_id [] trivial
    unfold part_table_t.reset
    dsimp only
    cases hl : part_table_t.reset_loop (part_table_t.next_cpu ev DF n) t._ppvec 0
        t._start_prs_id [] with
    | none => rw [hl] at ht; simp at ht
    | some r => rfl
  · have ht := part_table_t.reset_loop_total (part_table_t.next_cpu ev DF n)
      (fun c => 0 ≤ c ∧ c + getVarInt ev "dora-cpu-partition-step" DF ≤ INT_MAX)
      (fun c hc => by
        have hb1 := part_table_t.next_cpu_bound ev DF n c hb hc.1 hs hn
        refine ⟨_, hb1.2 hc.2, ?_⟩
        have hr := hb1.1 _ (hb1.2 hc.2)
        constructor
        · exact hr.2.1
        · have := hr.2.2
          omega) t._ppvec 0 t._start_prs_id [] ⟨h0, h1⟩
    unfold part_table_t.reset
    dsimp only
    cases hl : part_table_t.reset_loop (part_table_t.next_cpu ev DF n) t._ppvec 0
        t._start_prs_id [] with
    | none => rw [hl] at ht; simp at ht
    | some r => rfl

/-- C19 on a table of five partitions with start CPU 2, step 1 and four active
CPUs: the partitions get the CPUs 2, 3, 0, 1, 2. -/
theorem cpu_distribution_on_reset_witness :
    (part_table_t.reset
      (part_table_t.next_cpu (fun s => if s = "dora-cpu-binding" then some 1 else none) 1 4)
      (⟨[10, 20, 30, 40, 50], 5, 2, 0, 4⟩ : part_table_t Nat)).map (fun x => x.2) =
      some [(0, 2), (1, 3), (2, 0), (3, 1), (4, 2)] ∧
    part_table_t.next_cpu (fun s => if s = "dora-cpu-binding" then some 1 else none) 1 4 3 =
      some ((3 + getVarInt (fun s => if s = "dora-cpu-binding" then some 1 else none)
        "dora-cpu-partition-step" 1) % 4) :=
  ⟨by decide,
    (((cpu_distribution_on_reset (fun s => if s = "dora-cpu-binding" then some 1 else none) 1 4
      (⟨[10, 20, 30, 40, 50], 5, 2, 0, 4⟩ : part_table_t Nat)).2.2.1 (by decide) 3 (by decide)
      (by decide) (by decide)).2 (by decide))⟩

/-! ### C20: `load` after `format` -/

/-- C20 fails on the code.  With a zeroed buffer, `SET_NULL_FLAG(buf, 0)` leaves
the byte 0 and `IS_NULL_FLAG(buf, 0)` reads the flag as not set; in a buffer in
which the flags of the NULL indexes 0 and 9 alone are set, the flags of the
indexes 1 and 8 read as set too.  A tuple of one nullable field that is NULL is
formatted to the buffer `[0, 0]` and loaded from it with the field not NULL.  A
tuple without a NULL field is loaded as it was formatted. -/
theorem format_load_null_flag :
    (∀ char_signed : Bool,
      SET_NULL_FLAG char_signed [0] 0 = some [0] ∧
      IS_NULL_FLAG char_signed [0] 0 = some false ∧
      IS_NULL_FLAG char_signed [1, 2] 0 = some true ∧
      IS_NULL_FLAG char_signed [1, 2] 9 = some true ∧
      IS_NULL_FLAG char_signed [1, 2] 1 = some true ∧
      IS_NULL_FLAG char_signed [1, 2] 8 = some true ∧
      format byte_field_ops char_signed 2 (fun n => List.replicate n.toNat 0)
        ⟨[⟨true, false, 1, true, [0]⟩], 1, 2, 2, 1⟩ = call_result.returned (2, [0, 0]) ∧
      load byte_field_ops char_signed 2 ⟨[⟨true, false, 1, true, [0]⟩], 1, 2, 2, 1⟩ [0, 0] =
        some ⟨[⟨true, false, 1, false, [0]⟩], 1, 2, 2, 1⟩ ∧
      format byte_field_ops char_signed 2 (fun n => List.replicate n.toNat 0)
        ⟨[⟨true, false, 1, false, [7]⟩, ⟨false, true, 4, false, [1, 2, 3]⟩,
          ⟨true, false, 2, false, [8, 9]⟩], 1, 4, 6, 2⟩ =
        call_result.returned (9, [0, 7, 8, 9, 3, 0, 1, 2, 3]) ∧
      load byte_field_ops char_signed 2
        ⟨[⟨true, false, 1, false, [7]⟩, ⟨false, true, 4, false, [1, 2, 3]⟩,
          ⟨true, false, 2, false, [8, 9]⟩], 1, 4, 6, 2⟩ [0, 7, 8, 9, 3, 0, 1, 2, 3] =
        some ⟨[⟨true, false, 1, false, [7]⟩, ⟨false, true, 4, false, [1, 2, 3]⟩,
          ⟨true, false, 2, false, [8, 9]⟩], 1, 4, 6, 2⟩) := by
  decide

/-! ### C21: `sort_man_impl::reset` -/

/-- C21 fails on the code. A call of `reset()` that returns leaves all members but
the bytes of the buffer and `_is_sorted` as they were, `_tuple_count` included.
On a buffer of tuples of two bytes that holds two tuples, `count()` is 2 after
`reset()`, the buffer is marked unsorted, and the next `add_tuple` stores its
tuple at index 2 and makes the count 3. -/
theorem reset_keeps_tuple_count :
    (∀ m : sort_man_impl,
      sort_man_impl.reset m = call_result.assert_failed ∨
      sort_man_impl.reset m = call_result.out_of_bounds ∨
      ∃ buf, sort_man_impl.reset m =
        call_result.returned { m with _sort_buf := some buf, _is_sorted := false }) ∧
    ((sort_man_impl.add_tuple (fun n => List.replicate n 170) (some [1, 1])
        { _ptable := some [2] }).bind
      (sort_man_impl.add_tuple (fun n => List.replicate n 170) (some [2, 2]))).bind
        sort_man_impl.reset =
      call_result.returned
        { _ptable := some [2]
          _sort_buf := some (List.replicate 100 0 ++ List.replicate 100 170)
          _tuple_size := 2
          _tuple_count := 2
          _buf_size := 100
          _is_sorted := false } ∧
    sort_man_impl.count
        { _ptable := some [2]
          _sort_buf := some (List.replicate 100 0 ++ List.replicate 100 170)
          _tuple_size := 2
          _tuple_count := 2
          _buf_size := 100
          _is_sorted := false } = 2 ∧
    sort_man_impl.add_tuple (fun n => List.replicate n 170) (some [3, 3])
        { _ptable := some [2]
          _sort_buf := some (List.replicate 100 0 ++ List.replicate 100 170)
          _tuple_size := 2
          _tuple_count := 2
          _buf_size := 100
          _is_sorted := false } =
      call_result.returned
        { _ptable := some [2]
          _sort_buf := some ([0, 0, 0, 0, 3, 3] ++ List.replicate 94 0 ++ List.replicate 100 170)
          _tuple_size := 2
          _tuple_count := 3
          _buf_size := 100
          _is_sorted := false } := by
  refine ⟨fun m => ?_, by set_option maxRecDepth 10000 in decide, by decide,
    by set_option maxRecDepth 10000 in decide⟩
  unfold sort_man_impl.reset
  cases m._ptable with
  | none => exact Or.inl rfl
  | some fields =>
    cases m._sort_buf with
    | none => exact Or.inl rfl
    | some buf =>
      by_cases h1 : m._buf_size = 0
      · simp [h1]
      · by_cases h2 : m._tuple_size = 0
        · simp [h1, h2]
        · cases h3 : memset_zero buf m._buf_size with
          | none => simp [h1, h2, h3]
          | some buf1 => simp [h1, h2, h3]

/-! ### C22: the dispatch of `mid_nord_rvp::run` -/

/-- C22. When the three enqueues succeed, `run()` makes these calls, in this
order, and returns `RCOK`: it creates the final RVP, then the three actions,
each with the pointer that this creation returned as its RVP, and looks up
partition `wh_id - 1` of ORDER, NEW_ORDER and ORDER_LINE; it enters the lock of
the ORDER partition and enqueues insert-order, enters the lock of the
NEW_ORDER partition, leaves the first and enqueues insert-new-order, enters
the lock of the ORDER_LINE partition, leaves the second and enqueues
insert-order-line, and leaves the third. So one final RVP is created, the
three actions created are bound to it and are the three that are enqueued,
the locks are taken in the order ORD, NORD, OL, after every call at most two
are held, and none is held at the return. -/
theorem midway_dispatch (NDEBUG : Bool) (enq : nord_table → Int) (new_rvp : Nat)
    (r : mid_nord_rvp)
    (hord : enq nord_table.ord = 0) (hnor : enq nord_table.nor = 0)
    (holi : enq nord_table.oli = 0) :
    mid_nord_rvp.run NDEBUG enq new_rvp r =
      ([RunEvent.new_final_nord_rvp new_rvp,
        RunEvent.new_action nord_kind.ins_ord new_rvp,
        RunEvent.myPart nord_table.ord (r._in._wh_id - 1),
        RunEvent.new_action nord_kind.ins_nord new_rvp,
        RunEvent.myPart nord_table.nor (r._in._wh_id - 1),
        RunEvent.new_action nord_kind.ins_ol new_rvp,
        RunEvent.myPart nord_table.oli (r._in._wh_id - 1),
        RunEvent.cs_enter nord_table.ord,
        RunEvent.enqueue nord_kind.ins_ord nord_table.ord (r._in._wh_id - 1) r._bWake,
        RunEvent.cs_enter nord_table.nor,
        RunEvent.cs_exit nord_table.ord,
        RunEvent.enqueue nord_kind.ins_nord nord_table.nor (r._in._wh_id - 1) r._bWake,
        RunEvent.cs_enter nord_table.oli,
        RunEvent.cs_exit nord_table.nor,
        RunEvent.enqueue nord_kind.ins_ol nord_table.oli (r._in._wh_id - 1) r._bWake,
        RunEvent.cs_exit nord_table.oli], run_result.returned w_rc_t.RCOK) ∧
    created_rvps (mid_nord_rvp.run NDEBUG enq new_rvp r).1 = [new_rvp] ∧
    created_actions (mid_nord_rvp.run NDEBUG enq new_rvp r).1 =
      [(nord_kind.ins_ord, new_rvp), (nord_kind.ins_nord, new_rvp),
        (nord_kind.ins_ol, new_rvp)] ∧
    enqueued_actions (mid_nord_rvp.run NDEBUG enq new_rvp r).1 =
      [nord_kind.ins_ord, nord_kind.ins_nord, nord_kind.ins_ol] ∧
    locks_taken (mid_nord_rvp.run NDEBUG enq new_rvp r).1 =
      [nord_table.ord, nord_table.nor, nord_table.oli] ∧
    (∀ n, (locks_held ((mid_nord_rvp.run NDEBUG enq new_rvp r).1.take n)).length ≤ 2) ∧
    locks_held (mid_nord_rvp.run NDEBUG enq new_rvp r).1 = [] := by
  have hrun : mid_nord_rvp.run NDEBUG enq new_rvp r =
      ([RunEvent.new_final_nord_rvp new_rvp,
        RunEvent.new_action nord_kind.ins_ord new_rvp,
        RunEvent.myPart nord_table.ord (r._in._wh_id - 1),
        RunEvent.new_action nord_kind.ins_nord new_rvp,
        RunEvent.myPart nord_table.nor (r._in._wh_id - 1),
        RunEvent.new_action nord_kind.ins_ol new_rvp,
        RunEvent.myPart nord_table.oli (r._in._wh_id - 1),
        RunEvent.cs_enter nord_table.ord,
        RunEvent.enqueue nord_kind.ins_ord nord_table.ord (r._in._wh_id - 1) r._bWake,
        RunEvent.cs_enter nord_table.nor,
        RunEvent.cs_exit nord_table.ord,
        RunEvent.enqueue nord_kind.ins_nord nord_table.nor (r._in._wh_id - 1) r._bWake,
        RunEvent.cs_enter nord_table.oli,
        RunEvent.cs_exit nord_table.nor,
        RunEvent.enqueue nord_kind.ins_ol nord_table.oli (r._in._wh_id - 1) r._bWake,
        RunEvent.cs_exit nord_table.oli], run_result.returned w_rc_t.RCOK) := by
    simp [mid_nord_rvp.run, hord, hnor, holi]
  refine ⟨hrun, ?_, ?_, ?_, ?_, fun n => ?_, ?_⟩
  · rw [hrun]; simp [created_rvps]
  · rw [hrun]; simp [created_actions]
  · rw [hrun]; simp [enqueued_actions]
  · rw [hrun]; simp [locks_taken]
  · rw [hrun]
    by_cases hn : n < 17
    · interval_cases n <;> simp [locks_held, lock_step]
    · rw [List.take_of_length_le (by simp; omega)]
      simp [locks_held, lock_step]
  · rw [hrun]; simp [locks_held, lock_step]

/-- C22 for warehouse 3 and the final RVP 9: the three actions are created with
the RVP 9 and go to partition 2 of their tables. -/
theorem midway_dispatch_witness :
    created_actions (mid_nord_rvp.run false (fun _ => 0) 9 ⟨⟨3, 2, 1, 5⟩, true⟩).1 =
      [(nord_kind.ins_ord, 9), (nord_kind.ins_nord, 9), (nord_kind.ins_ol, 9)] ∧
    enqueued_actions (mid_nord_rvp.run false (fun _ => 0) 9 ⟨⟨3, 2, 1, 5⟩, true⟩).1 =
      [nord_kind.ins_ord, nord_kind.ins_nord, nord_kind.ins_ol] ∧
    (mid_nord_rvp.run false (fun _ => 0) 9 ⟨⟨3, 2, 1, 5⟩, true⟩).2 =
      run_result.returned w_rc_t.RCOK ∧
    RunEvent.enqueue nord_kind.ins_ol nord_table.oli 2 true ∈
      (mid_nord_rvp.run false (fun _ => 0) 9 ⟨⟨3, 2, 1, 5⟩, true⟩).1 :=
  ⟨(midway_dispatch false (fun _ => 0) 9 ⟨⟨3, 2, 1, 5⟩, true⟩ rfl rfl rfl).2.2.1,
    (midway_dispatch false (fun _ => 0) 9 ⟨⟨3, 2, 1, 5⟩, true⟩ rfl rfl rfl).2.2.2.1,
    by decide, by decide⟩

/-! ### C23: the counter `waiting` and the flushing queue -/

/-- C23 fails on the code. With `flusher-group-size` 3, the first generation pushes
two transactions that are not yet durable to the flushing queue (`waiting = 2`),
no trigger fires, the lazy flush is called and the forwarding loop empties the
flushing queue; `waiting` stays 2. At the flush decision of the second
generation `waiting` is 2 and the flushing queue is empty; and when one more
transaction has arrived meanwhile, `waiting` is 3 with one RVP in the flushing
queue, and the count trigger fires. -/
theorem waiting_counter_stale :
    (dora_flusher_t._work_ACTIVE_impl
      (fun n => if n = "flusher-group-size" then some 3 else none)
      (fun a b => (a : Int) - b) ⟨0, 0⟩
      [⟨5, ⟨0, 100⟩, true, 9⟩] { toflush := [⟨1, 5⟩, ⟨2, 6⟩] }).flushing = [] ∧
    (dora_flusher_t._work_ACTIVE_impl
      (fun n => if n = "flusher-group-size" then some 3 else none)
      (fun a b => (a : Int) - b) ⟨0, 0⟩
      [⟨5, ⟨0, 100⟩, true, 9⟩] { toflush := [⟨1, 5⟩, ⟨2, 6⟩] }).waiting = 2 ∧
    (dora_flusher_t._work_ACTIVE_impl
      (fun n => if n = "flusher-group-size" then some 3 else none)
      (fun a b => (a : Int) - b) ⟨0, 0⟩
      [⟨5, ⟨0, 100⟩, true, 9⟩] { toflush := [⟨1, 5⟩, ⟨2, 6⟩] }).stats =
      { served := 2 } ∧
    (dora_flusher_t.drain_toflush (dora_flusher_t.begin_generation ⟨9, ⟨0, 200⟩, true, 12⟩
      (dora_flusher_t._work_ACTIVE_impl
        (fun n => if n = "flusher-group-size" then some 3 else none)
        (fun a b => (a : Int) - b) ⟨0, 0⟩
        [⟨5, ⟨0, 100⟩, true, 9⟩] { toflush := [⟨1, 5⟩, ⟨2, 6⟩] }))).waiting = 2 ∧
    (dora_flusher_t.drain_toflush (dora_flusher_t.begin_generation ⟨9, ⟨0, 200⟩, true, 12⟩
      (dora_flusher_t._work_ACTIVE_impl
        (fun n => if n = "flusher-group-size" then some 3 else none)
        (fun a b => (a : Int) - b) ⟨0, 0⟩
        [⟨5, ⟨0, 100⟩, true, 9⟩] { toflush := [⟨1, 5⟩, ⟨2, 6⟩] }))).flushing = [] ∧
    (dora_flusher_t.drain_toflush (dora_flusher_t.begin_generation ⟨9, ⟨0, 200⟩, true, 12⟩
      { dora_flusher_t._work_ACTIVE_impl
          (fun n => if n = "flusher-group-size" then some 3 else none)
          (fun a b => (a : Int) - b) ⟨0, 0⟩
          [⟨5, ⟨0, 100⟩, true, 9⟩] { toflush := [⟨1, 5⟩, ⟨2, 6⟩] } with
        toflush := [⟨3, 9⟩] })).waiting = 3 ∧
    (dora_flusher_t.drain_toflush (dora_flusher_t.begin_generation ⟨9, ⟨0, 200⟩, true, 12⟩
      { dora_flusher_t._work_ACTIVE_impl
          (fun n => if n = "flusher-group-size" then some 3 else none)
          (fun a b => (a : Int) - b) ⟨0, 0⟩
          [⟨5, ⟨0, 100⟩, true, 9⟩] { toflush := [⟨1, 5⟩, ⟨2, 6⟩] } with
        toflush := [⟨3, 9⟩] })).flushing = [⟨3, 9⟩] ∧
    (dora_flusher_t.generation
      (read_configuration (fun n => if n = "flusher-group-size" then some 3 else none)
        (fun a b => (a : Int) - b))
      ⟨9, ⟨0, 200⟩, true, 12⟩
      { dora_flusher_t._work_ACTIVE_impl
          (fun n => if n = "flusher-group-size" then some 3 else none)
          (fun a b => (a : Int) - b) ⟨0, 0⟩
          [⟨5, ⟨0, 100⟩, true, 9⟩] { toflush := [⟨1, 5⟩, ⟨2, 6⟩] } with
        toflush := [⟨3, 9⟩] }).stats =
      { served := 3, trigByXcts := 1, flushes := 1, waiting := 3, logsize := 1 } := by
  decide

/-! ### C24: forwarding and the log sync -/

/-- C24. In a generation that starts with an empty flushing queue, in which the
flusher is still active at line 203 and fewer than `2^32` transactions are
counted (`waiting` plus the number of entries of the to-flush queue is below
`2^32`, the range of the `uint` counter): the generation ends with the
forwarding loop; if the flushing queue is not empty when the forwarding
starts, `sync_log` has been called before in the same generation; and if no
assertion fails, the flushing queue is empty at the end of the generation,
which is the start of the next one. -/
theorem forwarding_after_sync (c : flusher_conf) (i : gen_input) (s : dora_flusher_t)
    (hfl : s.flushing = []) (hact : i.active = true)
    (hw : s.waiting + s.toflush.length < 2 ^ 32) :
    dora_flusher_t.generation c i s =
      dora_flusher_t.forward_flushing (dora_flusher_t.reread_durable i (dora_flusher_t.flush
        (dora_flusher_t.decide_flush c i.now
          (dora_flusher_t.drain_toflush (dora_flusher_t.begin_generation i s))))) ∧
    ((dora_flusher_t.reread_durable i (dora_flusher_t.flush
        (dora_flusher_t.decide_flush c i.now
          (dora_flusher_t.drain_toflush (dora_flusher_t.begin_generation i s))))).flushing ≠ [] →
      ∃ g h,
        (dora_flusher_t.reread_durable i (dora_flusher_t.flush
          (dora_flusher_t.decide_flush c i.now
            (dora_flusher_t.drain_toflush (dora_flusher_t.begin_generation i s))))).trace =
          s.trace ++ g ∧
        Event.sync_log ∈ g ∧
        (dora_flusher_t.generation c i s).trace =
          (dora_flusher_t.reread_durable i (dora_flusher_t.flush
            (dora_flusher_t.decide_flush c i.now
              (dora_flusher_t.drain_toflush (dora_flusher_t.begin_generation i s))))).trace ++ h) ∧
    ((dora_flusher_t.generation c i s).aborted = false →
      (dora_flusher_t.generation c i s).flushing = []) := by
  have hgen : dora_flusher_t.generation c i s =
      dora_flusher_t.forward_flushing (dora_flusher_t.reread_durable i (dora_flusher_t.flush
        (dora_flusher_t.decide_flush c i.now
          (dora_flusher_t.drain_toflush (dora_flusher_t.begin_generation i s))))) := by
    unfold dora_flusher_t.generation
    simp [hact]
  have hdr := dora_flusher_t.drain_loop_waiting (dora_flusher_t.begin_generation i s).toflush
    (dora_flusher_t.begin_generation i s) (by simpa [dora_flusher_t.begin_generation] using hw)
  have hdec := dora_flusher_t.decide_flush_sync c i.now
    (dora_flusher_t.drain_toflush (dora_flusher_t.begin_generation i s))
  have hflu := dora_flusher_t.flush_sync (dora_flusher_t.decide_flush c i.now
    (dora_flusher_t.drain_toflush (dora_flusher_t.begin_generation i s)))
  have hfw := dora_flusher_t.forward_loop_empties
    (dora_flusher_t.reread_durable i (dora_flusher_t.flush
      (dora_flusher_t.decide_flush c i.now
        (dora_flusher_t.drain_toflush (dora_flusher_t.begin_generation i s))))).flushing
    (dora_flusher_t.reread_durable i (dora_flusher_t.flush
      (dora_flusher_t.decide_flush c i.now
        (dora_flusher_t.drain_toflush (dora_flusher_t.begin_generation i s))))) rfl
  refine ⟨hgen, fun hne => ?_, fun hab => ?_⟩
  · obtain ⟨h, hh⟩ := hfw.2
    obtain ⟨g1, hg1⟩ := hdr.2
    have hfeq : (dora_flusher_t.reread_durable i (dora_flusher_t.flush
        (dora_flusher_t.decide_flush c i.now
          (dora_flusher_t.drain_toflush (dora_flusher_t.begin_generation i s))))).flushing =
        (dora_flusher_t.drain_toflush (dora_flusher_t.begin_generation i s)).flushing := by
      simp only [dora_flusher_t.reread_durable]
      rw [hflu.1, hdec.1]
    rw [hfeq] at hne
    have hwne : (dora_flusher_t.drain_toflush (dora_flusher_t.begin_generation i s)).waiting ≠ 0 := by
      have h1 := hdr.1
      have h2 : (dora_flusher_t.drain_toflush (dora_flusher_t.begin_generation i s)).flushing.length
          ≠ 0 := fun h0 => hne (List.length_eq_zero.mp h0)
      unfold dora_flusher_t.drain_toflush at h2 ⊢
      simp only [dora_flusher_t.begin_generation, hfl, List.length_nil] at h1 h2 ⊢
      omega
    have htr : (dora_flusher_t.reread_durable i (dora_flusher_t.flush
        (dora_flusher_t.decide_flush c i.now
          (dora_flusher_t.drain_toflush (dora_flusher_t.begin_generation i s))))).trace =
        (dora_flusher_t.decide_flush c i.now
          (dora_flusher_t.drain_toflush (dora_flusher_t.begin_generation i s))).trace ++
        (if (dora_flusher_t.decide_flush c i.now
          (dora_flusher_t.drain_toflush (dora_flusher_t.begin_generation i s))).bShouldFlush = true
          then [Event.sync_log] else []) ++ [Event.get_durable_lsn i.durable2] := by
      simp only [dora_flusher_t.reread_durable]
      rw [hflu.2]
    have hbeg : (dora_flusher_t.drain_toflush (dora_flusher_t.begin_generation i s)).trace =
        s.trace ++ (Event.get_durable_lsn i.durable1 :: g1) := by
      unfold dora_flusher_t.drain_toflush
      rw [hg1]
      simp [dora_flusher_t.begin_generation]
    rcases hdec.2.2 with ⟨hb, ht⟩ | ⟨_, ht⟩
    · refine ⟨Event.get_durable_lsn i.durable1 :: g1 ++
        [Event.sync_log, Event.get_durable_lsn i.durable2], h, ?_, by simp,
        by rw [hgen]; exact hh⟩
      rw [htr, ht, hbeg, hb]
      simp
    · refine ⟨Event.get_durable_lsn i.durable1 :: g1 ++ [Event.sync_log] ++
        (if (dora_flusher_t.decide_flush c i.now
          (dora_flusher_t.drain_toflush (dora_flusher_t.begin_generation i s))).bShouldFlush = true
          then [Event.sync_log] else []) ++ [Event.get_durable_lsn i.durable2], h, ?_, by simp,
        by rw [hgen]; exact hh⟩
      rw [htr, ht, hbeg, if_pos hwne]
      simp
  · rw [hgen] at hab ⊢
    exact hfw.1 hab

/-- C24 on a generation with one transaction that is not yet durable:
the lazy flush is called and the flushing queue is empty at the end. -/
theorem forwarding_after_sync_witness :
    (dora_flusher_t.generation ⟨100, 200000, 1000, fun a b => (a : Int) - b⟩
      ⟨5, ⟨0, 0⟩, true, 9⟩ { toflush := [⟨1, 5⟩] }).flushing = [] ∧
    Event.sync_log ∈ (dora_flusher_t.generation ⟨100, 200000, 1000, fun a b => (a : Int) - b⟩
      ⟨5, ⟨0, 0⟩, true, 9⟩ { toflush := [⟨1, 5⟩] }).trace :=
  ⟨(forwarding_after_sync ⟨100, 200000, 1000, fun a b => (a : Int) - b⟩
      ⟨5, ⟨0, 0⟩, true, 9⟩ { toflush := [⟨1, 5⟩] } rfl rfl (by decide)).2.2 (by decide),
    by decide⟩

/-! ### C25: the lock of the key-range map -/

/-- C25 fails on the code. On the map `{10 → 1}` and the key 5, which no partition
covers, `getPartitionByKey` and `getPartitions` return
`mrb_PARTITION_NOT_FOUND` with the read lock still held, and
`_deletePartitionByKey` and `deletePartitionByKey` return it with the write
lock still held. `addPartition` releases the lock on both paths, and the calls
that find the partition of the key 15 release it. -/
theorem not_found_keeps_lock :
    (key_ranges_map.getPartitionByKey 7 (⟨[(10, 1)], 1, 10, 100, {}⟩ : key_ranges_map Nat)
      5 0).1 = w_rc_t.RC 7 ∧
    (key_ranges_map.getPartitionByKey 7 (⟨[(10, 1)], 1, 10, 100, {}⟩ : key_ranges_map Nat)
      5 0).2.2._rwlock = { readers := 1, writer := false } ∧
    (key_ranges_map.getPartitions 7 (⟨[(10, 1)], 1, 10, 100, {}⟩ : key_ranges_map Nat)
      5 true 15 true []).map (fun x => (x.1, x.2.2._rwlock)) =
      some (w_rc_t.RC 7, { readers := 1, writer := false }) ∧
    (key_ranges_map._deletePartitionByKey 7 (⟨[(10, 1)], 1, 10, 100, {}⟩ : key_ranges_map Nat)
      5).map (fun x => (x.1, x.2._rwlock)) =
      some (w_rc_t.RC 7, { readers := 0, writer := true }) ∧
    (key_ranges_map.deletePartitionByKey 7 (⟨[(10, 1)], 1, 10, 100, {}⟩ : key_ranges_map Nat)
      5).map (fun x => (x.1, x.2._rwlock)) =
      some (w_rc_t.RC 7, { readers := 0, writer := true }) ∧
    (key_ranges_map.addPartition 7 (⟨[(10, 1)], 1, 10, 100, {}⟩ : key_ranges_map Nat)
      5 9).1 = w_rc_t.RC 7 ∧
    (key_ranges_map.addPartition 7 (⟨[(10, 1)], 1, 10, 100, {}⟩ : key_ranges_map Nat)
      5 9).2.2._rwlock = {} ∧
    (key_ranges_map.addPartition 7 (⟨[(10, 1)], 1, 10, 100, {}⟩ : key_ranges_map Nat)
      15 9).2.2._rwlock = {} ∧
    (key_ranges_map.getPartitionByKey 7 (⟨[(10, 1)], 1, 10, 100, {}⟩ : key_ranges_map Nat)
      15 0).2.2._rwlock = {} ∧
    (key_ranges_map.getPartitions 7 (⟨[(10, 1)], 1, 10, 100, {}⟩ : key_ranges_map Nat)
      15 true 15 true []).map (fun x => (x.1, x.2.2._rwlock)) = some (w_rc_t.RCOK, {}) ∧
    (key_ranges_map.deletePartition 7
      (⟨[(20, 2), (10, 1)], 2, 10, 100, {}⟩ : key_ranges_map Nat) 2).map
        (fun x => (x.1, x.2._rwlock)) = some (w_rc_t.RCOK, {}) ∧
    (key_ranges_map.deletePartition 7
      (⟨[(20, 2), (10, 1)], 2, 10, 100, {}⟩ : key_ranges_map Nat) 3).map
        (fun x => (x.1, x.2._rwlock)) = some (w_rc_t.RC 7, {}) := by
  decide

/-! ### C26: the partition count and the entries of the map -/

/-- C26 fails on the code. On the map `{10 → 1}` with the count 1,
`addPartition(60, root)` makes the count 2 and `setNumPartitions(5)` makes it
5, with one entry in the map in both cases. The constructor stops at the
`assert (0)` of `makeEqualPartitions`; in a build without assertions it leaves
the count `numPartitions` and an empty map. `deletePartition`, `setMinKey` and
`setMaxKey` keep the count equal to the number of entries. -/
theorem partition_count_differs :
    (key_ranges_map.addPartition 7 (⟨[(10, 1)], 1, 10, 100, {}⟩ : key_ranges_map Nat)
      60 9).2.2._numPartitions = 2 ∧
    (key_ranges_map.addPartition 7 (⟨[(10, 1)], 1, 10, 100, {}⟩ : key_ranges_map Nat)
      60 9).2.2._keyRangesMap.length = 1 ∧
    (key_ranges_map.setNumPartitions (⟨[(10, 1)], 1, 10, 100, {}⟩ : key_ranges_map Nat)
      5)._numPartitions = 5 ∧
    (key_ranges_map.setNumPartitions (⟨[(10, 1)], 1, 10, 100, {}⟩ : key_ranges_map Nat)
      5)._keyRangesMap.length = 1 ∧
    (key_ranges_map.construct false 10 100 4 : call_result (key_ranges_map Nat)) =
      call_result.assert_failed ∧
    (key_ranges_map.construct true 10 100 4 : call_result (key_ranges_map Nat)) =
      call_result.returned ⟨[], 4, 10, 100, {}⟩ ∧
    (key_ranges_map.deletePartition 7
      (⟨[(20, 2), (10, 1)], 2, 10, 100, {}⟩ : key_ranges_map Nat) 2).map
        (fun x => (x.2._numPartitions, x.2._keyRangesMap.length)) = some (1, 1) ∧
    key_ranges_map.setMinKey (⟨[(20, 2), (10, 1)], 2, 10, 100, {}⟩ : key_ranges_map Nat) 5 =
      ⟨[(20, 2), (10, 1)], 2, 5, 100, {}⟩ ∧
    key_ranges_map.setMaxKey (⟨[(20, 2), (10, 1)], 2, 10, 100, {}⟩ : key_ranges_map Nat) 200 =
      ⟨[(20, 2), (10, 1)], 2, 10, 200, {}⟩ := by
  decide

/-! ### C27: `tuple_buffer_t::get_tuple` -/

/-- C27 fails on the code: the test of `get_tuple` is inverted. When
`wait_for_input()` returns 0, `get_tuple` returns 1 and leaves `rec` and the
read iterator as they are; when it returns 1, there is no page and `get_tuple`
dereferences the read iterator. So on a buffer with the mounted page `[7, 8]`,
and on a buffer without a page for which `page_buffer.read()` delivers the page
`[7, 8]`, the call returns 1 with `rec` unchanged and the iterator at the first
tuple; on a buffer without a page for which it delivers `NULL`, the call has no
defined result. -/
theorem get_tuple_inverted_test {T : Type} (page : Option (List T)) (b : tuple_buffer_t T)
    (rec : T) :
    tuple_buffer_t.get_tuple page b rec =
      (if (tuple_buffer_t.wait_for_input page b).1 = 0
        then some (1, rec, (tuple_buffer_t.wait_for_input page b).2) else none) ∧
    tuple_buffer_t.get_tuple none (⟨some [7, 8], 0⟩ : tuple_buffer_t Nat) 0 =
      some (1, 0, ⟨some [7, 8], 0⟩) ∧
    tuple_buffer_t.get_tuple (some [7, 8]) (⟨none, 0⟩ : tuple_buffer_t Nat) 0 =
      some (1, 0, ⟨some [7, 8], 0⟩) ∧
    (tuple_buffer_t.wait_for_input none (⟨none, 0⟩ : tuple_buffer_t Nat)).1 = 1 ∧
    tuple_buffer_t.get_tuple none (⟨none, 0⟩ : tuple_buffer_t Nat) 0 = none := by
  refine ⟨?_, by decide, by decide, by decide, by decide⟩
  unfold tuple_buffer_t.get_tuple
  by_cases h : (tuple_buffer_t.wait_for_input page b).1 = 0
  · simp [h]
  · simp only [h, if_false]
    unfold tuple_buffer_t.wait_for_input at h ⊢
    cases hp : b.read_page with
    | some p => simp [hp] at h
    | none =>
      cases page with
      | none => simp [hp]
      | some p => simp [hp] at h

/-! ### C28: the field number of the district info -/

/-- C28 fails on the code. For the district ids 1 to 10 the field numbers `6 + d`
that `upd_sto_nord_action::trx_exec` reads the district info from are 7 to 16:
field 6 is never read, and for the district 10 the field is 16, the one that
the next call reads as `S_DATA`. The element `S_DIST[6 + d]` that is filled, and
that `ins_ol_nord_action::trx_exec` reads, lies in an array of ten elements
for the districts 1 to 3 only. -/
theorem district_info_field_index :
    (List.range 10).map (fun d =>
      (upd_sto_nord_action.get_values ⟨1, (d : Int) + 1, 1, 5⟩).get? 5) =
      [some (7, stock_member.S_DIST 7), some (8, stock_member.S_DIST 8),
       some (9, stock_member.S_DIST 9), some (10, stock_member.S_DIST 10),
       some (11, stock_member.S_DIST 11), some (12, stock_member.S_DIST 12),
       some (13, stock_member.S_DIST 13), some (14, stock_member.S_DIST 14),
       some (15, stock_member.S_DIST 15), some (16, stock_member.S_DIST 16)] ∧
    upd_sto_nord_action.get_values ⟨1, 10, 1, 5⟩ =
      [(0, stock_member.S_I_ID), (1, stock_member.S_W_ID), (5, stock_member.S_YTD),
       (2, stock_member.S_REMOTE_CNT), (3, stock_member.S_QUANTITY),
       (16, stock_member.S_DIST 16), (16, stock_member.S_DATA),
       (4, stock_member.S_ORDER_CNT)] ∧
    (List.range 10).map (fun d =>
      stock_member.in_bounds 10 (ins_ol_nord_action.dist_member ⟨1, (d : Int) + 1, 1, 5⟩)) =
      [true, true, true, false, false, false, false, false, false, false] := by
  decide

/-! ### C29: the partition number of an index -/

/-- C29 as stated fails for a negative key: with four partitions and the first key
field -3, `get_pnum` returns -3. -/
theorem get_pnum_negative_counterexample :
    table_man_impl.get_pnum (some ⟨true, 4, 0⟩) (some (fun _ => -3)) = some (-3) ∧
    ¬ ((0 : Int) ≤ -3) := by
  decide

/-- C29, amended. `get_pnum` returns 0 for an index that is not partitioned. For a
partitioned index with `n > 0` partitions it returns the remainder `p` of the
first key field by `n` in the division that truncates towards zero: `-n < p < n`;
for a key `≥ 0` it is the key modulo `n` and `0 ≤ p < n`, for a negative key
`-n < p ≤ 0`. -/
theorem get_pnum_range (index : index_desc_t) (tuple : Nat → Int)
    (hn : 0 < index.get_partition_count) :
    (index.is_partitioned = false →
      table_man_impl.get_pnum (some index) (some tuple) = some 0) ∧
    (index.is_partitioned = true →
      table_man_impl.get_pnum (some index) (some tuple) =
        some (Int.tmod (tuple index.key_index0) index.get_partition_count) ∧
      -index.get_partition_count < Int.tmod (tuple index.key_index0) index.get_partition_count ∧
      Int.tmod (tuple index.key_index0) index.get_partition_count < index.get_partition_count ∧
      (0 ≤ tuple index.key_index0 →
        Int.tmod (tuple index.key_index0) index.get_partition_count =
          tuple index.key_index0 % index.get_partition_count ∧
        0 ≤ Int.tmod (tuple index.key_index0) index.get_partition_count) ∧
      (tuple index.key_index0 < 0 →
        Int.tmod (tuple index.key_index0) index.get_partition_count ≤ 0)) := by
  have hne : index.get_partition_count ≠ 0 := by omega
  have hne1 : index.get_partition_count ≠ -1 := by omega
  refine ⟨fun h => by simp [table_man_impl.get_pnum, h], fun h => ⟨?_, ?_, ?_, fun hk => ?_, fun hk => ?_⟩⟩
  · simp [table_man_impl.get_pnum, h, int_rem, hne, hne1]
  · exact (tmod_bounds _ _ hn).1
  · exact (tmod_bounds _ _ hn).2.1
  · rw [Int.tmod_eq_emod hk (le_of_lt hn)]
    exact ⟨rfl, Int.emod_nonneg _ hne⟩
  · exact (tmod_bounds _ _ hn).2.2 hk

/-- The amended C29 for four partitions and the keys 10 and -3. -/
theorem get_pnum_range_witness :
    table_man_impl.get_pnum (some ⟨true, 4, 0⟩) (some (fun _ => 10)) = some (Int.tmod 10 4) ∧
    Int.tmod (-3) 4 ≤ 0 :=
  ⟨((get_pnum_range ⟨true, 4, 0⟩ (fun _ => 10) (by decide)).2 rfl).1,
    ((get_pnum_range ⟨true, 4, 0⟩ (fun _ => -3) (by decide)).2 rfl).2.2.2.2 (by decide)⟩

end dora
